import Mathlib

/-!
# Blues-Minimal-I2C: the framed I2C transaction of `RAK_BLUES`

A shallow embedding of `src/src/blues-minimal-i2c.cpp`:

* the Arduino environment (`Wire`, `millis`, `delay`) is an explicit interface `Platform`
  over a device state `σ`, threaded through every function;
* ArduinoJson (`serializeJson`, `deserializeJson`) is an explicit interface `Json` over a
  document type `δ`;
* memory is a flat byte array indexed from the first byte of `in_out_buff`; a pointer is an
  offset into it;
* every function additionally returns the list of bus events and driver calls it performed
  (a ghost trace), in program order;
* the receive loop of `send_req` has no static bound, so it is run with a poll budget; a
  result whose `ret` is `none` is a loop that is still polling when the budget is used up.
  `size_t` counters are unbounded naturals; `uint8_t`, `uint16_t` and `uint32_t` values are
  reduced explicitly.
-/

namespace RakBlues

/-! ## Memory -/

/-- Flat byte memory, addressed relative to the start of `in_out_buff`. -/
abbrev Mem := Nat → Nat

/-- Store one byte: `m[a] = v`. -/
def Mem.write (m : Mem) (a v : Nat) : Mem := fun i => if i = a then v else m i

/-- Store consecutive bytes starting at `a`. -/
def Mem.writeList (m : Mem) (a : Nat) : List Nat → Mem
  | [] => m
  | b :: bs => Mem.writeList (Mem.write m a b) (a + 1) bs

/-- The `n` bytes starting at `a`. -/
def Mem.read (m : Mem) (a : Nat) : Nat → List Nat
  | 0 => []
  | n + 1 => m a :: Mem.read m (a + 1) n

/-- Library `memset(in_out_buff, c, n)`. -/
def memset (m : Mem) (c n : Nat) : Mem := fun i => if i < n then c else m i

/-- The C string starting at `a`: the bytes before the first NUL, scanning at most `limit`. -/
def cstring (m : Mem) (a limit : Nat) : List Nat :=
  (Mem.read m a limit).takeWhile (fun b => b != 0)

/-! ## Constants -/

/-- The bus chunk limit: `#define i2c_buff 24` under `RUI_SDK`, else `#define i2c_buff 32`. -/
def i2c_buff (RUI_SDK : Bool) : Nat := if RUI_SDK then 24 else 32

/-- Modelled from the spec: the capacity `JSON_BUFF_SIZE` of the transaction buffer
`in_out_buff`, declared in the header `blues-minimal-i2c.h`, which is not part of the
sources; the spec gives the capacity as 4096 bytes. -/
def JSON_BUFF_SIZE : Nat := 4096

/-- The constant `AVAILBLE_MAX = 255 - 2` of `blues_I2C_RX`. -/
def AVAILBLE_MAX : Nat := 255 - 2

/-! ## Environment -/

/-- What the driver does on the bus, in program order, and the driver calls themselves. -/
inductive Event where
  /-- One `beginTransmission … endTransmission` with the bytes written and the error code. -/
  | write (addr : Nat) (bytes : List Nat) (err : Nat)
  /-- One `Wire.requestFrom(addr, len)` with the bytes delivered. -/
  | read (addr : Nat) (len : Nat) (resp : List Nat)
  /-- One `I2C_RST()`. -/
  | rst
  /-- One completed `blues_I2C_TX(addr, buffer_, size_)` with its payload and return value. -/
  | tx (payload : List Nat) (size : Nat) (ok : Bool)
  /-- One completed `blues_I2C_RX(addr, buffer_, requested, &available)`. -/
  | rx (buffer : Nat) (requested : Nat) (ok : Bool)
  deriving DecidableEq, Repr

/-- The Arduino environment the driver runs on. -/
structure Platform (σ : Type) where
  /-- Calls `Wire.beginTransmission(addr); Wire.write(bytes…); Wire.endTransmission()`. -/
  endTransmission : σ → Nat → List Nat → Nat × σ
  /-- Call `Wire.requestFrom(addr, len)`: the bytes subsequently returned by `Wire.read()`. -/
  requestFrom : σ → Nat → Nat → List Nat × σ
  /-- Calls `Wire.end(); Wire.begin()`. -/
  wireBegin : σ → σ
  /-- Arduino `millis()`. -/
  millis : σ → Nat
  /-- Arduino `delay(ms)`. -/
  delay : σ → Nat → σ
  /-- The indeterminate content of an uninitialised automatic variable. -/
  indeterminate : Nat

/-- ArduinoJson, as far as the driver uses it. -/
structure Json (δ : Type) where
  /-- Call `serializeJson(doc, buffer, capacity)`: the characters written. -/
  serializeJson : δ → Nat → List Nat
  /-- Calls `doc.clear(); deserializeJson(doc, text)`: the document read from `text`. -/
  deserializeJson : List Nat → δ

variable {σ δ : Type}

/-- Source `RAK_BLUES::I2C_RST` (lines 56-62). -/
def I2C_RST (W : Platform σ) (d : σ) : σ × List Event :=
  (W.wireBegin d, [Event.rst])

/-- One write transaction to `static_cast<uint8_t>(address)`; the error code is a `uint8_t`. -/
def wireWrite (W : Platform σ) (d : σ) (address : Nat) (bytes : List Nat) :
    Nat × σ × List Event :=
  let r := W.endTransmission d (address % 256) bytes
  (r.1 % 256, r.2, [Event.write (address % 256) bytes (r.1 % 256)])

/-- One read transaction; every delivered item is a byte. -/
def wireRequestFrom (W : Platform σ) (d : σ) (address len : Nat) :
    List Nat × σ × List Event :=
  let r := W.requestFrom d address len
  let resp := r.1.map (fun b => b % 256)
  (resp, r.2, [Event.read address len resp])

/-! ## Bus transport -/

/-- Source `RAK_BLUES::blues_I2C_TX(device_address_, buffer_, size_)` (lines 1749-1786). -/
def blues_I2C_TX (W : Platform σ) (d : σ) (device_address_ : Nat) (m : Mem)
    (buffer_ size_ : Nat) : Bool × σ × List Event :=
  let payload := Mem.read m buffer_ size_
  let t := wireWrite W d device_address_ ((size_ % 256) :: payload)
  let transmission_error := t.1
  if transmission_error ≠ 0 then
    let r := I2C_RST W t.2.1
    (false, r.1, t.2.2 ++ r.2 ++ [Event.tx payload size_ false])
  else
    (true, t.2.1, t.2.2 ++ [Event.tx payload size_ true])

/-- What the control-write loop of `blues_I2C_RX` leaves behind. -/
structure ControlWrite (σ : Type) where
  transmission_error : Nat
  result : Bool
  dev : σ
  trace : List Event

/-- The loop `for (i = 0; i < 3; ++i)` of `blues_I2C_RX` (lines 1803-1838); `n` is the
number of iterations left. -/
def controlWrite (W : Platform σ) (device_address_ requested_byte_count_ : Nat) :
    Nat → ControlWrite σ → ControlWrite σ
  | 0, c => c
  | n + 1, c =>
    let t := wireWrite W c.dev device_address_ [0, requested_byte_count_ % 256]
    if t.1 = 0 then
      { transmission_error := t.1, result := c.result, dev := t.2.1,
        trace := c.trace ++ t.2.2 }
    else
      let r := I2C_RST W t.2.1
      controlWrite W device_address_ requested_byte_count_ n
        { transmission_error := t.1, result := false, dev := r.1,
          trace := c.trace ++ t.2.2 ++ r.2 }

/-- The copy loop `for (i = 0; i < requested_byte_count_; ++i) { buffer_[i] = Wire.read();
delay(6); }` (lines 1880-1886); `rest` is what `Wire.read()` still has to deliver. -/
def rxCopy (W : Platform σ) (buffer_ : Nat) : Nat → Nat → List Nat → Mem → σ → Mem × σ
  | 0, _, _, m, d => (m, d)
  | n + 1, i, rest, m, d =>
    rxCopy W buffer_ n (i + 1) rest.tail (Mem.write m (buffer_ + i) (rest.headD 255))
      (W.delay d 6)

/-- What `blues_I2C_RX` returns and leaves behind. -/
structure RxResult (σ : Type) where
  /-- The return value. -/
  result : Bool
  /-- Memory, `buffer_[…]` included. -/
  mem : Mem
  /-- The content of `*available_`. -/
  available : Nat
  dev : σ
  trace : List Event
  /-- The bytes `Wire.requestFrom` delivered, when the read was issued. -/
  response : Option (List Nat)

/-- Source `RAK_BLUES::blues_I2C_RX(device_address_, buffer_, requested_byte_count_,
available_)` (lines 1797-1891); `available_` is the content of `*available_` on entry. -/
def blues_I2C_RX (W : Platform σ) (d : σ) (device_address_ : Nat) (m : Mem)
    (buffer_ requested_byte_count_ available_ : Nat) : RxResult σ :=
  let c := controlWrite W device_address_ requested_byte_count_ 3
    { transmission_error := 0, result := true, dev := d, trace := [] }
  let d1 := W.delay c.dev 2
  if c.transmission_error = 0 then
    let request_length := requested_byte_count_ + 2
    let q := wireRequestFrom W d1 device_address_ request_length
    let resp := q.1
    let response_length := resp.length
    if response_length = 0 then
      { result := false, mem := m, available := available_, dev := q.2.1,
        trace := c.trace ++ q.2.2 ++ [Event.rx buffer_ requested_byte_count_ false],
        response := some resp }
    else if response_length ≠ request_length then
      { result := false, mem := m, available := available_, dev := q.2.1,
        trace := c.trace ++ q.2.2 ++ [Event.rx buffer_ requested_byte_count_ false],
        response := some resp }
    else
      let available := resp.headD 4294967295
      if available > AVAILBLE_MAX then
        { result := false, mem := m, available := available_, dev := q.2.1,
          trace := c.trace ++ q.2.2 ++ [Event.rx buffer_ requested_byte_count_ false],
          response := some resp }
      else if requested_byte_count_ ≠ resp.tail.headD 255 then
        { result := false, mem := m, available := available_, dev := q.2.1,
          trace := c.trace ++ q.2.2 ++ [Event.rx buffer_ requested_byte_count_ false],
          response := some resp }
      else
        let k := rxCopy W buffer_ requested_byte_count_ 0 resp.tail.tail m q.2.1
        { result := c.result, mem := k.1, available := available, dev := k.2,
          trace := c.trace ++ q.2.2 ++ [Event.rx buffer_ requested_byte_count_ c.result],
          response := some resp }
  else
    { result := c.result, mem := m, available := available_, dev := d1,
      trace := c.trace ++ [Event.rx buffer_ requested_byte_count_ c.result],
      response := none }

/-! ## Framed transaction protocol -/

/-- The driver instance `RAK_BLUES`: its bus address, its document and its transaction buffer
(memory is addressed from the first byte of `in_out_buff`). -/
structure RAK_BLUES (δ : Type) where
  _deviceAddress : Nat
  note_json : δ
  in_out_buff : Mem

/-- The variables of the transmit loop of `send_req`. -/
structure TxState (σ : Type) where
  /-- The pointer `chunk`, as an offset into `in_out_buff`. -/
  chunk : Nat
  jsonLen : Nat
  sentInSegment : Nat
  dev : σ
  trace : List Event

/-- The loop `while (jsonLen > 0)` of `send_req` (lines 150-175), run for at most `n`
iterations: `some true` when the loop ran to its end, `some false` when `send_req` returned
false from inside it, `none` when `n` iterations did not finish it. -/
def txLoop (W : Platform σ) (B _deviceAddress : Nat) (m : Mem) :
    Nat → TxState σ → Option Bool × TxState σ
  | 0, s => (if s.jsonLen > 0 then none else some true, s)
  | n + 1, s =>
    if s.jsonLen > 0 then
      let chunkLen := if s.jsonLen > 0xFFFF then 0xFFFF else s.jsonLen
      let chunkLen := if chunkLen > B then B else chunkLen
      let d1 := W.delay s.dev 6
      let t := blues_I2C_TX W d1 _deviceAddress m s.chunk chunkLen
      if t.1 = false then
        let r := I2C_RST W t.2.1
        (some false, { s with dev := r.1, trace := s.trace ++ t.2.2 ++ r.2 })
      else
        let sent := (s.sentInSegment + chunkLen) % 65536
        let d2 := if sent > 250 then W.delay t.2.1 250 else t.2.1
        txLoop W B _deviceAddress m n
          { chunk := s.chunk + chunkLen, jsonLen := s.jsonLen - chunkLen,
            sentInSegment := if sent > 250 then 0 else sent,
            dev := W.delay d2 20, trace := s.trace ++ t.2.2 }
    else (some true, s)

/-- One completed iteration of the receive loop (a poll whose `blues_I2C_RX` returned true). -/
structure Poll where
  /-- The offset `jsonbufLen` the chunk was received at. -/
  buffer : Nat
  /-- The chunk length requested. -/
  requested : Nat
  /-- The available-count the card reported. -/
  available : Nat
  /-- Whether `jsonbufLen > 0 && jsonbuf[jsonbufLen - 1] == 10` held after this poll. -/
  newline : Bool
  deriving DecidableEq, Repr

/-- How the receive loop of `send_req` was left. -/
inductive RxExit where
  /-- Still in the loop when the poll budget was used up. -/
  | polling
  /-- The statement `return false` after a failed `blues_I2C_RX` (line 196). -/
  | rxError
  /-- The statement `break` under `if (receivedNewline)` (line 225). -/
  | drained
  /-- The statement `break` under `if (jsonbufLen >= 4096)` (line 232). -/
  | overflow
  /-- The statement `return false` of the timeout check (line 240). -/
  | noResponse
  deriving DecidableEq, Repr

/-- The variables of the receive loop of `send_req`, and the polls completed so far. -/
structure RxState (σ : Type) where
  receivedNewline : Bool
  jsonbufLen : Nat
  chunkLen : Nat
  /-- Memory; `jsonbuf` points at offset 0. -/
  jsonbuf : Mem
  dev : σ
  trace : List Event
  polls : List Poll

/-- The loop `while (true)` of `send_req` (lines 187-245), run for at most `n` polls. Memory
is flat: a chunk received at an offset that reaches 4096 or more is stored beyond the 4096
bytes of `in_out_buff`, where the store of the code is out of bounds; what this definition
says of a run is what the code does as long as `jsonbufLen + chunkLen` stays within 4096. -/
def rxLoop (W : Platform σ) (B _deviceAddress startMs : Nat) :
    Nat → RxState σ → RxExit × RxState σ
  | 0, s => (RxExit.polling, s)
  | n + 1, s =>
    let d1 := W.delay s.dev 6
    let r := blues_I2C_RX W d1 _deviceAddress s.jsonbuf s.jsonbufLen s.chunkLen
      (W.indeterminate % 4294967296)
    if r.result = false then
      (RxExit.rxError,
        { s with jsonbuf := r.mem, dev := r.dev, trace := s.trace ++ r.trace })
    else
      let jsonbufLen := s.jsonbufLen + s.chunkLen
      let atNewline := decide (jsonbufLen > 0) && (r.mem (jsonbufLen - 1) == 10)
      let receivedNewline := s.receivedNewline || atNewline
      let chunkLen := if r.available > 0xFFFF then 0xFFFF else r.available
      let chunkLen := if chunkLen > B then B else chunkLen
      let s1 : RxState σ :=
        { receivedNewline := receivedNewline, jsonbufLen := jsonbufLen, chunkLen := chunkLen,
          jsonbuf := r.mem, dev := r.dev, trace := s.trace ++ r.trace,
          polls := s.polls ++ [⟨s.jsonbufLen, s.chunkLen, r.available, atNewline⟩] }
      if chunkLen > 0 then rxLoop W B _deviceAddress startMs n s1
      else if receivedNewline = true then (RxExit.drained, s1)
      else if jsonbufLen ≥ 4096 then (RxExit.overflow, s1)
      else if chunkLen ≠ 0 then
        if (W.millis r.dev % 4294967296 + 4294967296 - startMs) % 4294967296 ≥ 30000 then
          (RxExit.noResponse, s1)
        else rxLoop W B _deviceAddress startMs n { s1 with dev := W.delay r.dev 50 }
      else rxLoop W B _deviceAddress startMs n { s1 with dev := W.delay r.dev 50 }

/-- What `send_req` returns and leaves behind. -/
structure SendResult (δ σ : Type) where
  /-- The return value; `none` when the receive loop was still polling at the end of the
  poll budget. -/
  ret : Option Bool
  note_json : δ
  in_out_buff : Mem
  /-- The caller's `response` buffer (`none` for a NULL pointer). -/
  response : Option (List Nat)
  dev : σ
  trace : List Event
  /-- How the receive loop was left, when it was entered. -/
  exit : Option RxExit
  /-- The final `jsonbufLen`. -/
  jsonbufLen : Nat
  /-- The final `receivedNewline`. -/
  receivedNewline : Bool
  /-- The completed polls of the receive loop. -/
  polls : List Poll

/-- Source `RAK_BLUES::send_req(response, resp_len)` (lines 135-259), the receive loop run
for at most `budget` polls. The transmit loop is given `jsonLen` iterations, which it cannot
use up, every iteration sending at least one byte. `serializeJson` also stores a NUL after
the text when there is room; `send_req` overwrites that byte with the newline at once, so it
is left out. The text handed to `deserializeJson` is the C string at the start of the
buffer, read no further than the end of the buffer. The code passes `(char *)in_out_buff`
with no length: that is the same text whenever a NUL lies within the buffer, as it does
after fewer than 4096 received bytes; when all 4096 bytes are not NUL the code reads on
past the buffer, and the document and `response` of this definition say nothing about that
run. -/
def send_req (J : Json δ) (W : Platform σ) (RUI_SDK : Bool) (budget : Nat)
    (self : RAK_BLUES δ) (d : σ) (response : Option (List Nat)) (resp_len : Nat) :
    SendResult δ σ :=
  let text := J.serializeJson self.note_json 4096
  let jsonLen := text.length
  let buf := Mem.write (Mem.writeList self.in_out_buff 0 text) jsonLen 10
  let jsonLen := jsonLen + 1
  let t := txLoop W (i2c_buff RUI_SDK) self._deviceAddress buf jsonLen
    { chunk := 0, jsonLen := jsonLen, sentInSegment := 0, dev := d, trace := [] }
  match t.1 with
  | none =>
    { ret := none, note_json := self.note_json, in_out_buff := buf, response := response,
      dev := t.2.dev, trace := t.2.trace, exit := none, jsonbufLen := 0,
      receivedNewline := false, polls := [] }
  | some false =>
    { ret := some false, note_json := self.note_json, in_out_buff := buf,
      response := response, dev := t.2.dev, trace := t.2.trace, exit := none,
      jsonbufLen := 0, receivedNewline := false, polls := [] }
  | some true =>
    let buf := memset buf 0 JSON_BUFF_SIZE
    let startMs := W.millis t.2.dev % 4294967296
    let r := rxLoop W (i2c_buff RUI_SDK) self._deviceAddress startMs budget
      { receivedNewline := false, jsonbufLen := 0, chunkLen := 0, jsonbuf := buf,
        dev := t.2.dev, trace := t.2.trace, polls := [] }
    match r.1 with
    | RxExit.polling =>
      { ret := none, note_json := self.note_json, in_out_buff := r.2.jsonbuf,
        response := response, dev := r.2.dev, trace := r.2.trace, exit := some r.1,
        jsonbufLen := r.2.jsonbufLen, receivedNewline := r.2.receivedNewline,
        polls := r.2.polls }
    | RxExit.rxError =>
      { ret := some false, note_json := self.note_json, in_out_buff := r.2.jsonbuf,
        response := response, dev := r.2.dev, trace := r.2.trace, exit := some r.1,
        jsonbufLen := r.2.jsonbufLen, receivedNewline := r.2.receivedNewline,
        polls := r.2.polls }
    | RxExit.noResponse =>
      { ret := some false, note_json := self.note_json, in_out_buff := r.2.jsonbuf,
        response := response, dev := r.2.dev, trace := r.2.trace, exit := some r.1,
        jsonbufLen := r.2.jsonbufLen, receivedNewline := r.2.receivedNewline,
        polls := r.2.polls }
    | _ =>
      let doc := J.deserializeJson (cstring r.2.jsonbuf 0 JSON_BUFF_SIZE)
      { ret := some true, note_json := doc, in_out_buff := r.2.jsonbuf,
        response := response.map (fun _ => J.serializeJson doc resp_len),
        dev := r.2.dev, trace := r.2.trace, exit := some r.1,
        jsonbufLen := r.2.jsonbufLen, receivedNewline := r.2.receivedNewline,
        polls := r.2.polls }

/-! ## Simulated peripherals -/

/-- The state of a scripted bus: the outcomes still to be played, and the clock. -/
structure Script where
  /-- The error codes of the coming write transactions; 0 once used up. -/
  errs : List Nat
  /-- The responses to the coming read transactions. -/
  reads : List (List Nat)
  /-- Milliseconds since start. -/
  clock : Nat

/-- A bus that plays a script: write transactions end with the scripted error codes, read
transactions deliver the scripted responses and nothing once the script is used up. Time
passes in `delay` only. -/
def scriptedBus : Platform Script where
  endTransmission s _ _ := (s.errs.headD 0, { s with errs := s.errs.tail })
  requestFrom s _ _ :=
    match s.reads with
    | [] => ([], s)
    | r :: rs => (r, { s with reads := rs })
  wireBegin s := s
  millis s := s.clock
  delay s ms := { s with clock := s.clock + ms }
  indeterminate := 0

/-- The read response of a card that reports `available` more bytes and delivers `payload`:
the available-count, the echoed requested-count, then the payload. -/
def frame (available : Nat) (payload : List Nat) : List Nat :=
  available :: payload.length :: payload

/-- A card that answers every read of `len` bytes with a well-formed response carrying the
same available-count and `len - 2` payload bytes `filler`; every write transaction succeeds.
The state is the clock, which advances in `delay` only. -/
def steadyBus (available filler : Nat) : Platform Nat where
  endTransmission s _ _ := (0, s)
  requestFrom s _ len := (frame available (List.replicate (len - 2) filler), s)
  wireBegin s := s
  millis s := s
  delay s ms := s + ms
  indeterminate := 0

/-- The state of an echoing card: the bytes received and not yet given back, and the clock. -/
structure Echo where
  pending : List Nat
  clock : Nat

/-- A card that stores the payload of every write transaction and gives the stored bytes
back in order: a read of `len` bytes delivers the next `len - 2` stored bytes after the two
header bytes, the available-count being the number of bytes still stored afterwards, at most
`cap`. A write whose first byte is 0 is a read request and stores nothing. -/
def echoBus (cap : Nat) : Platform Echo where
  endTransmission s _ bytes :=
    match bytes with
    | [] => (0, s)
    | 0 :: _ => (0, s)
    | _ :: payload => (0, { s with pending := s.pending ++ payload })
  requestFrom s _ len :=
    (min (s.pending.drop (len - 2)).length cap :: (len - 2) :: s.pending.take (len - 2),
      { s with pending := s.pending.drop (len - 2) })
  wireBegin s := s
  millis s := s.clock
  delay s ms := { s with clock := s.clock + ms }
  indeterminate := 0

/-- A document library whose documents are their own text (cut at the capacity). -/
def textJson : Json (List Nat) where
  serializeJson doc capacity := doc.take capacity
  deserializeJson text := text

/-- The transmit calls of a trace: payload and return value, in order. -/
def txCalls : List Event → List (List Nat × Bool)
  | [] => []
  | Event.tx payload _ ok :: es => (payload, ok) :: txCalls es
  | _ :: es => txCalls es

/-- The receive calls of a trace: buffer offset, requested count and return value. -/
def rxCalls : List Event → List (Nat × Nat × Bool)
  | [] => []
  | Event.rx buffer requested ok :: es => (buffer, requested, ok) :: rxCalls es
  | _ :: es => rxCalls es

/-! ## The phases of `send_req` -/

/-- The text `send_req` serializes into the transaction buffer. -/
def requestText (J : Json δ) (self : RAK_BLUES δ) : List Nat :=
  J.serializeJson self.note_json 4096

/-- Memory when the transmit loop of `send_req` starts: the text, then the newline. -/
def requestBuffer (J : Json δ) (self : RAK_BLUES δ) : Mem :=
  Mem.write (Mem.writeList self.in_out_buff 0 (requestText J self))
    (requestText J self).length 10

/-- The transmit loop as `send_req` runs it. -/
def txPhase (J : Json δ) (W : Platform σ) (RUI_SDK : Bool) (self : RAK_BLUES δ) (d : σ) :
    Option Bool × TxState σ :=
  txLoop W (i2c_buff RUI_SDK) self._deviceAddress (requestBuffer J self)
    ((requestText J self).length + 1)
    { chunk := 0, jsonLen := (requestText J self).length + 1, sentInSegment := 0, dev := d,
      trace := [] }

/-- The receive loop as `send_req` runs it after a transmit loop that ran to its end. -/
def rxPhase (J : Json δ) (W : Platform σ) (RUI_SDK : Bool) (budget : Nat)
    (self : RAK_BLUES δ) (d : σ) : RxExit × RxState σ :=
  rxLoop W (i2c_buff RUI_SDK) self._deviceAddress
    (W.millis (txPhase J W RUI_SDK self d).2.dev % 4294967296) budget
    { receivedNewline := false, jsonbufLen := 0, chunkLen := 0,
      jsonbuf := memset (requestBuffer J self) 0 JSON_BUFF_SIZE,
      dev := (txPhase J W RUI_SDK self d).2.dev,
      trace := (txPhase J W RUI_SDK self d).2.trace, polls := [] }

/-- The state the transmit loop continues with after a chunk of `c` bytes went out on a
write transaction that succeeded. -/
def txNext (W : Platform σ) (a : Nat) (m : Mem) (s : TxState σ) (c : Nat) : TxState σ :=
  { chunk := s.chunk + c, jsonLen := s.jsonLen - c,
    sentInSegment := if (s.sentInSegment + c) % 65536 > 250 then 0
      else (s.sentInSegment + c) % 65536,
    dev := W.delay (if (s.sentInSegment + c) % 65536 > 250
      then W.delay (W.endTransmission (W.delay s.dev 6) (a % 256)
        ((c % 256) :: Mem.read m s.chunk c)).2 250
      else (W.endTransmission (W.delay s.dev 6) (a % 256)
        ((c % 256) :: Mem.read m s.chunk c)).2) 20,
    trace := s.trace ++ [Event.write (a % 256) ((c % 256) :: Mem.read m s.chunk c) 0,
      Event.tx (Mem.read m s.chunk c) c true] }

/-- The receive call of the poll that starts in state `s`. -/
def rxPoll (W : Platform σ) (a : Nat) (s : RxState σ) : RxResult σ :=
  blues_I2C_RX W (W.delay s.dev 6) a s.jsonbuf s.jsonbufLen s.chunkLen
    (W.indeterminate % 4294967296)

/-- The variables of the receive loop after the poll that starts in state `s`, when its
receive call returned true. -/
def rxNext (W : Platform σ) (B a : Nat) (s : RxState σ) : RxState σ :=
  { receivedNewline := s.receivedNewline ||
      (decide (s.jsonbufLen + s.chunkLen > 0) &&
        ((rxPoll W a s).mem (s.jsonbufLen + s.chunkLen - 1) == 10)),
    jsonbufLen := s.jsonbufLen + s.chunkLen,
    chunkLen := min (min (rxPoll W a s).available 65535) B,
    jsonbuf := (rxPoll W a s).mem, dev := (rxPoll W a s).dev,
    trace := s.trace ++ (rxPoll W a s).trace,
    polls := s.polls ++ [⟨s.jsonbufLen, s.chunkLen, (rxPoll W a s).available,
      decide (s.jsonbufLen + s.chunkLen > 0) &&
        ((rxPoll W a s).mem (s.jsonbufLen + s.chunkLen - 1) == 10)⟩] }

/-- The return value of `send_req` for each way of leaving the receive loop. -/
def retOf : RxExit → Option Bool
  | RxExit.polling => none
  | RxExit.rxError => some false
  | RxExit.noResponse => some false
  | RxExit.drained => some true
  | RxExit.overflow => some true

/-! ## Bus transactions of a trace -/

/-- The write transactions of a trace: address, bytes written and error code, in order. -/
def writeEvents : List Event → List (Nat × List Nat × Nat)
  | [] => []
  | Event.write addr bytes err :: es => (addr, bytes, err) :: writeEvents es
  | _ :: es => writeEvents es

/-- The read transactions of a trace: address and number of bytes requested, in order. -/
def readEvents : List Event → List (Nat × Nat)
  | [] => []
  | Event.read addr len _ :: es => (addr, len) :: readEvents es
  | _ :: es => readEvents es

/-- The number of bus resets (`I2C_RST`) in a trace. -/
def resetCount : List Event → Nat
  | [] => 0
  | Event.rst :: es => resetCount es + 1
  | _ :: es => resetCount es

/-! ## The structured document -/

/-- Modelled from the spec: what the document `note_json` holds. Its type, ArduinoJson's
`JsonDocument`, is not part of the sources; the spec gives "a single mutable tree value,
conceptually `Map<string, Value>` where `Value` is one of {string, bool, int32, uint32,
float, nested Map}". Added are the null value, which is the cleared document and what a
missing member reads as, and the array, which `get_string_entry_from_array` indexes. A
string is the list of its characters, a float its bit pattern; the members of an object are
kept in insertion order. -/
inductive Value where
  | null
  | str (s : List Nat)
  | bool (b : Bool)
  | int32 (n : Int)
  | uint32 (n : Nat)
  | float (bits : Nat)
  | obj (members : List (List Nat × Value))
  | arr (items : List Value)

/-- The first member named `key` in a member list. -/
def findMember (key : List Nat) : List (List Nat × Value) → Option Value
  | [] => none
  | (k, x) :: ms => if k = key then some x else findMember key ms

/-- Modelled from the spec: ArduinoJson `getMember`, the member `key` of an object; a value
that is not an object has no members. -/
def Value.getMember (v : Value) (key : List Nat) : Option Value :=
  match v with
  | Value.obj ms => findMember key ms
  | _ => none

/-- Modelled from the spec: ArduinoJson `v[key]` when it is read: the member, and the null
value when there is none. -/
def Value.member (v : Value) (key : List Nat) : Value :=
  (v.getMember key).getD Value.null

/-- Modelled from the spec: ArduinoJson `v.containsKey(key)`, the presence check `has`:
whether `v` is an object with a member `key`. -/
def Value.containsKey (v : Value) (key : List Nat) : Bool :=
  (v.getMember key).isSome

/-- Modelled from the spec: ArduinoJson `v[index]` when it is read: the element of an array,
and the null value when there is none. -/
def Value.element (v : Value) (index : Nat) : Value :=
  match v with
  | Value.arr items => items.getD index Value.null
  | _ => Value.null

/-- The member list after `f` was applied to the first member named `key`, which is added at
the end, starting from null, when there is none. -/
def upsertMember (key : List Nat) (f : Value → Value) :
    List (List Nat × Value) → List (List Nat × Value)
  | [] => [(key, f Value.null)]
  | (k, x) :: ms => if k = key then (k, f x) :: ms else (k, x) :: upsertMember key f ms

/-- Modelled from the spec: ArduinoJson `v[key]` when it is written through (`set`:
"overwrites if key exists, creates intermediate nesting levels as needed"): `f` is applied
to the member `key` of `v`, which is created when missing, a null `v` becoming an object
first. A `v` that holds anything else than null or an object has no member to give, and the
write is dropped (ArduinoJson `getOrAddMember`). The capacity of the document is taken to
be sufficient. -/
def Value.update (v : Value) (key : List Nat) (f : Value → Value) : Value :=
  match v with
  | Value.null => Value.obj [(key, f Value.null)]
  | Value.obj ms => Value.obj (upsertMember key f ms)
  | other => other

/-- What ArduinoJson's `as<T>()` yields for a value that was not stored as a `T`; the driver
does not depend on it. -/
structure Conversions where
  toBool : Value → Bool
  toInt32 : Value → Int
  toUInt32 : Value → Nat
  toFloat : Value → Nat

/-- Conversions that yield false and zero. -/
def zeroConversions : Conversions where
  toBool _ := false
  toInt32 _ := 0
  toUInt32 _ := 0
  toFloat _ := 0

/-- Modelled from the spec: ArduinoJson `v.as<const char *>()`: the string, `none` (the null
pointer) for a value that is not a string. -/
def Value.asString (v : Value) : Option (List Nat) :=
  match v with
  | Value.str s => some s
  | _ => none

/-- Modelled from the spec: ArduinoJson `v.as<bool>()`. -/
def Value.asBool (C : Conversions) (v : Value) : Bool :=
  match v with
  | Value.bool b => b
  | other => C.toBool other

/-- Modelled from the spec: ArduinoJson `v.as<int32_t>()`. -/
def Value.asInt32 (C : Conversions) (v : Value) : Int :=
  match v with
  | Value.int32 n => n
  | other => C.toInt32 other

/-- Modelled from the spec: ArduinoJson `v.as<uint32_t>()`. -/
def Value.asUInt32 (C : Conversions) (v : Value) : Nat :=
  match v with
  | Value.uint32 n => n
  | other => C.toUInt32 other

/-- Modelled from the spec: ArduinoJson `v.as<float>()`. -/
def Value.asFloat (C : Conversions) (v : Value) : Nat :=
  match v with
  | Value.float bits => bits
  | other => C.toFloat other

/-- Library `strncpy(dest, src, n)` for a C string `src` given by its characters: its first
`n` characters, followed by NUL bytes up to `n` bytes in all when it is shorter. -/
def strncpy (m : Mem) (dest : Nat) (src : List Nat) (n : Nat) : Mem :=
  Mem.writeList m dest (src.take n ++ List.replicate (n - src.length) 0)

/-- The C string `"req"`. -/
def reqKey : List Nat := [114, 101, 113]

/-- The C string `"err"`. -/
def errKey : List Nat := [101, 114, 114]

/-! ## Document builder and reader

A `char *` argument that names a key or carries a string is given by the characters of the C
string it points at; an output buffer `char *value` is an offset into a memory; an output
parameter passed by reference is given by its content before the call and returned with the
result. -/

/-- Source `RAK_BLUES::start_req(request)` (lines 94-102). -/
def start_req (self : RAK_BLUES Value) (request : List Nat) : Bool × RAK_BLUES Value :=
  let cleared := Value.null
  (true, { self with note_json := cleared.update reqKey (fun _ => Value.str request) })

/-- Source `RAK_BLUES::add_string_entry(type, value)` (lines 291-294):
`note_json[type] = value`. -/
def add_string_entry (self : RAK_BLUES Value) (type : List Nat) (value : List Nat) :
    RAK_BLUES Value :=
  { self with note_json := self.note_json.update type (fun _ => Value.str value) }

/-- Source `RAK_BLUES::add_bool_entry(type, value)` (lines 326-329):
`note_json[type] = value`. -/
def add_bool_entry (self : RAK_BLUES Value) (type : List Nat) (value : Bool) :
    RAK_BLUES Value :=
  { self with note_json := self.note_json.update type (fun _ => Value.bool value) }

/-- Source `RAK_BLUES::add_int32_entry(type, value)` (lines 362-365):
`note_json[type] = value`. -/
def add_int32_entry (self : RAK_BLUES Value) (type : List Nat) (value : Int) :
    RAK_BLUES Value :=
  { self with note_json := self.note_json.update type (fun _ => Value.int32 value) }

/-- Source `RAK_BLUES::add_uint32_entry(type, value)` (lines 398-401):
`note_json[type] = value`. -/
def add_uint32_entry (self : RAK_BLUES Value) (type : List Nat) (value : Nat) :
    RAK_BLUES Value :=
  { self with note_json := self.note_json.update type (fun _ => Value.uint32 value) }

/-- Source `RAK_BLUES::add_float_entry(type, value)` (lines 434-437):
`note_json[type] = value`. -/
def add_float_entry (self : RAK_BLUES Value) (type : List Nat) (value : Nat) :
    RAK_BLUES Value :=
  { self with note_json := self.note_json.update type (fun _ => Value.float value) }

/-- Source `RAK_BLUES::add_nested_string_entry(type, nested, value)` (lines 477-480):
`note_json[type][nested] = value`. -/
def add_nested_string_entry (self : RAK_BLUES Value) (type nested value : List Nat) :
    RAK_BLUES Value :=
  { self with
    note_json := self.note_json.update type
      (fun holder => holder.update nested (fun _ => Value.str value)) }

/-- Source `RAK_BLUES::add_nested_bool_entry(type, nested, value)` (lines 588-591):
`note_json[type][nested] = value`. -/
def add_nested_bool_entry (self : RAK_BLUES Value) (type nested : List Nat) (value : Bool) :
    RAK_BLUES Value :=
  { self with
    note_json := self.note_json.update type
      (fun holder => holder.update nested (fun _ => Value.bool value)) }

/-- Source `RAK_BLUES::add_nested_int32_entry(type, nested, value)` (lines 514-517):
`note_json[type][nested] = value`. -/
def add_nested_int32_entry (self : RAK_BLUES Value) (type nested : List Nat) (value : Int) :
    RAK_BLUES Value :=
  { self with
    note_json := self.note_json.update type
      (fun holder => holder.update nested (fun _ => Value.int32 value)) }

/-- Source `RAK_BLUES::add_nested_uint32_entry(type, nested, value)` (lines 551-554):
`note_json[type][nested] = value`. -/
def add_nested_uint32_entry (self : RAK_BLUES Value) (type nested : List Nat) (value : Nat) :
    RAK_BLUES Value :=
  { self with
    note_json := self.note_json.update type
      (fun holder => holder.update nested (fun _ => Value.uint32 value)) }

/-- Source `RAK_BLUES::add_nested_float_entry(type, nested, value)` (lines 625-628):
`note_json[type][nested] = value`. -/
def add_nested_float_entry (self : RAK_BLUES Value) (type nested : List Nat) (value : Nat) :
    RAK_BLUES Value :=
  { self with
    note_json := self.note_json.update type
      (fun holder => holder.update nested (fun _ => Value.float value)) }

/-- Source `RAK_BLUES::add_2lv_nested_string_entry(type, nested, nested2, value)` (lines
669-672): `note_json[type][nested][nested2] = value`. -/
def add_2lv_nested_string_entry (self : RAK_BLUES Value) (type nested nested2 : List Nat)
    (value : List Nat) : RAK_BLUES Value :=
  { self with
    note_json := self.note_json.update type
      (fun holder => holder.update nested
        (fun holder2 => holder2.update nested2 (fun _ => Value.str value))) }

/-- Source `RAK_BLUES::add_2lv_nested_bool_entry(type, nested, nested2, value)` (lines
783-786): `note_json[type][nested][nested2] = value`. -/
def add_2lv_nested_bool_entry (self : RAK_BLUES Value) (type nested nested2 : List Nat)
    (value : Bool) : RAK_BLUES Value :=
  { self with
    note_json := self.note_json.update type
      (fun holder => holder.update nested
        (fun holder2 => holder2.update nested2 (fun _ => Value.bool value))) }

/-- Source `RAK_BLUES::add_2lv_nested_int32_entry(type, nested, nested2, value)` (lines
707-710): `note_json[type][nested][nested2] = value`. -/
def add_2lv_nested_int32_entry (self : RAK_BLUES Value) (type nested nested2 : List Nat)
    (value : Int) : RAK_BLUES Value :=
  { self with
    note_json := self.note_json.update type
      (fun holder => holder.update nested
        (fun holder2 => holder2.update nested2 (fun _ => Value.int32 value))) }

/-- Source `RAK_BLUES::add_2lv_nested_uint32_entry(type, nested, nested2, value)` (lines
745-748): `note_json[type][nested][nested2] = value`. -/
def add_2lv_nested_uint32_entry (self : RAK_BLUES Value) (type nested nested2 : List Nat)
    (value : Nat) : RAK_BLUES Value :=
  { self with
    note_json := self.note_json.update type
      (fun holder => holder.update nested
        (fun holder2 => holder2.update nested2 (fun _ => Value.uint32 value))) }

/-- Source `RAK_BLUES::add_2lv_nested_float_entry(type, nested, nested2, value)` (lines
821-824): `note_json[type][nested][nested2] = value`. -/
def add_2lv_nested_float_entry (self : RAK_BLUES Value) (type nested nested2 : List Nat)
    (value : Nat) : RAK_BLUES Value :=
  { self with
    note_json := self.note_json.update type
      (fun holder => holder.update nested
        (fun holder2 => holder2.update nested2 (fun _ => Value.float value))) }

/-- Source `RAK_BLUES::has_entry(type)` (lines 862-865). -/
def has_entry (self : RAK_BLUES Value) (type : List Nat) : Bool :=
  self.note_json.containsKey type

/-- Source `RAK_BLUES::has_nested_entry(type, nested)` (lines 904-907). -/
def has_nested_entry (self : RAK_BLUES Value) (type nested : List Nat) : Bool :=
  (self.note_json.member type).containsKey nested

/-- Source `RAK_BLUES::get_string_entry(type, value, value_size)` (lines 947-962). The result
is `none` when `strncpy` is handed the null pointer (an entry that is not a string), which
has no defined behaviour. -/
def get_string_entry (self : RAK_BLUES Value) (type : List Nat) (m : Mem)
    (value value_size : Nat) : Option (Bool × Mem) :=
  if has_entry self type then
    match (self.note_json.member type).asString with
    | some entry_str => some (true, strncpy m value entry_str value_size)
    | none => none
  else some (false, m)

/-- Source `RAK_BLUES::get_string_entry_from_array(type, value, value_size)` (lines
1004-1019); `none` as for `get_string_entry`. -/
def get_string_entry_from_array (self : RAK_BLUES Value) (type : List Nat) (m : Mem)
    (value value_size : Nat) : Option (Bool × Mem) :=
  if has_entry self type then
    match ((self.note_json.member type).element 0).asString with
    | some entry_str => some (true, strncpy m value entry_str value_size)
    | none => none
  else some (false, m)

/-- Source `RAK_BLUES::get_bool_entry(type, value)` (lines 1058-1070). -/
def get_bool_entry (C : Conversions) (self : RAK_BLUES Value) (type : List Nat)
    (value : Bool) : Bool × Bool :=
  if has_entry self type then (true, (self.note_json.member type).asBool C)
  else (false, value)

/-- Source `RAK_BLUES::get_int32_entry(type, value)` (lines 1109-1121). -/
def get_int32_entry (C : Conversions) (self : RAK_BLUES Value) (type : List Nat)
    (value : Int) : Bool × Int :=
  if has_entry self type then (true, (self.note_json.member type).asInt32 C)
  else (false, value)

/-- Source `RAK_BLUES::get_uint32_entry(type, value)` (lines 1160-1172). -/
def get_uint32_entry (C : Conversions) (self : RAK_BLUES Value) (type : List Nat)
    (value : Nat) : Bool × Nat :=
  if has_entry self type then (true, (self.note_json.member type).asUInt32 C)
  else (false, value)

/-- Source `RAK_BLUES::get_float_entry(type, value)` (lines 1211-1223). -/
def get_float_entry (C : Conversions) (self : RAK_BLUES Value) (type : List Nat)
    (value : Nat) : Bool × Nat :=
  if has_entry self type then (true, (self.note_json.member type).asFloat C)
  else (false, value)

/-- Source `RAK_BLUES::get_nested_string_entry(type, nested, value, value_size)` (lines
1264-1281). With `value_size` 0 the count `value_size - 1` handed to `strncpy` is the largest
`size_t`, which has no defined behaviour: `none`. -/
def get_nested_string_entry (self : RAK_BLUES Value) (type nested : List Nat) (m : Mem)
    (value value_size : Nat) : Option (Bool × Mem) :=
  if (self.note_json.member type).containsKey nested then
    match ((self.note_json.member type).member nested).asString with
    | some entry_str =>
      if value_size = 0 then none
      else
        let m1 := strncpy m value entry_str (value_size - 1)
        some (true, Mem.write m1 (value + (value_size - 1)) 0)
    | none => some (false, m)
  else some (false, m)

/-- Source `RAK_BLUES::get_nested_int32_entry(type, nested, value)` (lines 1321-1333). -/
def get_nested_int32_entry (C : Conversions) (self : RAK_BLUES Value)
    (type nested : List Nat) (value : Int) : Bool × Int :=
  if (self.note_json.member type).containsKey nested then
    (true, ((self.note_json.member type).member nested).asInt32 C)
  else (false, value)

/-- Source `RAK_BLUES::get_nested_uint32_entry(type, nested, value)` (lines 1373-1385). -/
def get_nested_uint32_entry (C : Conversions) (self : RAK_BLUES Value)
    (type nested : List Nat) (value : Nat) : Bool × Nat :=
  if (self.note_json.member type).containsKey nested then
    (true, ((self.note_json.member type).member nested).asUInt32 C)
  else (false, value)

/-- Source `RAK_BLUES::get_nested_bool_entry(type, nested, value)` (lines 1425-1437). -/
def get_nested_bool_entry (C : Conversions) (self : RAK_BLUES Value)
    (type nested : List Nat) (value : Bool) : Bool × Bool :=
  if (self.note_json.member type).containsKey nested then
    (true, ((self.note_json.member type).member nested).asBool C)
  else (false, value)

/-- Source `RAK_BLUES::get_2lv_nested_string_entry(type, nested, nested2, value, value_size)`
(lines 1479-1496); `none` as for `get_nested_string_entry`. -/
def get_2lv_nested_string_entry (self : RAK_BLUES Value) (type nested nested2 : List Nat)
    (m : Mem) (value value_size : Nat) : Option (Bool × Mem) :=
  if ((self.note_json.member type).member nested).containsKey nested2 then
    match (((self.note_json.member type).member nested).member nested2).asString with
    | some entry_str =>
      if value_size = 0 then none
      else
        let m1 := strncpy m value entry_str (value_size - 1)
        some (true, Mem.write m1 (value + (value_size - 1)) 0)
    | none => some (false, m)
  else some (false, m)

/-- Source `RAK_BLUES::get_2lv_nested_int32_entry(type, nested, nested2, value)` (lines
1537-1549). -/
def get_2lv_nested_int32_entry (C : Conversions) (self : RAK_BLUES Value)
    (type nested nested2 : List Nat) (value : Int) : Bool × Int :=
  if ((self.note_json.member type).member nested).containsKey nested2 then
    (true, (((self.note_json.member type).member nested).member nested2).asInt32 C)
  else (false, value)

/-- Source `RAK_BLUES::get_2lv_nested_uint32_entry(type, nested, nested2, value)` (lines
1590-1602). -/
def get_2lv_nested_uint32_entry (C : Conversions) (self : RAK_BLUES Value)
    (type nested nested2 : List Nat) (value : Nat) : Bool × Nat :=
  if ((self.note_json.member type).member nested).containsKey nested2 then
    (true, (((self.note_json.member type).member nested).member nested2).asUInt32 C)
  else (false, value)

/-- Source `RAK_BLUES::get_2lv_nested_bool_entry(type, nested, nested2, value)` (lines
1643-1655). -/
def get_2lv_nested_bool_entry (C : Conversions) (self : RAK_BLUES Value)
    (type nested nested2 : List Nat) (value : Bool) : Bool × Bool :=
  if ((self.note_json.member type).member nested).containsKey nested2 then
    (true, (((self.note_json.member type).member nested).member nested2).asBool C)
  else (false, value)

/-! ## Key paths -/

/-- The value at a key path, when every key of the path is a member of the level above. -/
def Value.lookup (v : Value) : List (List Nat) → Option Value
  | [] => some v
  | key :: rest => (v.getMember key).bind (fun x => Value.lookup x rest)

/-- Whether a value can be written through: it is null or an object. -/
def Value.canHold (v : Value) : Bool :=
  match v with
  | Value.null => true
  | Value.obj _ => true
  | _ => false

/-- Whether every level above the last key of a path is missing, null or an object. -/
def Value.writable (v : Value) : List (List Nat) → Bool
  | [] => true
  | key :: rest => v.canHold && Value.writable (v.member key) rest

/-- The assignment `v[k1][k2]… = x` along a key path. -/
def Value.writeAt (x : Value) : List (List Nat) → Value → Value
  | [] => fun _ => x
  | key :: rest => fun v => v.update key (Value.writeAt x rest)

/-! ## Document libraries -/

/-- Modelled from the spec: ArduinoJson's `serializeJson` and `deserializeJson`, which are
not part of the sources, given by a printer and a parser. `deserializeJson` leaves the parsed
document, and the cleared document when the text does not parse ("Parse failure is treated
as document is empty/default"); `serializeJson` writes the printed text, cut at the
capacity. -/
def arduinoJson (parse : List Nat → Option Value) (print : Value → List Nat) : Json Value where
  serializeJson doc capacity := (print doc).take capacity
  deserializeJson text := (parse text).getD Value.null

/-- The driver instance after a `send_req` that started from `before`. -/
def SendResult.after (r : SendResult δ σ) (before : RAK_BLUES δ) : RAK_BLUES δ :=
  { before with
    note_json := r.note_json, in_out_buff := r.in_out_buff }

/-- A quoted string without escapes at the start of a text: its characters and the text
after the closing quote. -/
def parseQuoted : List Nat → Option (List Nat × List Nat)
  | 34 :: text =>
    match text.span (fun c => c != 34) with
    | (s, 34 :: rest) => some (s, rest)
    | _ => none
  | _ => none

/-- The members `"key":"value"`, separated by commas and closed by a brace, at the start of
a text, and the text after the brace; `fuel` bounds the number of members. -/
def parseMembers : Nat → List Nat → Option (List (List Nat × Value) × List Nat)
  | 0, _ => none
  | fuel + 1, text =>
    match parseQuoted text with
    | some (key, 58 :: text1) =>
      match parseQuoted text1 with
      | some (s, 44 :: text2) =>
        (parseMembers fuel text2).map (fun r => ((key, Value.str s) :: r.1, r.2))
      | some (s, 125 :: text2) => some ([(key, Value.str s)], text2)
      | _ => none
    | _ => none

/-- A parser for compact JSON objects whose members are strings, such as `{"err":"x"}`,
followed by nothing but line ends and blanks; every other text does not parse. -/
def parseFlat (text : List Nat) : Option Value :=
  match text with
  | 123 :: 125 :: rest =>
    if rest.all (fun c => c == 10 || c == 13 || c == 32) then some (Value.obj []) else none
  | 123 :: text1 =>
    match parseMembers text1.length text1 with
    | some (ms, rest) =>
      if rest.all (fun c => c == 10 || c == 13 || c == 32) then some (Value.obj ms) else none
    | none => none
  | _ => none

/-- The text `"key":value` of a member; a value that is not a string prints as `null`. -/
def printMember (e : List Nat × Value) : List Nat :=
  [34] ++ e.1 ++ [34, 58] ++
    (match e.2 with
     | Value.str s => [34] ++ s ++ [34]
     | _ => [110, 117, 108, 108])

/-- A printer of compact JSON for the documents `parseFlat` reads; a document that is not
an object prints as `null`. -/
def printFlat (doc : Value) : List Nat :=
  match doc with
  | Value.obj ms => [123] ++ List.intercalate [44] (ms.map printMember) ++ [125]
  | _ => [110, 117, 108, 108]

/-- A small document library: compact JSON objects with string members. -/
def flatJson : Json Value := arduinoJson parseFlat printFlat

/-- The text `{"err":"x"}` followed by a newline. -/
def errResponse : List Nat := [123, 34, 101, 114, 114, 34, 58, 34, 120, 34, 125, 10]

/-- The bus events of control-write attempts that fail with the given error codes: each
attempt is one write of `[0, requested_byte_count_]` followed by one bus reset. -/
def failedAttempts (address requested : Nat) (errs : List Nat) : List Event :=
  errs.flatMap (fun e => [Event.write (address % 256) [0, requested % 256] e, Event.rst])

/-- A document of the small document library whose compact text `{"p":"AAA…"}` has exactly
4096 characters: the entry `"p"` holds 4088 characters `A`. -/
def bigDocument : Value := Value.obj [([112], Value.str (List.replicate 4088 65))]

/-! ## Base64 -/

/-- Modelled from the spec: the table `basis_64`, declared in the header
`blues-minimal-i2c.h`, which is not part of the sources; the spec gives the "standard
alphabet `A–Z a–z 0–9 + /`". -/
def basis_64 : List Nat :=
  [65, 66, 67, 68, 69, 70, 71, 72, 73, 74, 75, 76, 77, 78, 79, 80, 81, 82, 83, 84, 85, 86, 87,
   88, 89, 90, 97, 98, 99, 100, 101, 102, 103, 104, 105, 106, 107, 108, 109, 110, 111, 112,
   113, 114, 115, 116, 117, 118, 119, 120, 121, 122, 48, 49, 50, 51, 52, 53, 54, 55, 56, 57,
   43, 47]

/-- A `char` that holds the byte `b`, promoted to `int`, as the 32-bit two's complement
pattern of the `int`: the byte itself, and for a byte from 128 on where `char` is signed the
byte minus 256. -/
def promote (signedChar : Bool) (b : Nat) : Nat :=
  if signedChar && decide (128 ≤ b) then b + (4294967296 - 256) else b

/-- The value of `string[i]`, promoted to `int`. -/
def charAt (signedChar : Bool) (m : Mem) (a : Nat) : Nat :=
  promote signedChar (m a % 256)

/-- The operator `x >> k` on an `int` pattern: the shift that keeps the sign. -/
def sar (x k : Nat) : Nat :=
  if 2147483648 ≤ x then (x >>> k) ||| (4294967296 - 2 ^ (32 - k)) else x >>> k

/-- The operator `x << k` on an `int` pattern. -/
def shl (x k : Nat) : Nat := (x <<< k) % 4294967296

/-- The character `basis_64[index]`. -/
def basis (index : Nat) : Nat := basis_64.getD index 0

/-- The variables `i` and `p` of `myJB64Encode`, and memory. -/
structure EncodeState where
  i : Nat
  p : Nat
  mem : Mem

/-- The loop `for (i = 0; i < len - 2; i += 3)` of `myJB64Encode` (lines 1714-1720), run for
at most `n` iterations; the comparison is one of `int`s, `len - 2` being negative for a
`len` below 2. Every statement reads `string` from memory as the statements before it left
it. -/
def encodeLoop (signedChar : Bool) (string len : Nat) : Nat → EncodeState → EncodeState
  | 0, s => s
  | n + 1, s =>
    if (s.i : Int) < (len : Int) - 2 then
      let m1 := Mem.write s.mem s.p
        (basis (sar (charAt signedChar s.mem (string + s.i)) 2 &&& 0x3F))
      let m2 := Mem.write m1 (s.p + 1)
        (basis (shl (charAt signedChar m1 (string + s.i) &&& 0x3) 4 |||
          sar (charAt signedChar m1 (string + (s.i + 1)) &&& 0xF0) 4))
      let m3 := Mem.write m2 (s.p + 2)
        (basis (shl (charAt signedChar m2 (string + (s.i + 1)) &&& 0xF) 2 |||
          sar (charAt signedChar m2 (string + (s.i + 2)) &&& 0xC0) 6))
      let m4 := Mem.write m3 (s.p + 3)
        (basis (charAt signedChar m3 (string + (s.i + 2)) &&& 0x3F))
      encodeLoop signedChar string len n { i := s.i + 3, p := s.p + 4, mem := m4 }
    else s

/-- The statements of `myJB64Encode` after its loop (lines 1721-1738): the last, incomplete
group with its padding, the NUL, and the return value `p - encoded`. -/
def encodeTail (signedChar : Bool) (encoded string len : Nat) (s : EncodeState) :
    Nat × Mem :=
  let t : EncodeState :=
    if s.i < len then
      let m1 := Mem.write s.mem s.p
        (basis (sar (charAt signedChar s.mem (string + s.i)) 2 &&& 0x3F))
      let u : EncodeState :=
        if s.i = len - 1 then
          let m2 := Mem.write m1 (s.p + 1)
            (basis (shl (charAt signedChar m1 (string + s.i) &&& 0x3) 4))
          { i := s.i, p := s.p + 3, mem := Mem.write m2 (s.p + 2) 61 }
        else
          let m2 := Mem.write m1 (s.p + 1)
            (basis (shl (charAt signedChar m1 (string + s.i) &&& 0x3) 4 |||
              sar (charAt signedChar m1 (string + (s.i + 1)) &&& 0xF0) 4))
          { i := s.i, p := s.p + 3,
            mem := Mem.write m2 (s.p + 2)
              (basis (shl (charAt signedChar m2 (string + (s.i + 1)) &&& 0xF) 2)) }
      { i := u.i, p := u.p + 1, mem := Mem.write u.mem u.p 61 }
    else s
  (t.p + 1 - encoded, Mem.write t.mem t.p 0)

/-- Source `RAK_BLUES::myJB64Encode(encoded, string, len)` (lines 1708-1739), for `len ≥ 0`:
the return value and memory. `signedChar` says whether `char` is a signed type. The loop is
given `len` iterations, which it cannot use up, every iteration advancing `i` by 3. -/
def myJB64Encode (signedChar : Bool) (m : Mem) (encoded string len : Nat) : Nat × Mem :=
  encodeTail signedChar encoded string len
    (encodeLoop signedChar string len len { i := 0, p := encoded, mem := m })

/-- The characters RFC 4648 gives for a 24-bit group of three octets. -/
def rfc4648Group3 (a b c : Nat) : List Nat :=
  [basis ((a * 65536 + b * 256 + c) / 262144), basis ((a * 65536 + b * 256 + c) / 4096 % 64),
    basis ((a * 65536 + b * 256 + c) / 64 % 64), basis ((a * 65536 + b * 256 + c) % 64)]

/-- The base64 encoding of RFC 4648, section 4, with the standard alphabet: the octets are
taken three at a time as 24-bit groups, each giving four characters for its four 6-bit
values; a final group of one octet is filled with zero bits to 12 bits and gives two
characters and `==`, one of two octets is filled to 18 bits and gives three characters and
`=`. -/
def rfc4648Encode : List Nat → List Nat
  | [] => []
  | [a] => [basis (a * 16 / 64), basis (a * 16 % 64), 61, 61]
  | [a, b] =>
    [basis ((a * 256 + b) * 4 / 4096), basis ((a * 256 + b) * 4 / 64 % 64),
      basis ((a * 256 + b) * 4 % 64), 61]
  | a :: b :: c :: rest => rfc4648Group3 a b c ++ rfc4648Encode rest

/-- The 6-bit value of a character of the standard alphabet. -/
def sextetOf (c : Nat) : Option Nat :=
  if basis_64.indexOf c < 64 then some (basis_64.indexOf c) else none

/-- The octets of one group of four characters, the last one or two of which may be the
padding `=`. -/
def decodeGroup (c1 c2 c3 c4 : Nat) : Option (List Nat) :=
  match sextetOf c1, sextetOf c2 with
  | some s1, some s2 =>
    if c3 = 61 ∧ c4 = 61 then some [s1 * 4 + s2 / 16]
    else
      match sextetOf c3 with
      | some s3 =>
        if c4 = 61 then some [s1 * 4 + s2 / 16, s2 % 16 * 16 + s3 / 4]
        else
          match sextetOf c4 with
          | some s4 => some [s1 * 4 + s2 / 16, s2 % 16 * 16 + s3 / 4, s3 % 4 * 64 + s4]
          | none => none
      | none => none
  | _, _ => none

/-- A standard base64 decoder: groups of four characters, padding in the last group only. -/
def rfc4648Decode : List Nat → Option (List Nat)
  | [] => some []
  | c1 :: c2 :: c3 :: c4 :: rest =>
    match decodeGroup c1 c2 c3 c4, rfc4648Decode rest with
    | some g, some r => if g.length < 3 ∧ rest ≠ [] then none else some (g ++ r)
    | _, _ => none
  | _ => none

/-! ## The example applications

The two example sketches call the driver through the global instance `rak_blues`. Their
state is the driver, the device, the application memory (the payload and the buffer
`payload_b86`), the response buffer `rsp_msg`, and, as a ghost, the driver calls made. -/

/-- The characters of a C string literal. -/
def cstr (s : String) : List Nat := s.toList.map Char.toNat

/-- What the sketches are built for and run on: the document library, the platform, whether
`RUI_SDK` is defined, whether `char` is signed, and the poll budget of the receive loop. -/
structure Board (σ : Type) where
  J : Json Value
  W : Platform σ
  RUI_SDK : Bool
  signedChar : Bool
  budget : Nat

/-- A call of the driver, or of `delay`, made by a sketch. -/
inductive Call where
  | start_req (request : List Nat)
  | send_req (ok : Bool)
  | delay (ms : Nat)
  deriving DecidableEq, Repr

/-- The state of a sketch. -/
structure App (σ : Type) where
  rak_blues : RAK_BLUES Value
  dev : σ
  mem : Mem
  rsp_msg : List Nat
  calls : List Call

/-- What the sketches read from their surroundings: the result of `read_blues_settings()`,
the fields of `g_blues_settings` (the buffer `product_uid` byte by byte),
`g_send_repeat_time`, the text `sprintf` leaves in `node_id`, and the sensor values, as bit
patterns of `float`. -/
structure Settings where
  read_blues_settings : Bool
  product_uid : List Nat
  conn_continous : Bool
  sim_usage : Nat
  ext_sim_apn : List Nat
  g_send_repeat_time : Nat
  node_id : List Nat
  temp : Nat
  humid : Nat
  baro : Nat

/-- The return codes of an AT command handler. -/
inductive AtResult where
  | AT_OK
  | AT_ERROR
  | AT_PARAM_ERROR
  deriving DecidableEq, Repr

/-- The macro `PRODUCT_UID`, as the sketches define it when the build does not. -/
def PRODUCT_UID : List Nat := cstr "com.my-company.my-name:my-project"

/-- The product UID the sketches set: `memcmp(product_uid, "com.my-company.my-name", 22)`,
on equality `memcpy(product_uid, PRODUCT_UID, 33)`, and then the C string in the buffer. -/
def productUid (S : Settings) : List Nat :=
  let buffer :=
    if S.product_uid.take 22 = cstr "com.my-company.my-name" then
      PRODUCT_UID.take 33 ++ S.product_uid.drop 33
    else S.product_uid
  buffer.takeWhile (fun c => c != 0)

/-- A value converted to `int32_t`. -/
def toInt32 (x : Nat) : Int :=
  if x % 4294967296 < 2147483648 then (x % 4294967296 : Nat)
  else ((x % 4294967296 : Nat) : Int) - 4294967296

/-- A call `rak_blues.start_req(request)`; the result is the return value. -/
def App.start_req (app : App σ) (request : List Nat) : Bool × App σ :=
  let r := RakBlues.start_req app.rak_blues request
  (r.1, { app with
    rak_blues := r.2, calls := app.calls ++ [Call.start_req request] })

/-- A call `rak_blues.send_req(response, resp_len)`: `none` when it does not return within
the poll budget, else the return value. With `response` given, it is `rsp_msg`. -/
def App.send_req (E : Board σ) (app : App σ) (response : Bool) (resp_len : Nat) :
    Option (Bool × App σ) :=
  let r := RakBlues.send_req E.J E.W E.RUI_SDK E.budget app.rak_blues app.dev
    (if response then some app.rsp_msg else none) resp_len
  match r.ret with
  | none => none
  | some ok =>
    some (ok,
      { rak_blues := r.after app.rak_blues, dev := r.dev, mem := app.mem,
        rsp_msg := r.response.getD app.rsp_msg,
        calls := app.calls ++ [Call.send_req ok] })

/-- A call `delay(ms)`. -/
def App.delay (E : Board σ) (app : App σ) (ms : Nat) : App σ :=
  { app with
    dev := E.W.delay app.dev ms, calls := app.calls ++ [Call.delay ms] }

/-- A change of the document by one of the `add_*` functions of the driver. -/
def App.build (app : App σ) (f : RAK_BLUES Value → RAK_BLUES Value) : App σ :=
  { app with rak_blues := f app.rak_blues }

/-- The loop `for (int try_send = 0; try_send < 3; try_send++) { … }` with `n` iterations
left. The body returns `none` when a `send_req` in it did not return, and else whether it
left the loop with `break`; so does the loop. -/
def forTries (body : App σ → Option (Bool × App σ)) : Nat → App σ → Option (Bool × App σ)
  | 0, app => some (false, app)
  | n + 1, app =>
    match body app with
    | none => none
    | some (true, app1) => some (true, app1)
    | some (false, app1) => forTries body n app1

/-- A card that refuses every write transaction (address NACK) and answers no read. -/
def deadBus : Platform Nat where
  endTransmission s _ _ := (2, s)
  requestFrom s _ _ := ([], s)
  wireBegin s := s
  millis s := s
  delay s ms := s + ms
  indeterminate := 0
namespace RUI3

/-- The body of the loop of `init_blues` for `card.location.mode` (RUI3 `blues.cpp`, lines
42-57). -/
def location_mode_try (E : Board σ) (app : App σ) : Option (Bool × App σ) :=
  let a := app.start_req (cstr "card.location.mode")
  if a.1 then
    let b := a.2.build (fun r => add_string_entry r (cstr "mode") (cstr "off"))
    match b.send_req E true 1024 with
    | none => none
    | some (true, c) => some (true, c)
    | some (false, c) => some (false, c)
  else some (false, a.2)

/-- The body of the four loops of `init_blues` that send `stop: true` (RUI3 `blues.cpp`,
lines 60-113): `card.location.track`, `card.motion.mode`, `card.motion.sync` and
`card.motion.track`. -/
def stop_try (E : Board σ) (request : List Nat) (app : App σ) : Option (Bool × App σ) :=
  let a := app.start_req request
  if a.1 then
    let b := a.2.build (fun r => add_bool_entry r (cstr "stop") true)
    match b.send_req E true 1024 with
    | none => none
    | some (true, c) => some (true, c)
    | some (false, c) => some (false, c)
  else some (false, a.2)

/-- The body of the loop of `init_blues` for `hub.set` (RUI3 `blues.cpp`, lines 131-156). -/
def hub_set_try (E : Board σ) (S : Settings) (app : App σ) : Option (Bool × App σ) :=
  let a := app.start_req (cstr "hub.set")
  let r : Option (Bool × App σ) :=
    if a.1 then
      let b := a.2.build (fun r => add_string_entry r (cstr "product") (productUid S))
      let b := if S.conn_continous
        then b.build (fun r => add_string_entry r (cstr "mode") (cstr "continuous"))
        else b.build (fun r => add_string_entry r (cstr "mode") (cstr "minimum"))
      let b := b.build (fun r => add_int32_entry r (cstr "seconds")
        (toInt32 (S.g_send_repeat_time / 1000)))
      let b := b.build (fun r => add_bool_entry r (cstr "heartbeat") true)
      b.send_req E true 1024
    else some (false, a.2)
  match r with
  | none => none
  | some (true, c) => some (true, c)
  | some (false, c) => some (false, c.delay E 100)

/-- The body of the loop of `init_blues` for `card.wireless` (RUI3 `blues.cpp`, lines
165-201). -/
def card_wireless_try (E : Board σ) (S : Settings) (app : App σ) : Option (Bool × App σ) :=
  let a := app.start_req (cstr "card.wireless")
  if a.1 then
    let b := a.2.build (fun r => add_string_entry r (cstr "mode") (cstr "auto"))
    let b :=
      if S.sim_usage = 0 then
        b.build (fun r => add_string_entry r (cstr "method") (cstr "primary"))
      else if S.sim_usage = 1 then
        (b.build (fun r => add_string_entry r (cstr "apn") S.ext_sim_apn)).build
          (fun r => add_string_entry r (cstr "method") (cstr "secondary"))
      else if S.sim_usage = 2 then
        (b.build (fun r => add_string_entry r (cstr "apn") S.ext_sim_apn)).build
          (fun r => add_string_entry r (cstr "method") (cstr "dual-secondary-primary"))
      else if S.sim_usage = 3 then
        (b.build (fun r => add_string_entry r (cstr "apn") S.ext_sim_apn)).build
          (fun r => add_string_entry r (cstr "method") (cstr "dual-primary-secondary"))
      else b
    match b.send_req E true 1024 with
    | none => none
    | some (true, c) => some (true, c)
    | some (false, c) => some (false, c)
  else some (false, a.2)

/-- The body of the loop of `init_blues` for `card.version` (RUI3 `blues.cpp`, lines
210-229). -/
def card_version_try (E : Board σ) (app : App σ) : Option (Bool × App σ) :=
  let a := app.start_req (cstr "card.version")
  if a.1 then
    match a.2.send_req E true 1024 with
    | none => none
    | some (true, c) => some (true, c)
    | some (false, c) => some (false, c)
  else some (false, a.2)

/-- Source `init_blues()` of the RUI3 sketch (`blues.cpp`, lines 33-232): `none` when a
`send_req` does not return, else the return value. `Wire.begin` and `Wire.setClock` are left
to the platform. -/
def init_blues (E : Board σ) (S : Settings) (app : App σ) : Option (Bool × App σ) :=
  match forTries (location_mode_try E) 3 app with
  | none => none
  | some (_, a1) =>
  match forTries (stop_try E (cstr "card.location.track")) 3 a1 with
  | none => none
  | some (_, a2) =>
  match forTries (stop_try E (cstr "card.motion.mode")) 3 a2 with
  | none => none
  | some (_, a3) =>
  match forTries (stop_try E (cstr "card.motion.sync")) 3 a3 with
  | none => none
  | some (_, a4) =>
  match forTries (stop_try E (cstr "card.motion.track")) 3 a4 with
  | none => none
  | some (_, a5) =>
    let settings : Option (Option Bool × App σ) :=
      if S.read_blues_settings then
        match forTries (hub_set_try E S) 3 a5 with
        | none => none
        | some (false, a6) => some (some false, a6)
        | some (true, a6) =>
          match forTries (card_wireless_try E S) 3 a6 with
          | none => none
          | some (false, a7) => some (some false, a7)
          | some (true, a7) => some (none, a7)
      else some (none, a5)
    match settings with
    | none => none
    | some (some result, a8) => some (result, a8)
    | some (none, a8) => forTries (card_version_try E) 3 a8

/-- The body of the loop of `blues_send_payload` (RUI3 `blues.cpp`, lines 247-278);
`payload_b86` is the address of the local buffer of that name. -/
def send_payload_try (E : Board σ) (S : Settings) (data data_len payload_b86 : Nat)
    (app : App σ) : Option (Bool × App σ) :=
  let a := app.start_req (cstr "note.add")
  if a.1 then
    let b := a.2.build (fun r => add_string_entry r (cstr "file") (cstr "data.qo"))
    let b := b.build (fun r => add_bool_entry r (cstr "sync") true)
    let b := b.build (fun r => add_nested_string_entry r (cstr "body") (cstr "dev_eui")
      S.node_id)
    let b := b.build (fun r => add_nested_float_entry r (cstr "body") (cstr "temp") S.temp)
    let b := b.build (fun r => add_nested_float_entry r (cstr "body") (cstr "humid") S.humid)
    let b := b.build (fun r => add_nested_float_entry r (cstr "body") (cstr "baro") S.baro)
    let e := myJB64Encode E.signedChar b.mem payload_b86 data data_len
    let b : App σ := { b with mem := e.2 }
    let b := b.build (fun r => add_string_entry r (cstr "payload")
      (cstring b.mem payload_b86 e.1))
    match b.send_req E false 0 with
    | none => none
    | some (true, c) => some (true, c)
    | some (false, c) => some (false, c)
  else some (false, a.2)

/-- Source `blues_send_payload(data, data_len)` of the RUI3 sketch (`blues.cpp`, lines
242-286). -/
def blues_send_payload (E : Board σ) (S : Settings) (data data_len payload_b86 : Nat)
    (app : App σ) : Option (Bool × App σ) :=
  match forTries (send_payload_try E S data data_len payload_b86) 3 app with
  | none => none
  | some (request_success, a) =>
    if !request_success then some (false, a) else some (request_success, a)

/-- Source `blues_card_restore()` of the RUI3 sketch (`blues.cpp`, lines 292-298); the
result of `send_req` is not looked at. -/
def blues_card_restore (E : Board σ) (app : App σ) : Option (App σ) :=
  let a := (app.start_req (cstr "hub.status")).2
  let b := a.build (fun r => add_bool_entry r (cstr "delete") true)
  let b := b.build (fun r => add_bool_entry r (cstr "connected") true)
  (b.send_req E false 0).map (fun r => r.2)

/-- The body of the loop of `breq_handler` (RUI3 `custom_at.cpp`, lines 370-382). -/
def breq_try (E : Board σ) (request : List Nat) (app : App σ) : Option (Bool × App σ) :=
  let a := app.start_req request
  let r : Option (Bool × App σ) :=
    if a.1 then a.2.send_req E true 1024 else some (false, a.2)
  match r with
  | none => none
  | some (true, c) => some (true, c)
  | some (false, c) => some (false, c.delay E 100)

/-- Source `breq_handler(port, cmd, param)` (RUI3 `custom_at.cpp`, lines 365-395); `argv`
holds the `param->argc` arguments. -/
def breq_handler (E : Board σ) (argv : List (List Nat)) (app : App σ) :
    Option (AtResult × App σ) :=
  if argv.length = 1 then
    match forTries (breq_try E (argv.headD [])) 3 app with
    | none => none
    | some (request_success, a) =>
      if !request_success then some (AtResult.AT_ERROR, a) else some (AtResult.AT_OK, a)
  else some (AtResult.AT_PARAM_ERROR, app)

end RUI3
namespace WisBlock

/-- The body of the loop of `init_blues` for `hub.set` (WisBlock `blues.cpp`, lines
50-74). -/
def hub_set_try (E : Board σ) (S : Settings) (app : App σ) : Option (Bool × App σ) :=
  let a := app.start_req (cstr "hub.set")
  let r : Option (Bool × App σ) :=
    if a.1 then
      let b := a.2.build (fun r => add_string_entry r (cstr "product") (productUid S))
      let b := if S.conn_continous
        then b.build (fun r => add_string_entry r (cstr "mode") (cstr "continuous"))
        else b.build (fun r => add_string_entry r (cstr "mode") (cstr "minimum"))
      b.send_req E false 0
    else some (false, a.2)
  match r with
  | none => none
  | some (true, c) => some (true, c)
  | some (false, c) => some (false, c.delay E 100)

/-- The body of the loop of `init_blues` for `card.wireless` (WisBlock `blues.cpp`, lines
83-118). -/
def card_wireless_try (E : Board σ) (S : Settings) (app : App σ) : Option (Bool × App σ) :=
  let a := app.start_req (cstr "card.wireless")
  if a.1 then
    let b := a.2.build (fun r => add_string_entry r (cstr "mode") (cstr "auto"))
    let b :=
      if S.sim_usage = 0 then
        b.build (fun r => add_string_entry r (cstr "method") (cstr "primary"))
      else if S.sim_usage = 1 then
        (b.build (fun r => add_string_entry r (cstr "apn") S.ext_sim_apn)).build
          (fun r => add_string_entry r (cstr "method") (cstr "secondary"))
      else if S.sim_usage = 2 then
        (b.build (fun r => add_string_entry r (cstr "apn") S.ext_sim_apn)).build
          (fun r => add_string_entry r (cstr "method") (cstr "dual-secondary-primary"))
      else if S.sim_usage = 3 then
        (b.build (fun r => add_string_entry r (cstr "apn") S.ext_sim_apn)).build
          (fun r => add_string_entry r (cstr "method") (cstr "dual-primary-secondary"))
      else b
    match b.send_req E false 0 with
    | none => none
    | some (true, c) => some (true, c)
    | some (false, c) => some (false, c)
  else some (false, a.2)

/-- The body of the loop of `init_blues` for `card.location.mode` (WisBlock `blues.cpp`,
lines 128-138). -/
def location_mode_try (E : Board σ) (app : App σ) : Option (Bool × App σ) :=
  let a := app.start_req (cstr "card.location.mode")
  if a.1 then
    let b := a.2.build (fun r => add_string_entry r (cstr "mode") (cstr "off"))
    match b.send_req E false 0 with
    | none => none
    | some (true, c) => some (true, c)
    | some (false, c) => some (false, c)
  else some (false, a.2)

/-- The body of the four loops of `init_blues` that send `stop: true` (WisBlock `blues.cpp`,
lines 141-190). -/
def stop_try (E : Board σ) (request : List Nat) (app : App σ) : Option (Bool × App σ) :=
  let a := app.start_req request
  if a.1 then
    let b := a.2.build (fun r => add_bool_entry r (cstr "stop") true)
    match b.send_req E false 0 with
    | none => none
    | some (true, c) => some (true, c)
    | some (false, c) => some (false, c)
  else some (false, a.2)

/-- The body of the loop of `init_blues` for `card.version` (WisBlock `blues.cpp`, lines
193-202). -/
def card_version_try (E : Board σ) (app : App σ) : Option (Bool × App σ) :=
  let a := app.start_req (cstr "card.version")
  if a.1 then
    match a.2.send_req E false 0 with
    | none => none
    | some (true, c) => some (true, c)
    | some (false, c) => some (false, c)
  else some (false, a.2)

/-- Source `init_blues()` of the WisBlock sketch (`blues.cpp`, lines 31-204): `none` when a
`send_req` does not return, else the return value. -/
def init_blues (E : Board σ) (S : Settings) (app : App σ) : Option (Bool × App σ) :=
  let settings : Option (Bool × App σ) :=
    if S.read_blues_settings then
      match forTries (hub_set_try E S) 3 app with
      | none => none
      | some (false, a1) => some (false, a1)
      | some (true, a1) =>
        match forTries (card_wireless_try E S) 3 a1 with
        | none => none
        | some (false, a2) => some (false, a2)
        | some (true, a2) => some (true, a2)
    else some (true, app)
  match settings with
  | none => none
  | some (false, a3) => some (false, a3)
  | some (true, a3) =>
  match forTries (location_mode_try E) 3 a3 with
  | none => none
  | some (_, a4) =>
  match forTries (stop_try E (cstr "card.location.track")) 3 a4 with
  | none => none
  | some (_, a5) =>
  match forTries (stop_try E (cstr "card.motion.mode")) 3 a5 with
  | none => none
  | some (_, a6) =>
  match forTries (stop_try E (cstr "card.motion.sync")) 3 a6 with
  | none => none
  | some (_, a7) =>
  match forTries (stop_try E (cstr "card.motion.track")) 3 a7 with
  | none => none
  | some (_, a8) =>
  match forTries (card_version_try E) 3 a8 with
  | none => none
  | some (_, a9) => some (true, a9)

/-- Source `blues_send_payload(data, data_len)` of the WisBlock sketch (`blues.cpp`, lines
214-249): one attempt, no loop. -/
def blues_send_payload (E : Board σ) (S : Settings) (data data_len payload_b86 : Nat)
    (app : App σ) : Option (Bool × App σ) :=
  let a := app.start_req (cstr "note.add")
  if a.1 then
    let b := a.2.build (fun r => add_string_entry r (cstr "file") (cstr "data.qo"))
    let b := b.build (fun r => add_bool_entry r (cstr "sync") true)
    let b := b.build (fun r => add_nested_string_entry r (cstr "body") (cstr "dev_eui")
      S.node_id)
    let b := b.build (fun r => add_nested_float_entry r (cstr "body") (cstr "temp") S.temp)
    let b := b.build (fun r => add_nested_float_entry r (cstr "body") (cstr "humid") S.humid)
    let b := b.build (fun r => add_nested_float_entry r (cstr "body") (cstr "baro") S.baro)
    let e := myJB64Encode E.signedChar b.mem payload_b86 data data_len
    let b : App σ := { b with mem := e.2 }
    let b := b.build (fun r => add_string_entry r (cstr "payload")
      (cstring b.mem payload_b86 e.1))
    match b.send_req E false 0 with
    | none => none
    | some (true, c) => some (true, c)
    | some (false, c) => some (false, c)
  else some (false, a.2)

/-- The body of the loop of `blues_hub_status` (WisBlock `blues.cpp`, lines 258-266); the
result of `start_req` is not looked at. -/
def hub_status_try (E : Board σ) (app : App σ) : Option (Bool × App σ) :=
  let a := (app.start_req (cstr "hub.status")).2
  match a.send_req E false 0 with
  | none => none
  | some (true, c) => some (true, c)
  | some (false, c) => some (false, c)

/-- Source `blues_hub_status()` of the WisBlock sketch (`blues.cpp`, lines 255-271). -/
def blues_hub_status (E : Board σ) (app : App σ) : Option (App σ) :=
  (forTries (hub_status_try E) 3 app).map (fun r => r.2)

/-- Source `blues_card_restore()` of the WisBlock sketch (`blues.cpp`, lines 277-283). -/
def blues_card_restore (E : Board σ) (app : App σ) : Option (App σ) :=
  let a := (app.start_req (cstr "hub.status")).2
  let b := a.build (fun r => add_bool_entry r (cstr "delete") true)
  let b := b.build (fun r => add_bool_entry r (cstr "connected") true)
  (b.send_req E false 0).map (fun r => r.2)

end WisBlock
/-- The calls of one attempt at a request: `start_req`, `send_req` with its outcome, and,
in a loop that pauses, `delay(100)` after an attempt that failed. -/
def attempt (request : List Nat) (pause ok : Bool) : List Call :=
  [Call.start_req request, Call.send_req ok] ++
    (if pause && !ok then [Call.delay 100] else [])

/-- The calls of `k` attempts at a request that all failed. -/
def failedTries (request : List Nat) (pause : Bool) (k : Nat) : List Call :=
  (List.replicate k (attempt request pause false)).flatten

/-- The number of `send_req` calls among the calls of a sketch. -/
def sendCount : List Call → Nat
  | [] => 0
  | Call.send_req _ :: cs => sendCount cs + 1
  | _ :: cs => sendCount cs

/-- The RUI3 sketch on a card that refuses every write, with the small document library. -/
def deadBoard : Board Nat where
  J := flatJson
  W := deadBus
  RUI_SDK := true
  signedChar := true
  budget := 10

/-- A sketch that has made no call yet. -/
def freshApp : App Nat where
  rak_blues := { _deviceAddress := 23, note_json := Value.null, in_out_buff := fun _ => 0 }
  dev := 0
  mem := fun _ => 0
  rsp_msg := []
  calls := []

/-- The RUI3 sketch on a scripted card, with the small document library. -/
def scriptedBoard : Board Script where
  J := flatJson
  W := scriptedBus
  RUI_SDK := true
  signedChar := true
  budget := 3

/-- A sketch that has made no call yet, in front of a card that refuses the first write
transaction (error 2), accepts the later ones, and answers the first query with 3 bytes
available and the read of them with the text of an empty object and a newline. -/
def scriptedApp : App Script where
  rak_blues := { _deviceAddress := 23, note_json := Value.null, in_out_buff := fun _ => 0 }
  dev := Script.mk [2] [frame 3 [], frame 0 [123, 125, 10]] 0
  mem := fun _ => 0
  rsp_msg := []
  calls := []

/-- Settings as a sketch may have saved them: the product UID of the sketch, periodic
connection, the internal SIM, a send interval of one minute. -/
def savedSettings : Settings where
  read_blues_settings := true
  product_uid := PRODUCT_UID ++ [0]
  conn_continous := false
  sim_usage := 0
  ext_sim_apn := cstr "internet"
  g_send_repeat_time := 60000
  node_id := cstr "0102030405060708"
  temp := 0
  humid := 0
  baro := 0

/-! ## Memory lemmas -/

theorem Mem.read_length (m : Mem) : ∀ (n a : Nat), (Mem.read m a n).length = n := by
  intro n
  induction n with
  | zero => intro a; rfl
  | succ n ih => intro a; simp [Mem.read, ih]

theorem Mem.read_add (m : Mem) : ∀ (x y a : Nat),
    Mem.read m a (x + y) = Mem.read m a x ++ Mem.read m (a + x) y := by
  intro x
  induction x with
  | zero => intro y a; simp [Mem.read]
  | succ x ih =>
    intro y a
    have h : x + 1 + y = (x + y) + 1 := by omega
    rw [h]
    simp only [Mem.read, List.cons_append, List.cons.injEq, true_and]
    rw [ih y (a + 1)]
    have h2 : a + 1 + x = a + (x + 1) := by omega
    rw [h2]

theorem Mem.read_congr (m1 m2 : Mem) : ∀ (n a : Nat),
    (∀ i, a ≤ i → i < a + n → m1 i = m2 i) → Mem.read m1 a n = Mem.read m2 a n := by
  intro n
  induction n with
  | zero => intro a _; rfl
  | succ n ih =>
    intro a h
    simp only [Mem.read]
    rw [h a (le_refl a) (by omega), ih (a + 1) (fun i h1 h2 => h i (by omega) (by omega))]

theorem Mem.writeList_below (l : List Nat) : ∀ (m : Mem) (a i : Nat),
    i < a → Mem.writeList m a l i = m i := by
  induction l with
  | nil => intro m a i _; rfl
  | cons b bs ih =>
    intro m a i h
    simp only [Mem.writeList]
    rw [ih _ _ _ (by omega)]
    simp only [Mem.write]
    rw [if_neg (by omega)]

theorem Mem.writeList_above (l : List Nat) : ∀ (m : Mem) (a i : Nat),
    a + l.length ≤ i → Mem.writeList m a l i = m i := by
  induction l with
  | nil => intro m a i _; rfl
  | cons b bs ih =>
    intro m a i h
    simp only [List.length_cons] at h
    simp only [Mem.writeList]
    rw [ih _ _ _ (by omega)]
    simp only [Mem.write]
    rw [if_neg (by omega)]

theorem Mem.read_writeList (l : List Nat) : ∀ (m : Mem) (a : Nat),
    Mem.read (Mem.writeList m a l) a l.length = l := by
  induction l with
  | nil => intro m a; rfl
  | cons b bs ih =>
    intro m a
    simp only [List.length_cons, Mem.read, Mem.writeList]
    rw [ih, Mem.writeList_below _ _ _ _ (by omega)]
    simp [Mem.write]

/-- The last byte stored by `writeList` is the last byte of the list. -/
theorem Mem.writeList_last (l : List Nat) : ∀ (m : Mem) (a : Nat) (b : Nat),
    l.getLast? = some b → Mem.writeList m a l (a + l.length - 1) = b := by
  induction l with
  | nil => intro m a b h; simp at h
  | cons x xs ih =>
    intro m a b h
    cases xs with
    | nil =>
      simp only [List.getLast?_singleton, Option.some.injEq] at h
      simp [Mem.writeList, Mem.write, h]
    | cons y ys =>
      rw [List.getLast?_cons_cons] at h
      simp only [Mem.writeList]
      have := ih (Mem.write m a x) (a + 1) b h
      simp only [Mem.writeList, List.length_cons] at this ⊢
      rw [← this]
      congr 1
      omega

/-- The buffer `send_req` transmits holds the serialized text followed by one newline. -/
theorem read_requestBuffer (J : Json δ) (self : RAK_BLUES δ) :
    Mem.read (requestBuffer J self) 0 ((requestText J self).length + 1)
      = requestText J self ++ [10] := by
  rw [Mem.read_add]
  congr 1
  · rw [Mem.read_congr _ (Mem.writeList self.in_out_buff 0 (requestText J self))]
    · exact Mem.read_writeList _ _ _
    · intro i _ h2
      simp only [requestBuffer, Mem.write]
      rw [if_neg (by omega)]
  · simp [Mem.read, requestBuffer, Mem.write]

/-! ## Trace lemmas -/

theorem txCalls_append (xs ys : List Event) :
    txCalls (xs ++ ys) = txCalls xs ++ txCalls ys := by
  induction xs with
  | nil => rfl
  | cons e es ih => cases e <;> simp [txCalls, ih]

theorem rxCalls_append (xs ys : List Event) :
    rxCalls (xs ++ ys) = rxCalls xs ++ rxCalls ys := by
  induction xs with
  | nil => rfl
  | cons e es ih => cases e <;> simp [rxCalls, ih]

theorem controlWrite_calls (W : Platform σ) (a r : Nat) : ∀ (n : Nat) (c : ControlWrite σ),
    txCalls (controlWrite W a r n c).trace = txCalls c.trace ∧
    rxCalls (controlWrite W a r n c).trace = rxCalls c.trace := by
  intro n
  induction n with
  | zero => intro c; exact ⟨rfl, rfl⟩
  | succ n ih =>
    intro c
    simp only [controlWrite]
    split
    · simp [wireWrite, txCalls_append, rxCalls_append, txCalls, rxCalls]
    · obtain ⟨h1, h2⟩ := ih
        { transmission_error := (wireWrite W c.dev a [0, r % 256]).1, result := false,
          dev := (I2C_RST W (wireWrite W c.dev a [0, r % 256]).2.1).1,
          trace := c.trace ++ (wireWrite W c.dev a [0, r % 256]).2.2 ++
            (I2C_RST W (wireWrite W c.dev a [0, r % 256]).2.1).2 }
      rw [h1, h2]
      simp [wireWrite, I2C_RST, txCalls_append, rxCalls_append, txCalls, rxCalls]

/-- Every `blues_I2C_RX` leaves exactly one receive call, and no transmit call, in the trace. -/
theorem blues_I2C_RX_calls (W : Platform σ) (d : σ) (a : Nat) (m : Mem) (p r v : Nat) :
    txCalls (blues_I2C_RX W d a m p r v).trace = [] ∧
    rxCalls (blues_I2C_RX W d a m p r v).trace
      = [(p, r, (blues_I2C_RX W d a m p r v).result)] := by
  obtain ⟨h1, h2⟩ := controlWrite_calls W a r 3
    { transmission_error := 0, result := true, dev := d, trace := [] }
  simp only [txCalls, rxCalls] at h1 h2
  simp only [blues_I2C_RX]
  split_ifs <;>
    simp [wireRequestFrom, txCalls_append, rxCalls_append, txCalls, rxCalls, h1, h2]
/-! ## Bus transport lemmas -/

theorem rxCopy_mem (W : Platform σ) (b : Nat) : ∀ (n i : Nat) (rest : List Nat) (m : Mem) (d : σ),
    n ≤ rest.length → (rxCopy W b n i rest m d).1 = Mem.writeList m (b + i) (rest.take n) := by
  intro n
  induction n with
  | zero => intro i rest m d _; simp [rxCopy, Mem.writeList]
  | succ n ih =>
    intro i rest m d h
    cases rest with
    | nil => simp at h
    | cons x xs =>
      simp only [List.length_cons] at h
      simp only [rxCopy, List.tail_cons, List.headD_cons, List.take_succ_cons, Mem.writeList]
      rw [ih (i + 1) xs _ _ (by omega)]
      rfl

/-- The control-write loop stops after a first attempt that succeeds. -/
theorem controlWrite_first (W : Platform σ) (a r n : Nat) (c : ControlWrite σ)
    (h : (W.endTransmission c.dev (a % 256) [0, r % 256]).1 % 256 = 0) :
    controlWrite W a r (n + 1) c =
      { transmission_error := 0, result := c.result,
        dev := (W.endTransmission c.dev (a % 256) [0, r % 256]).2,
        trace := c.trace ++ [Event.write (a % 256) [0, r % 256] 0] } := by
  simp [controlWrite, wireWrite, h]

/-- A receive whose control write succeeds at once and whose read delivers a well-formed
response stores the payload and the available-count and returns true. -/
theorem blues_I2C_RX_ok (W : Platform σ) (d : σ) (a : Nat) (m : Mem) (p r v av : Nat)
    (payload : List Nat)
    (h1 : (W.endTransmission d (a % 256) [0, r % 256]).1 % 256 = 0)
    (hresp : (W.requestFrom (W.delay (W.endTransmission d (a % 256) [0, r % 256]).2 2) a
      (r + 2)).1.map (fun b => b % 256) = av :: r :: payload)
    (hlen : payload.length = r) (hav : av ≤ 253) :
    (blues_I2C_RX W d a m p r v).result = true ∧
    (blues_I2C_RX W d a m p r v).mem = Mem.writeList m p payload ∧
    (blues_I2C_RX W d a m p r v).available = av ∧
    (blues_I2C_RX W d a m p r v).dev = (rxCopy W p r 0 payload m
      (W.requestFrom (W.delay (W.endTransmission d (a % 256) [0, r % 256]).2 2) a
        (r + 2)).2).2 := by
  have hc := controlWrite_first W a r 2
    { transmission_error := 0, result := true, dev := d, trace := [] } h1
  have hm := rxCopy_mem W p r 0 payload m
    (W.requestFrom (W.delay (W.endTransmission d (a % 256) [0, r % 256]).2 2) a (r + 2)).2
    (le_of_eq hlen.symm)
  rw [← hlen, List.take_length] at hm
  simp only [blues_I2C_RX, hc, wireRequestFrom, hresp]
  simp [AVAILBLE_MAX, hlen, hav, Nat.not_lt.2 hav]
  rw [← hlen]
  simpa using hm

/-- The copy loop changes the device by delays only. -/
theorem rxCopy_dev (W : Platform σ) (b : Nat) (P : σ → Prop)
    (hdelay : ∀ s ms, P s → P (W.delay s ms)) :
    ∀ (n i : Nat) (rest : List Nat) (m : Mem) (d : σ),
      P d → P (rxCopy W b n i rest m d).2 := by
  intro n
  induction n with
  | zero => intro i rest m d h; exact h
  | succ n ih =>
    intro i rest m d h
    simp only [rxCopy]
    exact ih _ _ _ _ (hdelay _ _ h)

/-- C9: when the control write of `blues_I2C_RX` succeeds on its first attempt, the read is
issued for `requested_byte_count_ + 2` bytes, and the call returns true exactly when the
read delivered `requested_byte_count_ + 2` bytes whose first byte (the available-count) is
at most 253 and whose second byte equals `requested_byte_count_`; no response, a length
mismatch, an available-count above 253 and an echo mismatch each make it return false. -/
theorem blues_I2C_RX_validation (W : Platform σ) (d : σ) (a : Nat) (m : Mem) (p r v : Nat)
    (h1 : (W.endTransmission d (a % 256) [0, r % 256]).1 % 256 = 0) :
    ∃ resp : List Nat,
      resp = (W.requestFrom (W.delay (W.endTransmission d (a % 256) [0, r % 256]).2 2) a
        (r + 2)).1.map (fun b => b % 256) ∧
      (blues_I2C_RX W d a m p r v).response = some resp ∧
      ((blues_I2C_RX W d a m p r v).result = true ↔
        resp.length = r + 2 ∧ (∃ x, resp[0]? = some x ∧ x ≤ 253) ∧ resp[1]? = some r) ∧
      (resp.length = 0 → (blues_I2C_RX W d a m p r v).result = false) ∧
      (resp.length ≠ r + 2 → (blues_I2C_RX W d a m p r v).result = false) ∧
      (∀ x, resp[0]? = some x → 253 < x → (blues_I2C_RX W d a m p r v).result = false) ∧
      (resp[1]? ≠ some r → (blues_I2C_RX W d a m p r v).result = false) := by
  have hc := controlWrite_first W a r 2
    { transmission_error := 0, result := true, dev := d, trace := [] } h1
  refine ⟨_, rfl, ?_⟩
  simp only [blues_I2C_RX, hc, wireRequestFrom]
  generalize (W.requestFrom (W.delay (W.endTransmission d (a % 256) [0, r % 256]).2 2) a
    (r + 2)).1.map (fun b => b % 256) = resp
  generalize (W.requestFrom (W.delay (W.endTransmission d (a % 256) [0, r % 256]).2 2) a
    (r + 2)).2 = d2
  rcases resp with _ | ⟨x, _ | ⟨y, rest⟩⟩
  · simp
  · simp
  · simp only [AVAILBLE_MAX]
    by_cases hl : rest.length = r
    · by_cases hx : x ≤ 253
      · by_cases hy : r = y
        · simp [hl, hx, hy, Nat.not_lt.2 hx]
        · simp [hl, hx, hy, Nat.not_lt.2 hx]
          intro h
          exact absurd h.symm hy
      · simp [hl, hx, Nat.lt_of_not_le hx]
    · simp [hl]

/-- C9 at a concrete input: a card answering a 3-byte request with a well-formed response. -/
theorem blues_I2C_RX_validation_witness :
    ((steadyBus 5 65).endTransmission 0 (23 % 256) [0, 3 % 256]).1 % 256 = 0 ∧
    (blues_I2C_RX (steadyBus 5 65) 0 23 (fun _ => 0) 0 3 0).result = true := by
  refine ⟨by decide, ?_⟩
  obtain ⟨resp, hr, _, hiff, _⟩ :=
    blues_I2C_RX_validation (steadyBus 5 65) 0 23 (fun _ => 0) 0 3 0 (by decide)
  rw [hiff, hr]
  exact ⟨by decide, ⟨5, by decide, by decide⟩, by decide⟩

/-- C10: when the read response's second header byte differs from
`requested_byte_count_`, `blues_I2C_RX` returns false and leaves memory (so every byte of
`buffer_`) and `*available_` as they were. -/
theorem blues_I2C_RX_echo_mismatch (W : Platform σ) (d : σ) (a : Nat) (m : Mem) (p r v : Nat)
    (resp : List Nat)
    (hresp : (blues_I2C_RX W d a m p r v).response = some resp)
    (hecho : resp[1]? ≠ some r) :
    (blues_I2C_RX W d a m p r v).result = false ∧
    (blues_I2C_RX W d a m p r v).mem = m ∧
    (blues_I2C_RX W d a m p r v).available = v := by
  revert hresp
  simp only [blues_I2C_RX]
  generalize controlWrite W a r 3
    { transmission_error := 0, result := true, dev := d, trace := [] } = c
  simp only [wireRequestFrom]
  generalize (W.requestFrom (W.delay c.dev 2) a (r + 2)).1.map (fun b => b % 256) = q
  split_ifs with h1 h2 h3 h4 h5
  · simp
  · simp
  · simp
  · simp
  · intro hq
    simp only [Option.some.injEq] at hq
    subst hq
    exfalso
    apply hecho
    rcases q with _ | ⟨x, _ | ⟨y, rest⟩⟩
    · simp at h2
    · simp at h3 h5
    · simp at h5
      simp [h5]
  · simp

/-- C10 at a concrete input: a card echoing 9 to a request for 3 bytes. -/
theorem blues_I2C_RX_echo_mismatch_witness :
    (blues_I2C_RX scriptedBus ⟨[], [[5, 9, 1, 2, 3]], 0⟩ 23 (fun _ => 0) 0 3 7).response
      = some [5, 9, 1, 2, 3] ∧
    [5, 9, 1, 2, 3][1]? ≠ some 3 ∧
    (blues_I2C_RX scriptedBus ⟨[], [[5, 9, 1, 2, 3]], 0⟩ 23 (fun _ => 0) 0 3 7).result = false ∧
    (blues_I2C_RX scriptedBus ⟨[], [[5, 9, 1, 2, 3]], 0⟩ 23 (fun _ => 0) 0 3 7).mem
      = (fun _ => 0) ∧
    (blues_I2C_RX scriptedBus ⟨[], [[5, 9, 1, 2, 3]], 0⟩ 23 (fun _ => 0) 0 3 7).available = 7 :=
  ⟨by decide, by decide,
    blues_I2C_RX_echo_mismatch scriptedBus ⟨[], [[5, 9, 1, 2, 3]], 0⟩ 23 (fun _ => 0) 0 3 7
      [5, 9, 1, 2, 3] (by decide) (by decide)⟩
/-! ## The transmit loop -/

theorem ceil_zero (B : Nat) (hB : 0 < B) : (B - 1) / B = 0 :=
  Nat.div_eq_of_lt (by omega)

theorem ceil_step (L B : Nat) (hB : 0 < B) (hL : 0 < L) :
    (L + B - 1) / B = (L - min L B + B - 1) / B + 1 := by
  by_cases h : L ≤ B
  · rw [Nat.min_eq_left h]
    have e1 : (L - L + B - 1) / B = 0 := Nat.div_eq_of_lt (by omega)
    have e2 : (L + B - 1) / B = 1 := by
      have h2 : L + B - 1 = (L - 1) + B := by omega
      rw [h2, Nat.add_div_right _ hB, Nat.div_eq_of_lt (by omega)]
    rw [e1, e2]
  · have h' : B ≤ L := by omega
    rw [Nat.min_eq_right h']
    have h2 : L + B - 1 = (L - B + B - 1) + B := by omega
    rw [h2, Nat.add_div_right _ hB]

/-- A transmit call whose write transaction succeeds. -/
theorem blues_I2C_TX_ok (W : Platform σ) (d : σ) (a : Nat) (m : Mem) (p n : Nat)
    (h : (W.endTransmission d (a % 256) ((n % 256) :: Mem.read m p n)).1 % 256 = 0) :
    blues_I2C_TX W d a m p n =
      (true, (W.endTransmission d (a % 256) ((n % 256) :: Mem.read m p n)).2,
        [Event.write (a % 256) ((n % 256) :: Mem.read m p n) 0,
          Event.tx (Mem.read m p n) n true]) := by
  simp [blues_I2C_TX, wireWrite, h]

theorem txLoop_step (W : Platform σ) (B a : Nat) (m : Mem) (hB2 : B ≤ 65535)
    (n : Nat) (s : TxState σ) (hpos : 0 < s.jsonLen)
    (h : (W.endTransmission (W.delay s.dev 6) (a % 256)
      ((min s.jsonLen B % 256) :: Mem.read m s.chunk (min s.jsonLen B))).1 % 256 = 0) :
    txLoop W B a m (n + 1) s = txLoop W B a m n (txNext W a m s (min s.jsonLen B)) := by
  have hc : (if (if s.jsonLen > 0xFFFF then 0xFFFF else s.jsonLen) > B then B
      else (if s.jsonLen > 0xFFFF then 0xFFFF else s.jsonLen)) = min s.jsonLen B := by
    split_ifs <;> omega
  rw [txLoop]
  simp only [gt_iff_lt, hpos, if_true, hc, blues_I2C_TX_ok W _ a m _ _ h, txNext]
  simp

/-- The transmit loop on a bus that accepts every chunk: it runs to its end, and the
payloads of its transmit calls cut the bytes to send into chunks of `B` bytes, the last one
possibly shorter. `Inv l d` is an invariant of the device, given the bytes `l` it has
accepted. -/
theorem txLoop_inv (W : Platform σ) (B a : Nat) (m : Mem) (hB : 0 < B) (hB2 : B ≤ 65535)
    (Inv : List Nat → σ → Prop)
    (hdelay : ∀ l s ms, Inv l s → Inv l (W.delay s ms))
    (hwrite : ∀ l s (payload : List Nat), Inv l s → 1 ≤ payload.length →
      payload.length ≤ B →
      (W.endTransmission s (a % 256) ((payload.length % 256) :: payload)).1 % 256 = 0 ∧
      Inv (l ++ payload)
        (W.endTransmission s (a % 256) ((payload.length % 256) :: payload)).2) :
    ∀ (n : Nat) (s : TxState σ) (l : List Nat), s.jsonLen ≤ n → Inv l s.dev →
      (txLoop W B a m n s).1 = some true ∧
      Inv (l ++ Mem.read m s.chunk s.jsonLen) (txLoop W B a m n s).2.dev ∧
      rxCalls (txLoop W B a m n s).2.trace = rxCalls s.trace ∧
      ∃ cs : List (List Nat),
        txCalls (txLoop W B a m n s).2.trace = txCalls s.trace ++ cs.map (fun c => (c, true)) ∧
        cs.flatten = Mem.read m s.chunk s.jsonLen ∧
        cs.length = (s.jsonLen + B - 1) / B ∧
        (∀ c ∈ cs, 1 ≤ c.length ∧ c.length ≤ B) ∧
        (∀ c ∈ cs.dropLast, c.length = B) := by
  intro n
  induction n with
  | zero =>
    intro s l hs hi
    have h0 : s.jsonLen = 0 := by omega
    refine ⟨by simp [txLoop, h0], by simpa [txLoop, h0, Mem.read] using hi,
      by simp [txLoop], [], ?_⟩
    simp [txLoop, h0, Mem.read, ceil_zero B hB]
  | succ n ih =>
    intro s l hs hi
    by_cases h0 : s.jsonLen = 0
    · refine ⟨by simp [txLoop, h0], by simpa [txLoop, h0, Mem.read] using hi,
        by simp [txLoop, h0], [], ?_⟩
      simp [txLoop, h0, Mem.read, ceil_zero B hB]
    · have hpos : s.jsonLen > 0 := by omega
      have hmin : 1 ≤ min s.jsonLen B := by
        rw [Nat.le_min]; omega
      have hw := hwrite l (W.delay s.dev 6) (Mem.read m s.chunk (min s.jsonLen B))
        (hdelay _ _ _ hi) (by rw [Mem.read_length]; exact hmin)
        (by rw [Mem.read_length]; exact Nat.min_le_right _ _)
      rw [Mem.read_length] at hw
      rw [txLoop_step W B a m hB2 n s hpos hw.1]
      have hi2 : Inv (l ++ Mem.read m s.chunk (min s.jsonLen B))
          (txNext W a m s (min s.jsonLen B)).dev := by
        simp only [txNext]
        split_ifs
        · exact hdelay _ _ _ (hdelay _ _ _ hw.2)
        · exact hdelay _ _ _ hw.2
      obtain ⟨r1, r0, r2, cs, c1, c2, c3, c4, c5⟩ := ih (txNext W a m s (min s.jsonLen B))
        (l ++ Mem.read m s.chunk (min s.jsonLen B))
        (show s.jsonLen - min s.jsonLen B ≤ n by omega) hi2
      have hsplit : Mem.read m s.chunk s.jsonLen = Mem.read m s.chunk (min s.jsonLen B) ++
          Mem.read m (s.chunk + min s.jsonLen B) (s.jsonLen - min s.jsonLen B) := by
        rw [← Mem.read_add]
        congr 1
        have := Nat.min_le_left s.jsonLen B
        omega
      refine ⟨r1, ?_, ?_, Mem.read m s.chunk (min s.jsonLen B) :: cs, ?_, ?_, ?_, ?_, ?_⟩
      · rw [hsplit, ← List.append_assoc]
        exact r0
      · rw [r2]; simp [txNext, rxCalls_append, rxCalls]
      · rw [c1]; simp [txNext, txCalls_append, txCalls]
      · rw [List.flatten_cons, c2, hsplit]
        rfl
      · simp only [List.length_cons, c3]
        exact (ceil_step s.jsonLen B hB hpos).symm
      · intro c hcm
        rcases List.mem_cons.1 hcm with h | h
        · subst h
          rw [Mem.read_length]
          exact ⟨hmin, Nat.min_le_right _ _⟩
        · exact c4 c h
      · intro c hcm
        cases cs with
        | nil => simp at hcm
        | cons c0 cs0 =>
          rw [List.dropLast_cons₂] at hcm
          rcases List.mem_cons.1 hcm with h | h
          · subst h
            rw [Mem.read_length]
            have hlen : 0 < (s.jsonLen - min s.jsonLen B + B - 1) / B := by
              have := c3
              simp only [txNext, List.length_cons] at this
              omega
            by_contra hne
            have hlt : s.jsonLen < B := by
              rcases Nat.lt_or_ge s.jsonLen B with h1 | h1
              · exact h1
              · exact absurd (Nat.min_eq_right h1) hne
            rw [Nat.min_eq_left (le_of_lt hlt)] at hlen
            have : (s.jsonLen - s.jsonLen + B - 1) / B = 0 := by
              apply Nat.div_eq_of_lt; omega
            omega
          · exact c5 c h
/-! ## The receive loop -/

/-- One poll of the receive loop. The timeout check of lines 235-241 is only reached with
`chunkLen = 0`, where its guard `if (chunkLen)` fails, so it never takes part. -/
theorem rxLoop_succ (W : Platform σ) (B a t n : Nat) (s : RxState σ) :
    rxLoop W B a t (n + 1) s =
      if (rxPoll W a s).result = false then
        (RxExit.rxError,
          { s with
            jsonbuf := (rxPoll W a s).mem, dev := (rxPoll W a s).dev,
            trace := s.trace ++ (rxPoll W a s).trace })
      else if (rxNext W B a s).chunkLen > 0 then rxLoop W B a t n (rxNext W B a s)
      else if (rxNext W B a s).receivedNewline = true then (RxExit.drained, rxNext W B a s)
      else if (rxNext W B a s).jsonbufLen ≥ 4096 then (RxExit.overflow, rxNext W B a s)
      else rxLoop W B a t n
        { (rxNext W B a s) with dev := W.delay (rxNext W B a s).dev 50 } := by
  have hc : ∀ v : Nat, (if (if v > 0xFFFF then 0xFFFF else v) > B then B
      else (if v > 0xFFFF then 0xFFFF else v)) = min (min v 65535) B := by
    intro v
    split_ifs <;> omega
  rw [rxLoop]
  simp only [hc]
  by_cases h1 : (rxPoll W a s).result = false
  · simp only [rxPoll] at h1
    simp only [h1, rxPoll, if_true]
  · have h1' := h1
    simp only [rxPoll] at h1
    simp only [h1, h1', if_false]
    by_cases h2 : (rxNext W B a s).chunkLen > 0
    · have h2' := h2
      simp only [rxNext, rxPoll] at h2
      simp only [h2, h2', if_true]
      rfl
    · have h2' := h2
      simp only [rxNext, rxPoll] at h2
      simp only [h2, h2', if_false]
      have h3 : ¬ (min (min (blues_I2C_RX W (W.delay s.dev 6) a s.jsonbuf s.jsonbufLen
          s.chunkLen (W.indeterminate % 4294967296)).available 65535) B ≠ 0) := by
        omega
      simp only [h3, if_false]
      rfl

theorem rxLoop_txCalls (W : Platform σ) (B a t : Nat) : ∀ (n : Nat) (s : RxState σ),
    txCalls (rxLoop W B a t n s).2.trace = txCalls s.trace := by
  intro n
  induction n with
  | zero => intro s; rfl
  | succ n ih =>
    intro s
    have hx : txCalls (rxNext W B a s).trace = txCalls s.trace := by
      simp [rxNext, rxPoll, txCalls_append, (blues_I2C_RX_calls W _ a _ _ _ _).1]
    rw [rxLoop_succ]
    split_ifs
    · simp [rxPoll, txCalls_append, (blues_I2C_RX_calls W _ a _ _ _ _).1]
    · rw [ih, hx]
    · exact hx
    · exact hx
    · rw [ih]; exact hx

/-- The receive loop is never left through the timeout check. -/
theorem rxLoop_no_timeout (W : Platform σ) (B a t : Nat) : ∀ (n : Nat) (s : RxState σ),
    (rxLoop W B a t n s).1 ≠ RxExit.noResponse := by
  intro n
  induction n with
  | zero => intro s; simp [rxLoop]
  | succ n ih =>
    intro s
    rw [rxLoop_succ]
    split_ifs
    · simp
    · exact ih _
    · simp
    · simp
    · exact ih _

/-! ## Lemmas on the phases of `send_req` -/

theorem send_req_tx_fail (J : Json δ) (W : Platform σ) (rui : Bool) (budget : Nat)
    (self : RAK_BLUES δ) (d : σ) (response : Option (List Nat)) (resp_len : Nat)
    (h : (txPhase J W rui self d).1 = some false) :
    send_req J W rui budget self d response resp_len =
      { ret := some false, note_json := self.note_json, in_out_buff := requestBuffer J self,
        response := response, dev := (txPhase J W rui self d).2.dev,
        trace := (txPhase J W rui self d).2.trace, exit := none, jsonbufLen := 0,
        receivedNewline := false, polls := [] } := by
  simp only [txPhase, requestText, requestBuffer] at h
  simp only [send_req, h]
  rfl

theorem send_req_rx (J : Json δ) (W : Platform σ) (rui : Bool) (budget : Nat)
    (self : RAK_BLUES δ) (d : σ) (response : Option (List Nat)) (resp_len : Nat)
    (h : (txPhase J W rui self d).1 = some true) :
    (send_req J W rui budget self d response resp_len).ret
      = retOf (rxPhase J W rui budget self d).1 ∧
    (send_req J W rui budget self d response resp_len).exit
      = some (rxPhase J W rui budget self d).1 ∧
    (send_req J W rui budget self d response resp_len).trace
      = (rxPhase J W rui budget self d).2.trace ∧
    (send_req J W rui budget self d response resp_len).polls
      = (rxPhase J W rui budget self d).2.polls ∧
    (send_req J W rui budget self d response resp_len).in_out_buff
      = (rxPhase J W rui budget self d).2.jsonbuf ∧
    (send_req J W rui budget self d response resp_len).jsonbufLen
      = (rxPhase J W rui budget self d).2.jsonbufLen ∧
    (send_req J W rui budget self d response resp_len).receivedNewline
      = (rxPhase J W rui budget self d).2.receivedNewline ∧
    (send_req J W rui budget self d response resp_len).dev
      = (rxPhase J W rui budget self d).2.dev := by
  simp only [txPhase, requestText, requestBuffer] at h
  simp only [send_req, rxPhase, txPhase, requestText, requestBuffer, h]
  generalize rxLoop W _ _ _ budget _ = r
  rcases r with ⟨e, st⟩
  cases e <;> simp [retOf]


theorem i2c_buff_pos (rui : Bool) : 0 < i2c_buff rui := by
  cases rui <;> decide

theorem i2c_buff_le (rui : Bool) : i2c_buff rui ≤ 32 := by
  cases rui <;> decide

/-- The transmit phase of `send_req` on a bus that accepts every chunk. -/
theorem txPhase_inv (J : Json δ) (W : Platform σ) (rui : Bool) (self : RAK_BLUES δ) (d : σ)
    (Inv : List Nat → σ → Prop)
    (hdelay : ∀ l s ms, Inv l s → Inv l (W.delay s ms))
    (hwrite : ∀ l s (payload : List Nat), Inv l s → 1 ≤ payload.length →
      payload.length ≤ i2c_buff rui →
      (W.endTransmission s (self._deviceAddress % 256)
        ((payload.length % 256) :: payload)).1 % 256 = 0 ∧
      Inv (l ++ payload) (W.endTransmission s (self._deviceAddress % 256)
        ((payload.length % 256) :: payload)).2)
    (hd : Inv [] d) :
    (txPhase J W rui self d).1 = some true ∧
    Inv (requestText J self ++ [10]) (txPhase J W rui self d).2.dev ∧
    rxCalls (txPhase J W rui self d).2.trace = [] ∧
    ∃ cs : List (List Nat),
      txCalls (txPhase J W rui self d).2.trace = cs.map (fun c => (c, true)) ∧
      cs.flatten = requestText J self ++ [10] ∧
      cs.length = ((requestText J self).length + 1 + i2c_buff rui - 1) / i2c_buff rui ∧
      (∀ c ∈ cs, 1 ≤ c.length ∧ c.length ≤ i2c_buff rui) ∧
      (∀ c ∈ cs.dropLast, c.length = i2c_buff rui) := by
  have h := txLoop_inv W (i2c_buff rui) self._deviceAddress (requestBuffer J self)
    (i2c_buff_pos rui) (le_trans (i2c_buff_le rui) (by decide)) Inv hdelay hwrite
    ((requestText J self).length + 1)
    { chunk := 0, jsonLen := (requestText J self).length + 1, sentInSegment := 0, dev := d,
      trace := [] } [] (le_refl _) hd
  simp only [read_requestBuffer, List.nil_append, txCalls, rxCalls] at h
  exact h

/-- C1: on a bus on which every transmit succeeds, for a document whose serialized text
plus the newline has length `L` with `1 ≤ L ≤ 4096`, the transmit calls of `send_req` all
succeed, each carries between 1 and `i2c_buff` bytes, all but the last carry exactly
`i2c_buff` bytes, there are `⌈L / i2c_buff⌉` of them, and their payloads, in order, make up
the serialized text followed by exactly one newline. -/
theorem send_req_transmit_chunking (J : Json δ) (W : Platform σ) (rui : Bool) (budget : Nat)
    (self : RAK_BLUES δ) (d : σ) (response : Option (List Nat)) (resp_len : Nat)
    (_hL : 1 ≤ (J.serializeJson self.note_json 4096).length + 1 ∧
      (J.serializeJson self.note_json 4096).length + 1 ≤ 4096)
    (hbus : ∀ s a bs, (W.endTransmission s a bs).1 % 256 = 0) :
    ∃ cs : List (List Nat),
      txCalls (send_req J W rui budget self d response resp_len).trace
        = cs.map (fun c => (c, true)) ∧
      cs.flatten = J.serializeJson self.note_json 4096 ++ [10] ∧
      cs.length = ((J.serializeJson self.note_json 4096).length + 1 + i2c_buff rui - 1)
        / i2c_buff rui ∧
      (∀ c ∈ cs, 1 ≤ c.length ∧ c.length ≤ i2c_buff rui) ∧
      (∀ c ∈ cs.dropLast, c.length = i2c_buff rui) := by
  obtain ⟨h1, _, _, cs, c1, c2⟩ := txPhase_inv J W rui self d (fun _ _ => True)
    (fun _ _ _ _ => trivial) (fun _ s p _ _ _ => ⟨hbus s _ _, trivial⟩) trivial
  refine ⟨cs, ?_, c2⟩
  rw [(send_req_rx J W rui budget self d response resp_len h1).2.2.1]
  simp only [rxPhase]
  rw [rxLoop_txCalls]
  exact c1

/-- C1 at a concrete input: the two-character document `{}` sent to an echoing card. -/
theorem send_req_transmit_chunking_witness :
    (1 ≤ (textJson.serializeJson [123, 125] 4096).length + 1 ∧
      (textJson.serializeJson [123, 125] 4096).length + 1 ≤ 4096) ∧
    (∀ (s : Echo) (a : Nat) (bs : List Nat),
      ((echoBus 253).endTransmission s a bs).1 % 256 = 0) ∧
    ∃ cs : List (List Nat),
      txCalls (send_req textJson (echoBus 253) false 10
          { _deviceAddress := 23, note_json := [123, 125], in_out_buff := fun _ => 0 }
          ⟨[], 0⟩ none 0).trace = cs.map (fun c => (c, true)) ∧
      cs.flatten = textJson.serializeJson [123, 125] 4096 ++ [10] ∧
      cs.length = ((textJson.serializeJson [123, 125] 4096).length + 1 + i2c_buff false - 1)
        / i2c_buff false ∧
      (∀ c ∈ cs, 1 ≤ c.length ∧ c.length ≤ i2c_buff false) ∧
      (∀ c ∈ cs.dropLast, c.length = i2c_buff false) := by
  have hbus : ∀ (s : Echo) (a : Nat) (bs : List Nat),
      ((echoBus 253).endTransmission s a bs).1 % 256 = 0 := by
    intro s a bs
    simp only [echoBus]
    split <;> rfl
  exact ⟨by decide, hbus,
    send_req_transmit_chunking textJson (echoBus 253) false 10
      { _deviceAddress := 23, note_json := [123, 125], in_out_buff := fun _ => 0 }
      ⟨[], 0⟩ none 0 (by decide) hbus⟩

/-! ## The scripted bus -/

/-- One poll on a scripted bus whose next response is a well-formed frame. -/
theorem scripted_poll (a : Nat) (s : RxState Script) (av : Nat) (p : List Nat)
    (rest : List (List Nat))
    (he : s.dev.errs = []) (hr : s.dev.reads = frame av p :: rest)
    (hp : p.length = s.chunkLen) (hav : av ≤ 253) (hc : s.chunkLen < 256) :
    (rxPoll scriptedBus a s).result = true ∧
    (rxPoll scriptedBus a s).mem
      = Mem.writeList s.jsonbuf s.jsonbufLen (p.map (fun b => b % 256)) ∧
    (rxPoll scriptedBus a s).available = av ∧
    (rxPoll scriptedBus a s).dev.errs = [] ∧
    (rxPoll scriptedBus a s).dev.reads = rest := by
  have h1 : (scriptedBus.endTransmission (scriptedBus.delay s.dev 6) (a % 256)
      [0, s.chunkLen % 256]).1 % 256 = 0 := by
    simp [scriptedBus, he]
  have hresp : (scriptedBus.requestFrom (scriptedBus.delay (scriptedBus.endTransmission
      (scriptedBus.delay s.dev 6) (a % 256) [0, s.chunkLen % 256]).2 2) a
      (s.chunkLen + 2)).1.map (fun b => b % 256)
        = av :: s.chunkLen :: p.map (fun b => b % 256) := by
    simp only [scriptedBus, hr, frame, List.map_cons, hp]
    rw [Nat.mod_eq_of_lt (by omega), Nat.mod_eq_of_lt hc]
  obtain ⟨r1, r2, r3, r4⟩ := blues_I2C_RX_ok scriptedBus (scriptedBus.delay s.dev 6) a
    s.jsonbuf s.jsonbufLen s.chunkLen (scriptedBus.indeterminate % 4294967296) av
    (p.map (fun b => b % 256)) h1 hresp (by simp [hp]) hav
  refine ⟨r1, r2, r3, ?_⟩
  simp only [rxPoll]
  rw [r4]
  apply rxCopy_dev scriptedBus s.jsonbufLen (fun d => d.errs = [] ∧ d.reads = rest)
  · intro d ms h
    exact h
  · simp [scriptedBus, hr, he]

/-- The transmit phase on a scripted bus without scripted errors: every chunk goes out and
the scripted responses are still to come. -/
theorem txPhase_scripted (J : Json δ) (rui : Bool) (self : RAK_BLUES δ) (d : Script)
    (he : d.errs = []) :
    (txPhase J scriptedBus rui self d).1 = some true ∧
    (txPhase J scriptedBus rui self d).2.dev.errs = [] ∧
    (txPhase J scriptedBus rui self d).2.dev.reads = d.reads ∧
    rxCalls (txPhase J scriptedBus rui self d).2.trace = [] := by
  obtain ⟨h1, h2, h3, _⟩ := txPhase_inv J scriptedBus rui self d
    (fun _ s => s.errs = [] ∧ s.reads = d.reads)
    (fun _ _ _ h => h)
    (fun _ s p h _ _ => by simp [scriptedBus, h.1, h.2])
    ⟨he, rfl⟩
  exact ⟨h1, h2.1, h2.2, h3⟩

/-! ## The echoing card -/

theorem map_mod_of_lt : ∀ (l : List Nat), (∀ b ∈ l, b < 256) →
    l.map (fun b => b % 256) = l := by
  intro l
  induction l with
  | nil => intro _; rfl
  | cons x xs ih =>
    intro h
    simp only [List.map_cons]
    rw [ih (fun b hb => h b (List.mem_cons_of_mem _ hb)),
      Nat.mod_eq_of_lt (h x (List.mem_cons_self _ _))]

/-- One poll on the echoing card: it gives back the next `chunkLen` stored bytes. -/
theorem echo_poll (cap a : Nat) (s : RxState Echo) (hcap : cap ≤ 253)
    (hc : s.chunkLen ≤ s.dev.pending.length) (hc2 : s.chunkLen < 256)
    (hb : ∀ b ∈ s.dev.pending, b < 256) :
    (rxPoll (echoBus cap) a s).result = true ∧
    (rxPoll (echoBus cap) a s).mem
      = Mem.writeList s.jsonbuf s.jsonbufLen (s.dev.pending.take s.chunkLen) ∧
    (rxPoll (echoBus cap) a s).available
      = min (s.dev.pending.drop s.chunkLen).length cap ∧
    (rxPoll (echoBus cap) a s).dev.pending = s.dev.pending.drop s.chunkLen := by
  have h1 : ((echoBus cap).endTransmission ((echoBus cap).delay s.dev 6) (a % 256)
      [0, s.chunkLen % 256]).1 % 256 = 0 := by
    simp [echoBus]
  have hav : min (s.dev.pending.drop s.chunkLen).length cap ≤ 253 :=
    le_trans (Nat.min_le_right _ _) hcap
  have hresp : ((echoBus cap).requestFrom ((echoBus cap).delay ((echoBus cap).endTransmission
      ((echoBus cap).delay s.dev 6) (a % 256) [0, s.chunkLen % 256]).2 2) a
      (s.chunkLen + 2)).1.map (fun b => b % 256)
        = min (s.dev.pending.drop s.chunkLen).length cap :: s.chunkLen ::
          s.dev.pending.take s.chunkLen := by
    simp only [echoBus, List.map_cons, Nat.add_sub_cancel]
    rw [Nat.mod_eq_of_lt (by omega), Nat.mod_eq_of_lt hc2,
      map_mod_of_lt _ (fun b h => hb b (List.mem_of_mem_take h))]
  obtain ⟨r1, r2, r3, r4⟩ := blues_I2C_RX_ok (echoBus cap) ((echoBus cap).delay s.dev 6) a
    s.jsonbuf s.jsonbufLen s.chunkLen ((echoBus cap).indeterminate % 4294967296)
    (min (s.dev.pending.drop s.chunkLen).length cap)
    (s.dev.pending.take s.chunkLen) h1 hresp
    (by rw [List.length_take]; exact Nat.min_eq_left hc) hav
  refine ⟨r1, r2, r3, ?_⟩
  simp only [rxPoll]
  rw [r4]
  apply rxCopy_dev (echoBus cap) s.jsonbufLen
    (fun d => d.pending = s.dev.pending.drop s.chunkLen)
  · intro d ms h
    exact h
  · simp [echoBus]

theorem Mem.read_succ_last (m : Mem) (k : Nat) :
    (Mem.read m 0 (k + 1)).getLast? = some (m k) := by
  rw [Mem.read_add]
  simp [Mem.read]

/-- The receive loop against the echoing card gives back everything the card stored. -/
theorem rxLoop_echo (cap B a t : Nat) (hcap1 : 1 ≤ cap) (hcap : cap ≤ 253) (hB : 0 < B)
    (hB2 : B ≤ 253) (full : List Nat) (hfull : full.getLast? = some 10) :
    ∀ (n : Nat) (s : RxState Echo),
      Mem.read s.jsonbuf 0 s.jsonbufLen ++ s.dev.pending = full →
      s.chunkLen ≤ s.dev.pending.length → s.chunkLen ≤ B →
      (∀ b ∈ s.dev.pending, b < 256) → s.dev.pending ≠ [] →
      s.dev.pending.length + (if s.chunkLen = 0 then 1 else 0) ≤ n →
      (rxLoop (echoBus cap) B a t n s).1 = RxExit.drained ∧
      (rxLoop (echoBus cap) B a t n s).2.jsonbufLen = full.length ∧
      Mem.read (rxLoop (echoBus cap) B a t n s).2.jsonbuf 0 full.length = full := by
  intro n
  induction n with
  | zero =>
    intro s _ _ _ _ hne hn
    have : s.dev.pending.length = 0 := by omega
    exact absurd (List.length_eq_zero.1 this) hne
  | succ n ih =>
    intro s hI hc hcB hb hne hn
    obtain ⟨r1, r2, r3, r4⟩ := echo_poll cap a s hcap hc (by omega) hb
    have hread : Mem.read (rxNext (echoBus cap) B a s).jsonbuf 0
        (rxNext (echoBus cap) B a s).jsonbufLen ++ (rxNext (echoBus cap) B a s).dev.pending
        = full := by
      simp only [rxNext, r2, r4]
      rw [Mem.read_add, Mem.read_congr _ s.jsonbuf s.jsonbufLen 0
        (fun i _ h => Mem.writeList_below _ _ _ _ (by omega))]
      have hl : (s.dev.pending.take s.chunkLen).length = s.chunkLen := by
        rw [List.length_take]; exact Nat.min_eq_left hc
      have := Mem.read_writeList (s.dev.pending.take s.chunkLen) s.jsonbuf s.jsonbufLen
      rw [hl] at this
      rw [Nat.zero_add, this, List.append_assoc, List.take_append_drop]
      exact hI
    have hchunk : (rxNext (echoBus cap) B a s).chunkLen
        = min (min (s.dev.pending.drop s.chunkLen).length cap) B := by
      simp only [rxNext, r3]
      rw [Nat.min_eq_left (show min (s.dev.pending.drop s.chunkLen).length cap ≤ 65535 by
        have := Nat.min_le_right (s.dev.pending.drop s.chunkLen).length cap
        omega)]
    have hpend : (rxNext (echoBus cap) B a s).dev.pending = s.dev.pending.drop s.chunkLen := by
      simp only [rxNext, r4]
    by_cases hrest : s.dev.pending.drop s.chunkLen = []
    · -- everything has been given back: the last byte received is the newline
      have hc0 : (rxNext (echoBus cap) B a s).chunkLen = 0 := by
        rw [hchunk, hrest]; simp
      have hcpos : 0 < s.chunkLen := by
        rcases Nat.eq_zero_or_pos s.chunkLen with h | h
        · rw [h, List.drop_zero] at hrest
          exact absurd hrest hne
        · exact h
      have hfl : Mem.read (rxNext (echoBus cap) B a s).jsonbuf 0
          (rxNext (echoBus cap) B a s).jsonbufLen = full := by
        rw [hpend, hrest, List.append_nil] at hread
        exact hread
      have hlen : (rxNext (echoBus cap) B a s).jsonbufLen = full.length := by
        have := congrArg List.length hfl
        rw [Mem.read_length] at this
        exact this
      have hjl : (rxNext (echoBus cap) B a s).jsonbufLen = s.jsonbufLen + s.chunkLen := rfl
      have hnl : (rxNext (echoBus cap) B a s).jsonbuf (s.jsonbufLen + s.chunkLen - 1) = 10 := by
        have h2 := Mem.read_succ_last (rxNext (echoBus cap) B a s).jsonbuf
          (s.jsonbufLen + s.chunkLen - 1)
        rw [show s.jsonbufLen + s.chunkLen - 1 + 1 = (rxNext (echoBus cap) B a s).jsonbufLen by
          rw [hjl]; omega, hfl, hfull] at h2
        exact (Option.some.inj h2).symm
      have hrn : (rxNext (echoBus cap) B a s).receivedNewline = true := by
        have hnl2 : (rxPoll (echoBus cap) a s).mem (s.jsonbufLen + s.chunkLen - 1) = 10 := hnl
        simp only [rxNext, hnl2]
        have : s.jsonbufLen + s.chunkLen > 0 := by omega
        simp [this]
      have hstep : rxLoop (echoBus cap) B a t (n + 1) s
          = (RxExit.drained, rxNext (echoBus cap) B a s) := by
        rw [rxLoop_succ, if_neg (by simp [r1]), if_neg (by omega), if_pos hrn]
      rw [hstep]
      refine ⟨rfl, hlen, ?_⟩
      rw [← hlen]
      exact hfl
    · have hrl : 0 < (s.dev.pending.drop s.chunkLen).length :=
        List.length_pos.2 hrest
      have hpos : (rxNext (echoBus cap) B a s).chunkLen > 0 := by
        rw [hchunk]
        exact Nat.lt_min.2 ⟨Nat.lt_min.2 ⟨hrl, hcap1⟩, hB⟩
      have hstep : rxLoop (echoBus cap) B a t (n + 1) s
          = rxLoop (echoBus cap) B a t n (rxNext (echoBus cap) B a s) := by
        rw [rxLoop_succ, if_neg (by simp [r1]), if_pos hpos]
      rw [hstep]
      apply ih (rxNext (echoBus cap) B a s) hread
      · rw [hchunk, hpend]
        exact le_trans (Nat.min_le_left _ _) (Nat.min_le_left _ _)
      · rw [hchunk]
        exact Nat.min_le_right _ _
      · rw [hpend]
        intro b hbm
        exact hb b (List.mem_of_mem_drop hbm)
      · rw [hpend]
        exact hrest
      · rw [hpend, if_neg (by omega), List.length_drop]
        by_cases h0 : s.chunkLen = 0
        · rw [if_pos h0] at hn
          omega
        · rw [if_neg h0] at hn
          omega
/-- The transmit phase against the echoing card: every chunk goes out and the card has
stored the serialized text and the newline. -/
theorem txPhase_echo (cap : Nat) (J : Json δ) (rui : Bool) (self : RAK_BLUES δ) (d : Echo)
    (hd : d.pending = []) :
    (txPhase J (echoBus cap) rui self d).1 = some true ∧
    (txPhase J (echoBus cap) rui self d).2.dev.pending = requestText J self ++ [10] := by
  obtain ⟨h1, h2, _⟩ := txPhase_inv J (echoBus cap) rui self d
    (fun l s => s.pending = l)
    (fun _ _ _ h => h)
    (fun l s p h h1 h2 => by
      have hB := i2c_buff_le rui
      obtain ⟨k, hk⟩ : ∃ k, p.length % 256 = k + 1 :=
        ⟨p.length - 1, by rw [Nat.mod_eq_of_lt (by omega)]; omega⟩
      rw [hk]
      simp [echoBus, h])
    hd
  exact ⟨h1, h2⟩

/-- C3, as amended: for any request document whose serialized text consists of bytes and,
with the newline, fits the 4096-byte buffer, and either chunk limit, `send_req` against a
card that stores the transmitted bytes and gives them back byte for byte, reporting as
available-count the number of bytes still stored capped at 253, returns true and leaves in
the transaction buffer the serialized text followed by the newline (for every poll budget
above the length of that text plus newline). -/
theorem send_req_echo_round_trip (J : Json δ) (rui : Bool) (self : RAK_BLUES δ)
    (clock budget : Nat) (response : Option (List Nat)) (resp_len : Nat)
    (_hL : (J.serializeJson self.note_json 4096).length + 1 ≤ 4096)
    (hbytes : ∀ b ∈ J.serializeJson self.note_json 4096, b < 256)
    (hbudget : (J.serializeJson self.note_json 4096).length + 1 < budget) :
    (send_req J (echoBus 253) rui budget self (Echo.mk [] clock) response resp_len).ret
      = some true ∧
    (send_req J (echoBus 253) rui budget self (Echo.mk [] clock) response resp_len).jsonbufLen
      = (J.serializeJson self.note_json 4096).length + 1 ∧
    Mem.read (send_req J (echoBus 253) rui budget self (Echo.mk [] clock) response
      resp_len).in_out_buff 0 ((J.serializeJson self.note_json 4096).length + 1)
      = J.serializeJson self.note_json 4096 ++ [10] := by
  have hd : (Echo.mk [] clock).pending = [] := rfl
  generalize Echo.mk [] clock = d at hd ⊢
  obtain ⟨t1, t2⟩ := txPhase_echo 253 J rui self d hd
  obtain ⟨s1, _, _, _, s5, s6, _⟩ := send_req_rx J (echoBus 253) rui budget self d response
    resp_len t1
  have hfl : (requestText J self ++ [10]).length
      = (J.serializeJson self.note_json 4096).length + 1 := by
    simp [requestText]
  obtain ⟨r1, r2, r3⟩ := rxLoop_echo 253 (i2c_buff rui) self._deviceAddress
    ((echoBus 253).millis (txPhase J (echoBus 253) rui self d).2.dev % 4294967296)
    (by decide) (le_refl _) (i2c_buff_pos rui) (le_trans (i2c_buff_le rui) (by decide))
    (requestText J self ++ [10]) (by simp) budget
    { receivedNewline := false, jsonbufLen := 0, chunkLen := 0,
      jsonbuf := memset (requestBuffer J self) 0 JSON_BUFF_SIZE,
      dev := (txPhase J (echoBus 253) rui self d).2.dev,
      trace := (txPhase J (echoBus 253) rui self d).2.trace, polls := [] }
    (by simp [Mem.read, t2]) (Nat.zero_le _) (Nat.zero_le _)
    (by
      intro b hb
      simp only [t2, requestText, List.mem_append, List.mem_singleton] at hb
      rcases hb with h | h
      · exact hbytes b h
      · omega)
    (by simp [t2])
    (by simp only [t2, hfl]; simp; omega)
  rw [hfl] at r2 r3
  refine ⟨?_, ?_, ?_⟩
  · rw [s1]
    simp only [rxPhase]
    rw [r1]
    rfl
  · rw [s6]
    exact r2
  · rw [s5]
    exact r3

/-- C3 at a concrete input: the document `{}` on the 32-byte build. -/
theorem send_req_echo_round_trip_witness :
    (textJson.serializeJson [123, 125] 4096).length + 1 ≤ 4096 ∧
    (∀ b ∈ textJson.serializeJson [123, 125] 4096, b < 256) ∧
    (textJson.serializeJson [123, 125] 4096).length + 1 < 10 ∧
    (send_req textJson (echoBus 253) false 10
      { _deviceAddress := 23, note_json := [123, 125], in_out_buff := fun _ => 0 }
      (Echo.mk [] 0) none 0).ret = some true ∧
    Mem.read (send_req textJson (echoBus 253) false 10
      { _deviceAddress := 23, note_json := [123, 125], in_out_buff := fun _ => 0 }
      (Echo.mk [] 0) none 0).in_out_buff 0 3 = [123, 125, 10] :=
  ⟨by decide, by decide, by decide,
    (send_req_echo_round_trip textJson false
      { _deviceAddress := 23, note_json := [123, 125], in_out_buff := fun _ => 0 }
      0 10 none 0 (by decide) (by decide) (by decide)).1,
    (send_req_echo_round_trip textJson false
      { _deviceAddress := 23, note_json := [123, 125], in_out_buff := fun _ => 0 }
      0 10 none 0 (by decide) (by decide) (by decide)).2.2⟩

set_option maxRecDepth 100000 in
/-- C3 fails as stated: a document of 253 characters (254 bytes with the newline) sent to a
card that reports the 254 bytes it still stores as the available-count; the first receive
is rejected because 254 exceeds 253, and `send_req` returns false. -/
theorem send_req_echo_uncapped_fails :
    (textJson.serializeJson (List.replicate 253 65) 4096).length + 1 = 254 ∧
    (send_req textJson (echoBus 255) false 300
      { _deviceAddress := 23, note_json := List.replicate 253 65, in_out_buff := fun _ => 0 }
      (Echo.mk [] 0) none 0).ret = some false ∧
    (send_req textJson (echoBus 255) false 300
      { _deviceAddress := 23, note_json := List.replicate 253 65, in_out_buff := fun _ => 0 }
      (Echo.mk [] 0) none 0).polls = [] ∧
    Event.read 23 2 [254, 0] ∈ (send_req textJson (echoBus 255) false 300
      { _deviceAddress := 23, note_json := List.replicate 253 65, in_out_buff := fun _ => 0 }
      (Echo.mk [] 0) none 0).trace := by
  decide
/-! ## Cards that never finish -/

/-- The receive loop on a bus where every write transaction succeeds and every read
delivers a well-formed response reporting data available: no poll leaves the loop. -/
theorem rxLoop_busy (W : Platform σ) (B a t : Nat) (hB : 0 < B)
    (hwrite : ∀ d a bs, (W.endTransmission d a bs).1 % 256 = 0)
    (hread : ∀ d a r, r ≤ B → ∃ av payload,
      (W.requestFrom d a (r + 2)).1.map (fun b => b % 256) = av :: r :: payload ∧
      payload.length = r ∧ 0 < av ∧ av ≤ 253) :
    ∀ (n : Nat) (s : RxState σ), s.chunkLen ≤ B →
      (rxLoop W B a t n s).1 = RxExit.polling ∧
      (rxLoop W B a t n s).2.polls.length = s.polls.length + n := by
  intro n
  induction n with
  | zero => intro s _; exact ⟨rfl, rfl⟩
  | succ n ih =>
    intro s hc
    obtain ⟨av, payload, h1, h2, h3, h4⟩ := hread
      (W.delay (W.endTransmission (W.delay s.dev 6) (a % 256) [0, s.chunkLen % 256]).2 2)
      a s.chunkLen hc
    obtain ⟨r1, _, r3, _⟩ := blues_I2C_RX_ok W (W.delay s.dev 6) a s.jsonbuf s.jsonbufLen
      s.chunkLen (W.indeterminate % 4294967296) av payload (hwrite _ _ _) h1 h2 h4
    have hchunk : (rxNext W B a s).chunkLen = min av B := by
      simp only [rxNext, rxPoll, r3]
      rw [Nat.min_eq_left (show av ≤ 65535 by omega)]
    have hpos : (rxNext W B a s).chunkLen > 0 := by
      rw [hchunk]
      exact Nat.lt_min.2 ⟨h3, hB⟩
    have hstep : rxLoop W B a t (n + 1) s = rxLoop W B a t n (rxNext W B a s) := by
      rw [rxLoop_succ, if_neg (by simp [rxPoll, r1]), if_pos hpos]
    rw [hstep]
    obtain ⟨i1, i2⟩ := ih (rxNext W B a s) (by rw [hchunk]; exact Nat.min_le_right _ _)
    refine ⟨i1, ?_⟩
    rw [i2]
    simp only [rxNext, List.length_append, List.length_singleton]
    omega

/-- Against a card that always reports data available `send_req` is still polling after any
number of polls. -/
theorem send_req_busy (J : Json δ) (W : Platform σ) (rui : Bool)
    (self : RAK_BLUES δ) (d : σ) (response : Option (List Nat)) (resp_len : Nat)
    (hwrite : ∀ d a bs, (W.endTransmission d a bs).1 % 256 = 0)
    (hread : ∀ d a r, r ≤ i2c_buff rui → ∃ av payload,
      (W.requestFrom d a (r + 2)).1.map (fun b => b % 256) = av :: r :: payload ∧
      payload.length = r ∧ 0 < av ∧ av ≤ 253) :
    ∀ budget : Nat,
      (send_req J W rui budget self d response resp_len).ret = none ∧
      (send_req J W rui budget self d response resp_len).polls.length = budget := by
  intro budget
  obtain ⟨t1, _⟩ := txPhase_inv J W rui self d (fun _ _ => True)
    (fun _ _ _ _ => trivial) (fun _ s p _ _ _ => ⟨hwrite s _ _, trivial⟩) trivial
  obtain ⟨s1, _, _, s4, _⟩ := send_req_rx J W rui budget self d response resp_len t1
  obtain ⟨r1, r2⟩ := rxLoop_busy W (i2c_buff rui) self._deviceAddress
    (W.millis (txPhase J W rui self d).2.dev % 4294967296)
    (i2c_buff_pos rui) hwrite hread budget
    { receivedNewline := false, jsonbufLen := 0, chunkLen := 0,
      jsonbuf := memset (requestBuffer J self) 0 JSON_BUFF_SIZE,
      dev := (txPhase J W rui self d).2.dev,
      trace := (txPhase J W rui self d).2.trace, polls := [] } (Nat.zero_le _)
  refine ⟨?_, ?_⟩
  · rw [s1]
    simp only [rxPhase]
    rw [r1]
    rfl
  · rw [s4]
    simp only [rxPhase]
    rw [r2]
    simp

/-- C5, as amended: on a bus where every write transaction succeeds and every receive
succeeds with an available-count above 0, the timeout does not end `send_req`: as long as
the polls made stay within the 4096-byte buffer, `send_req` has not returned, every poll
having gone on to the next receive call without the elapsed time being consulted. -/
theorem send_req_busy_card_never_returns (J : Json δ) (W : Platform σ) (rui : Bool)
    (self : RAK_BLUES δ) (d : σ) (response : Option (List Nat)) (resp_len : Nat)
    (hwrite : ∀ d a bs, (W.endTransmission d a bs).1 % 256 = 0)
    (hread : ∀ d a r, r ≤ i2c_buff rui → ∃ av payload,
      (W.requestFrom d a (r + 2)).1.map (fun b => b % 256) = av :: r :: payload ∧
      payload.length = r ∧ 0 < av ∧ av ≤ 253)
    (budget : Nat)
    (_hcap : ∀ p ∈ (send_req J W rui budget self d response resp_len).polls,
      p.buffer + p.requested ≤ 4096) :
    (send_req J W rui budget self d response resp_len).ret = none ∧
    (send_req J W rui budget self d response resp_len).polls.length = budget :=
  send_req_busy J W rui self d response resp_len hwrite hread budget

theorem steadyBus_write (av f : Nat) :
    ∀ (d a : Nat) (bs : List Nat), ((steadyBus av f).endTransmission d a bs).1 % 256 = 0 :=
  fun _ _ _ => rfl

theorem steadyBus_read (av f B : Nat) (h0 : 0 < av) (h1 : av ≤ 253) (hB : B ≤ 255) :
    ∀ (d a r : Nat), r ≤ B → ∃ v payload,
      ((steadyBus av f).requestFrom d a (r + 2)).1.map (fun b => b % 256) = v :: r :: payload ∧
      payload.length = r ∧ 0 < v ∧ v ≤ 253 := by
  intro d a r hr
  refine ⟨av, (List.replicate r f).map (fun b => b % 256), ?_, by simp, h0, h1⟩
  simp only [steadyBus, frame, Nat.add_sub_cancel, List.map_cons, List.length_replicate]
  rw [Nat.mod_eq_of_lt (by omega), Nat.mod_eq_of_lt (by omega)]

/-- C5 at a concrete input: ten polls of a card that always reports 5 bytes available. -/
theorem send_req_busy_card_never_returns_witness :
    (∀ (d a : Nat) (bs : List Nat), ((steadyBus 5 65).endTransmission d a bs).1 % 256 = 0) ∧
    (∀ p ∈ (send_req textJson (steadyBus 5 65) false 10
      { _deviceAddress := 23, note_json := [123, 125], in_out_buff := fun _ => 0 }
      0 none 0).polls, p.buffer + p.requested ≤ 4096) ∧
    (send_req textJson (steadyBus 5 65) false 10
      { _deviceAddress := 23, note_json := [123, 125], in_out_buff := fun _ => 0 }
      0 none 0).ret = none :=
  ⟨steadyBus_write 5 65, by decide,
    (send_req_busy_card_never_returns textJson (steadyBus 5 65) false
      { _deviceAddress := 23, note_json := [123, 125], in_out_buff := fun _ => 0 }
      0 none 0 (steadyBus_write 5 65)
      (steadyBus_read 5 65 (i2c_buff false) (by decide) (by decide) (by decide)) 10
      (by decide)).1⟩

theorem rxCopy_steady (av f b : Nat) : ∀ (n i : Nat) (rest : List Nat) (m : Mem) (d : Nat),
    (rxCopy (steadyBus av f) b n i rest m d).2 = d + 6 * n := by
  intro n
  induction n with
  | zero => intro i rest m d; rfl
  | succ n ih =>
    intro i rest m d
    simp only [rxCopy]
    rw [ih]
    simp only [steadyBus]
    omega

/-- One poll on a steady card: it succeeds, and takes 8 ms and 6 ms per byte. -/
theorem steady_poll (av f a : Nat) (s : RxState Nat) (h1 : av ≤ 253) (hc : s.chunkLen < 256) :
    (rxPoll (steadyBus av f) a s).result = true ∧
    (rxPoll (steadyBus av f) a s).available = av ∧
    (rxPoll (steadyBus av f) a s).dev = s.dev + 8 + 6 * s.chunkLen := by
  have hresp : ((steadyBus av f).requestFrom ((steadyBus av f).delay
      ((steadyBus av f).endTransmission ((steadyBus av f).delay s.dev 6) (a % 256)
        [0, s.chunkLen % 256]).2 2) a (s.chunkLen + 2)).1.map (fun b => b % 256)
      = av :: s.chunkLen :: (List.replicate s.chunkLen f).map (fun b => b % 256) := by
    simp only [steadyBus, frame, Nat.add_sub_cancel, List.map_cons, List.length_replicate]
    rw [Nat.mod_eq_of_lt (by omega), Nat.mod_eq_of_lt hc]
  obtain ⟨r1, _, r3, r4⟩ := blues_I2C_RX_ok (steadyBus av f) ((steadyBus av f).delay s.dev 6)
    a s.jsonbuf s.jsonbufLen s.chunkLen ((steadyBus av f).indeterminate % 4294967296) av
    ((List.replicate s.chunkLen f).map (fun b => b % 256)) rfl hresp (by simp) h1
  refine ⟨r1, r3, ?_⟩
  simp only [rxPoll]
  rw [r4, rxCopy_steady]
  rfl

/-- The receive loop against a card that always reports `av > 0` bytes available, once the
chunk length is `min av B`: no poll leaves the loop, every poll receives `min av B` bytes
and takes `8 + 6 * min av B` ms. -/
theorem rxLoop_steady (av f B a t : Nat) (h0 : 0 < av) (h1 : av ≤ 253) (hB : 0 < B)
    (hB2 : B ≤ 255) : ∀ (n : Nat) (s : RxState Nat), s.chunkLen = min av B →
      (rxLoop (steadyBus av f) B a t n s).1 = RxExit.polling ∧
      (rxLoop (steadyBus av f) B a t n s).2.jsonbufLen = s.jsonbufLen + min av B * n ∧
      (rxLoop (steadyBus av f) B a t n s).2.dev = s.dev + (8 + 6 * min av B) * n ∧
      (∀ p ∈ (rxLoop (steadyBus av f) B a t n s).2.polls,
        p ∈ s.polls ∨ p.buffer + p.requested ≤ s.jsonbufLen + min av B * n) := by
  intro n
  induction n with
  | zero =>
    intro s _
    exact ⟨rfl, rfl, rfl, fun p hp => Or.inl hp⟩
  | succ n ih =>
    intro s hc
    have hcB : s.chunkLen ≤ B := by rw [hc]; exact Nat.min_le_right _ _
    obtain ⟨r1, r3, r4⟩ := steady_poll av f a s h1 (by omega)
    have hchunk : (rxNext (steadyBus av f) B a s).chunkLen = min av B := by
      simp only [rxNext, r3]
      rw [Nat.min_eq_left (show av ≤ 65535 by omega)]
    have hpos : (rxNext (steadyBus av f) B a s).chunkLen > 0 := by
      rw [hchunk]
      exact Nat.lt_min.2 ⟨h0, hB⟩
    have hstep : rxLoop (steadyBus av f) B a t (n + 1) s
        = rxLoop (steadyBus av f) B a t n (rxNext (steadyBus av f) B a s) := by
      rw [rxLoop_succ, if_neg (by simp [r1]), if_pos hpos]
    rw [hstep]
    obtain ⟨i1, i2, i3, i4⟩ := ih (rxNext (steadyBus av f) B a s) hchunk
    have hj : (rxNext (steadyBus av f) B a s).jsonbufLen = s.jsonbufLen + min av B := by
      simp only [rxNext, hc]
    have hd : (rxNext (steadyBus av f) B a s).dev = s.dev + 8 + 6 * min av B := by
      simp only [rxNext, r4, hc]
    refine ⟨i1, ?_, ?_, ?_⟩
    · rw [i2, hj, Nat.mul_succ]
      omega
    · rw [i3, hd, Nat.mul_succ]
      omega
    · intro p hp
      rcases i4 p hp with h | h
      · simp only [rxNext, List.mem_append, List.mem_singleton] at h
        rcases h with h | h
        · exact Or.inl h
        · right
          rw [h, hc, Nat.mul_succ]
          simp only []
          omega
      · right
        rw [hj] at h
        rw [Nat.mul_succ]
        omega

/-- The whole of `send_req` against a card that always reports `av > 0` bytes available,
after `n + 1` polls: still polling, `min av i2c_buff * n` bytes reassembled, and the clock
at `8 + (8 + 6 * min av i2c_buff) * n` ms after the start of the receive phase. -/
theorem send_req_steady (av f : Nat) (h0 : 0 < av) (h1 : av ≤ 253) (J : Json δ)
    (rui : Bool) (self : RAK_BLUES δ) (d : Nat) (response : Option (List Nat))
    (resp_len n : Nat) :
    (send_req J (steadyBus av f) rui (n + 1) self d response resp_len).ret = none ∧
    (send_req J (steadyBus av f) rui (n + 1) self d response resp_len).jsonbufLen
      = min av (i2c_buff rui) * n ∧
    (send_req J (steadyBus av f) rui (n + 1) self d response resp_len).dev
      = (txPhase J (steadyBus av f) rui self d).2.dev + 8
        + (8 + 6 * min av (i2c_buff rui)) * n ∧
    (∀ p ∈ (send_req J (steadyBus av f) rui (n + 1) self d response resp_len).polls,
      p.buffer + p.requested ≤ min av (i2c_buff rui) * n) := by
  obtain ⟨t1, _⟩ := txPhase_inv J (steadyBus av f) rui self d (fun _ _ => True)
    (fun _ _ _ _ => trivial) (fun _ s p _ _ _ => ⟨steadyBus_write av f s _ _, trivial⟩) trivial
  obtain ⟨s1, _, _, s4, _, s6, _, s8⟩ := send_req_rx J (steadyBus av f) rui (n + 1) self d
    response resp_len t1
  have hB := i2c_buff_pos rui
  have hB2 : i2c_buff rui ≤ 255 := le_trans (i2c_buff_le rui) (by decide)
  obtain ⟨r1, r3, r4⟩ := steady_poll av f self._deviceAddress
    { receivedNewline := false, jsonbufLen := 0, chunkLen := 0,
      jsonbuf := memset (requestBuffer J self) 0 JSON_BUFF_SIZE,
      dev := (txPhase J (steadyBus av f) rui self d).2.dev,
      trace := (txPhase J (steadyBus av f) rui self d).2.trace, polls := [] } h1
    (Nat.zero_lt_succ 255)
  have hchunk : (rxNext (steadyBus av f) (i2c_buff rui) self._deviceAddress
      { receivedNewline := false, jsonbufLen := 0, chunkLen := 0,
        jsonbuf := memset (requestBuffer J self) 0 JSON_BUFF_SIZE,
        dev := (txPhase J (steadyBus av f) rui self d).2.dev,
        trace := (txPhase J (steadyBus av f) rui self d).2.trace, polls := [] }).chunkLen
      = min av (i2c_buff rui) := by
    simp only [rxNext, r3]
    rw [Nat.min_eq_left (show av ≤ 65535 by omega)]
  have hstep : rxPhase J (steadyBus av f) rui (n + 1) self d
      = rxLoop (steadyBus av f) (i2c_buff rui) self._deviceAddress
        ((steadyBus av f).millis (txPhase J (steadyBus av f) rui self d).2.dev % 4294967296) n
        (rxNext (steadyBus av f) (i2c_buff rui) self._deviceAddress
          { receivedNewline := false, jsonbufLen := 0, chunkLen := 0,
            jsonbuf := memset (requestBuffer J self) 0 JSON_BUFF_SIZE,
            dev := (txPhase J (steadyBus av f) rui self d).2.dev,
            trace := (txPhase J (steadyBus av f) rui self d).2.trace, polls := [] }) := by
    simp only [rxPhase]
    rw [rxLoop_succ, if_neg (by simp [r1]),
      if_pos (by rw [hchunk]; exact Nat.lt_min.2 ⟨h0, hB⟩)]
  obtain ⟨i1, i2, i3, i4⟩ := rxLoop_steady av f (i2c_buff rui) self._deviceAddress
    ((steadyBus av f).millis (txPhase J (steadyBus av f) rui self d).2.dev % 4294967296)
    h0 h1 hB hB2 n _ hchunk
  rw [s1, s6, s8, s4, hstep]
  refine ⟨by rw [i1]; rfl, ?_, ?_, ?_⟩
  · rw [i2]
    simp [rxNext]
  · rw [i3]
    simp only [rxNext, r4]
  · intro p hp
    rcases i4 p hp with h | h
    · simp only [rxNext, List.nil_append, List.mem_singleton] at h
      rw [h]
      simp
    · simpa [rxNext] using h

/-- On a card that never reports anything available and never delivers a newline, every
poll ends in the 50 ms wait and the next poll; the clock advances by 58 ms per poll. -/
theorem rxLoop_idle (f B a t : Nat) : ∀ (n : Nat) (s : RxState Nat),
    s.chunkLen = 0 → s.receivedNewline = false → s.jsonbufLen = 0 →
      (rxLoop (steadyBus 0 f) B a t n s).1 = RxExit.polling ∧
      (rxLoop (steadyBus 0 f) B a t n s).2.dev = s.dev + 58 * n ∧
      (rxLoop (steadyBus 0 f) B a t n s).2.jsonbufLen = 0 ∧
      (rxLoop (steadyBus 0 f) B a t n s).2.receivedNewline = false ∧
      (rxLoop (steadyBus 0 f) B a t n s).2.polls.length = s.polls.length + n := by
  intro n
  induction n with
  | zero => intro s _ h2 h3; exact ⟨rfl, rfl, h3, h2, rfl⟩
  | succ n ih =>
    intro s hc hn hj
    obtain ⟨r1, r3, r5⟩ := steady_poll 0 f a s (by decide) (by omega)
    have hchunk : (rxNext (steadyBus 0 f) B a s).chunkLen = 0 := by
      simp [rxNext, r3]
    have hrn : (rxNext (steadyBus 0 f) B a s).receivedNewline = false := by
      simp [rxNext, hn, hc, hj]
    have hlen : (rxNext (steadyBus 0 f) B a s).jsonbufLen = 0 := by
      simp [rxNext, hc, hj]
    have hstep : rxLoop (steadyBus 0 f) B a t (n + 1) s
        = rxLoop (steadyBus 0 f) B a t n
          { (rxNext (steadyBus 0 f) B a s) with
            dev := (steadyBus 0 f).delay (rxNext (steadyBus 0 f) B a s).dev 50 } := by
      rw [rxLoop_succ, if_neg (by simp [r1]), if_neg (by omega), if_neg (by simp [hrn]),
        if_neg (by omega)]
    rw [hstep]
    obtain ⟨i1, i2, i3, i4, i5⟩ := ih
      { (rxNext (steadyBus 0 f) B a s) with
        dev := (steadyBus 0 f).delay (rxNext (steadyBus 0 f) B a s).dev 50 } hchunk hrn hlen
    refine ⟨i1, ?_, i3, i4, ?_⟩
    · rw [i2]
      have hd : (rxNext (steadyBus 0 f) B a s).dev = s.dev + 8 := by
        simp only [rxNext, r5, hc]
      simp only [steadyBus] at hd ⊢
      rw [hd]
      omega
    · rw [i5]
      simp only [rxNext, List.length_append, List.length_singleton]
      omega

/-- C4 fails on the code: against a card that reports available-count 0 on every poll and
never delivers a newline, `send_req` has not returned after any number of polls, while the
clock (26 ms when the receive phase starts) advances by 58 ms per poll, the reassembled
length stays 0 and no newline is seen; after 518 polls more than 30 s have elapsed. -/
theorem send_req_idle_card_never_times_out : ∀ budget : Nat,
    (send_req textJson (steadyBus 0 65) false budget
      { _deviceAddress := 23, note_json := [123, 125], in_out_buff := fun _ => 0 }
      0 none 0).ret = none ∧
    (send_req textJson (steadyBus 0 65) false budget
      { _deviceAddress := 23, note_json := [123, 125], in_out_buff := fun _ => 0 }
      0 none 0).dev = 26 + 58 * budget ∧
    (send_req textJson (steadyBus 0 65) false budget
      { _deviceAddress := 23, note_json := [123, 125], in_out_buff := fun _ => 0 }
      0 none 0).jsonbufLen = 0 ∧
    (send_req textJson (steadyBus 0 65) false budget
      { _deviceAddress := 23, note_json := [123, 125], in_out_buff := fun _ => 0 }
      0 none 0).receivedNewline = false ∧
    (send_req textJson (steadyBus 0 65) false budget
      { _deviceAddress := 23, note_json := [123, 125], in_out_buff := fun _ => 0 }
      0 none 0).polls.length = budget := by
  intro budget
  have t1 : (txPhase textJson (steadyBus 0 65) false
      { _deviceAddress := 23, note_json := [123, 125], in_out_buff := fun _ => 0 } 0).1
      = some true := by decide
  have t2 : (txPhase textJson (steadyBus 0 65) false
      { _deviceAddress := 23, note_json := [123, 125], in_out_buff := fun _ => 0 } 0).2.dev
      = 26 := by decide
  obtain ⟨s1, _, _, s4, _, s6, s7, s8⟩ := send_req_rx textJson (steadyBus 0 65) false budget
    { _deviceAddress := 23, note_json := [123, 125], in_out_buff := fun _ => 0 } 0 none 0 t1
  obtain ⟨r1, r2, r3, r4, r5⟩ := rxLoop_idle 65 (i2c_buff false) 23
    ((steadyBus 0 65).millis (txPhase textJson (steadyBus 0 65) false
      { _deviceAddress := 23, note_json := [123, 125], in_out_buff := fun _ => 0 } 0).2.dev
      % 4294967296) budget
    { receivedNewline := false, jsonbufLen := 0, chunkLen := 0,
      jsonbuf := memset (requestBuffer textJson
        { _deviceAddress := 23, note_json := [123, 125], in_out_buff := fun _ => 0 })
        0 JSON_BUFF_SIZE,
      dev := (txPhase textJson (steadyBus 0 65) false
        { _deviceAddress := 23, note_json := [123, 125], in_out_buff := fun _ => 0 } 0).2.dev,
      trace := (txPhase textJson (steadyBus 0 65) false
        { _deviceAddress := 23, note_json := [123, 125], in_out_buff := fun _ => 0 }
        0).2.trace, polls := [] } rfl rfl rfl
  rw [t2] at r2
  refine ⟨?_, ?_, ?_, ?_, ?_⟩
  · rw [s1]; simp only [rxPhase]; rw [r1]; rfl
  · rw [s8]; exact r2
  · rw [s6]; exact r3
  · rw [s7]; exact r4
  · rw [s4]; simp only [rxPhase]; rw [r5]; simp
/-- C5 fails as stated: against a card that always reports 5 bytes available (32-byte
build, receive phase starting at 26 ms), after 800 polls `send_req` is still polling with
3995 bytes reassembled, every receive having stayed within the 4096-byte buffer, although
the clock stands at 30396 ms, more than 30 s after the receive phase started; and at no
poll budget has it returned false. -/
theorem send_req_busy_card_no_timeout :
    (txPhase textJson (steadyBus 5 65) false
      { _deviceAddress := 23, note_json := [123, 125], in_out_buff := fun _ => 0 } 0).2.dev
      = 26 ∧
    (send_req textJson (steadyBus 5 65) false 800
      { _deviceAddress := 23, note_json := [123, 125], in_out_buff := fun _ => 0 }
      0 none 0).ret = none ∧
    (send_req textJson (steadyBus 5 65) false 800
      { _deviceAddress := 23, note_json := [123, 125], in_out_buff := fun _ => 0 }
      0 none 0).jsonbufLen = 3995 ∧
    (send_req textJson (steadyBus 5 65) false 800
      { _deviceAddress := 23, note_json := [123, 125], in_out_buff := fun _ => 0 }
      0 none 0).dev = 30396 ∧
    (∀ p ∈ (send_req textJson (steadyBus 5 65) false 800
      { _deviceAddress := 23, note_json := [123, 125], in_out_buff := fun _ => 0 }
      0 none 0).polls, p.buffer + p.requested ≤ 4096) ∧
    (¬ ∃ budget : Nat, (send_req textJson (steadyBus 5 65) false budget
      { _deviceAddress := 23, note_json := [123, 125], in_out_buff := fun _ => 0 }
      0 none 0).ret = some false) := by
  have hall := send_req_busy textJson (steadyBus 5 65) false
    { _deviceAddress := 23, note_json := [123, 125], in_out_buff := fun _ => 0 }
    0 none 0 (steadyBus_write 5 65)
    (steadyBus_read 5 65 (i2c_buff false) (by decide) (by decide) (by decide))
  have t2 : (txPhase textJson (steadyBus 5 65) false
      { _deviceAddress := 23, note_json := [123, 125], in_out_buff := fun _ => 0 } 0).2.dev
      = 26 := by decide
  obtain ⟨q1, q2, q3, q4⟩ := send_req_steady 5 65 (by decide) (by decide) textJson false
    { _deviceAddress := 23, note_json := [123, 125], in_out_buff := fun _ => 0 } 0 none 0 799
  have hc : min 5 (i2c_buff false) = 5 := by decide
  rw [hc] at q2 q3 q4
  rw [t2] at q3
  refine ⟨t2, q1, q2, q3, ?_, ?_⟩
  · intro p hp
    have := q4 p hp
    omega
  · rintro ⟨budget, h⟩
    rw [(hall budget).1] at h
    exact Option.noConfusion h

set_option maxRecDepth 1000000 in
set_option maxHeartbeats 4000000 in
/-- C6 fails on the code: against a card that always reports 32 bytes available (32-byte
build), the 130th receive call is directed at buffer offset 4096 for 32 bytes, and after it
the reassembled length is 4128 and the receive loop is still running. -/
theorem send_req_receives_past_capacity :
    Poll.mk 4096 32 32 false ∈ (send_req textJson (steadyBus 32 65) false 130
      { _deviceAddress := 23, note_json := [123, 125], in_out_buff := fun _ => 0 }
      0 none 0).polls ∧
    (4096, 32, true) ∈ rxCalls (send_req textJson (steadyBus 32 65) false 130
      { _deviceAddress := 23, note_json := [123, 125], in_out_buff := fun _ => 0 }
      0 none 0).trace ∧
    (send_req textJson (steadyBus 32 65) false 130
      { _deviceAddress := 23, note_json := [123, 125], in_out_buff := fun _ => 0 }
      0 none 0).jsonbufLen = 4128 ∧
    (send_req textJson (steadyBus 32 65) false 130
      { _deviceAddress := 23, note_json := [123, 125], in_out_buff := fun _ => 0 }
      0 none 0).ret = none :=
  ⟨by decide!, by decide!, by decide!, by decide!⟩


/-! ## When `send_req` returns true -/

/-- The transmit call recorded in the trace of `blues_I2C_TX` carries its return value. -/
theorem blues_I2C_TX_calls (W : Platform σ) (d : σ) (a : Nat) (m : Mem) (p n : Nat) :
    txCalls (blues_I2C_TX W d a m p n).2.2 = [(Mem.read m p n, (blues_I2C_TX W d a m p n).1)] ∧
    rxCalls (blues_I2C_TX W d a m p n).2.2 = [] := by
  simp only [blues_I2C_TX]
  split_ifs <;> simp [wireWrite, I2C_RST, txCalls_append, rxCalls_append, txCalls, rxCalls]

/-- One iteration of the transmit loop. -/
theorem txLoop_succ (W : Platform σ) (B a : Nat) (m : Mem) (n : Nat) (s : TxState σ) :
    txLoop W B a m (n + 1) s =
      if s.jsonLen > 0 then
        if (blues_I2C_TX W (W.delay s.dev 6) a m s.chunk (min (min s.jsonLen 65535) B)).1
            = false then
          (some false,
            { s with
              dev := (I2C_RST W (blues_I2C_TX W (W.delay s.dev 6) a m s.chunk
                (min (min s.jsonLen 65535) B)).2.1).1,
              trace := s.trace ++ (blues_I2C_TX W (W.delay s.dev 6) a m s.chunk
                (min (min s.jsonLen 65535) B)).2.2 ++ (I2C_RST W (blues_I2C_TX W
                  (W.delay s.dev 6) a m s.chunk (min (min s.jsonLen 65535) B)).2.1).2 })
        else
          txLoop W B a m n
            { chunk := s.chunk + min (min s.jsonLen 65535) B,
              jsonLen := s.jsonLen - min (min s.jsonLen 65535) B,
              sentInSegment :=
                if (s.sentInSegment + min (min s.jsonLen 65535) B) % 65536 > 250 then 0
                else (s.sentInSegment + min (min s.jsonLen 65535) B) % 65536,
              dev := W.delay
                (if (s.sentInSegment + min (min s.jsonLen 65535) B) % 65536 > 250 then
                  W.delay (blues_I2C_TX W (W.delay s.dev 6) a m s.chunk
                    (min (min s.jsonLen 65535) B)).2.1 250
                else (blues_I2C_TX W (W.delay s.dev 6) a m s.chunk
                  (min (min s.jsonLen 65535) B)).2.1) 20,
              trace := s.trace ++ (blues_I2C_TX W (W.delay s.dev 6) a m s.chunk
                (min (min s.jsonLen 65535) B)).2.2 }
      else (some true, s) := by
  have hc : (if (if s.jsonLen > 0xFFFF then 0xFFFF else s.jsonLen) > B then B
      else (if s.jsonLen > 0xFFFF then 0xFFFF else s.jsonLen)) = min (min s.jsonLen 65535) B := by
    split_ifs <;> omega
  rw [txLoop]
  simp only [hc]

/-- A transmit loop that ran to its end made only successful transmit calls. -/
theorem txLoop_true (W : Platform σ) (B a : Nat) (m : Mem) : ∀ (n : Nat) (s : TxState σ),
    (txLoop W B a m n s).1 = some true →
    (∀ c ∈ txCalls s.trace, c.2 = true) →
    ∀ c ∈ txCalls (txLoop W B a m n s).2.trace, c.2 = true := by
  intro n
  induction n with
  | zero =>
    intro s _ h
    simpa [txLoop] using h
  | succ n ih =>
    intro s h1 h2
    rw [txLoop_succ] at h1 ⊢
    by_cases hpos : s.jsonLen > 0
    · rw [if_pos hpos] at h1 ⊢
      by_cases hres : (blues_I2C_TX W (W.delay s.dev 6) a m s.chunk
          (min (min s.jsonLen 65535) B)).1 = false
      · rw [if_pos hres] at h1
        simp at h1
      · rw [if_neg hres] at h1 ⊢
        apply ih _ h1
        intro c hc
        simp only [txCalls_append, List.mem_append] at hc
        rcases hc with hc | hc
        · exact h2 c hc
        · rw [(blues_I2C_TX_calls W _ a m _ _).1] at hc
          simp only [List.mem_singleton] at hc
          rw [hc]
          simpa using hres
    · rw [if_neg hpos]
      exact h2

/-- What is known when the receive loop is left through one of its two `break`s. -/
theorem rxLoop_break (W : Platform σ) (B a t : Nat) (hB : 0 < B) :
    ∀ (n : Nat) (s : RxState σ),
      (s.receivedNewline = true → ∃ p ∈ s.polls, p.newline = true) →
      (∀ c ∈ rxCalls s.trace, c.2.2 = true) →
      ((rxLoop W B a t n s).1 = RxExit.drained ∨ (rxLoop W B a t n s).1 = RxExit.overflow) →
      (∃ p, (rxLoop W B a t n s).2.polls.getLast? = some p ∧ p.available = 0) ∧
      (∀ c ∈ rxCalls (rxLoop W B a t n s).2.trace, c.2.2 = true) ∧
      ((rxLoop W B a t n s).1 = RxExit.drained →
        ∃ p ∈ (rxLoop W B a t n s).2.polls, p.newline = true) ∧
      ((rxLoop W B a t n s).1 = RxExit.overflow → 4096 ≤ (rxLoop W B a t n s).2.jsonbufLen ∧
        (rxLoop W B a t n s).2.receivedNewline = false) := by
  intro n
  induction n with
  | zero =>
    intro s _ _ h
    simp [rxLoop] at h
  | succ n ih =>
    intro s hnl hrx hexit
    have hnl2 : (rxNext W B a s).receivedNewline = true →
        ∃ p ∈ (rxNext W B a s).polls, p.newline = true := by
      intro h
      simp only [rxNext, Bool.or_eq_true] at h
      rcases h with h | h
      · obtain ⟨p, hp, hpn⟩ := hnl h
        exact ⟨p, by simp [rxNext, hp], hpn⟩
      · refine ⟨⟨s.jsonbufLen, s.chunkLen, (rxPoll W a s).available,
          decide (s.jsonbufLen + s.chunkLen > 0) &&
            ((rxPoll W a s).mem (s.jsonbufLen + s.chunkLen - 1) == 10)⟩, ?_, h⟩
        simp only [rxNext]
        exact List.mem_append_right _ (List.mem_singleton.2 rfl)
    have hlast : (rxNext W B a s).chunkLen = 0 →
        ∃ p, (rxNext W B a s).polls.getLast? = some p ∧ p.available = 0 := by
      intro h
      have hg : (rxNext W B a s).polls.getLast? = some ⟨s.jsonbufLen, s.chunkLen,
          (rxPoll W a s).available, decide (s.jsonbufLen + s.chunkLen > 0) &&
            ((rxPoll W a s).mem (s.jsonbufLen + s.chunkLen - 1) == 10)⟩ := by
        simp only [rxNext]
        exact List.getLast?_concat _
      refine ⟨_, hg, ?_⟩
      simp only [rxNext] at h
      show (rxPoll W a s).available = 0
      omega
    rw [rxLoop_succ] at hexit ⊢
    by_cases h1 : (rxPoll W a s).result = false
    · rw [if_pos h1] at hexit
      simp at hexit
    · have hres : (rxPoll W a s).result = true := by simpa using h1
      have hrx2 : ∀ c ∈ rxCalls (rxNext W B a s).trace, c.2.2 = true := by
        intro c hc
        simp only [rxNext, rxCalls_append, List.mem_append] at hc
        rcases hc with hc | hc
        · exact hrx c hc
        · simp only [rxPoll] at hc hres
          rw [(blues_I2C_RX_calls W _ a _ _ _ _).2] at hc
          simp only [List.mem_singleton] at hc
          rw [hc]
          exact hres
      rw [if_neg h1] at hexit ⊢
      by_cases h2 : (rxNext W B a s).chunkLen > 0
      · rw [if_pos h2] at hexit ⊢
        exact ih _ hnl2 hrx2 hexit
      · rw [if_neg h2] at hexit ⊢
        by_cases h3 : (rxNext W B a s).receivedNewline = true
        · rw [if_pos h3]
          exact ⟨hlast (by omega), hrx2, fun _ => hnl2 h3, fun h => by simp at h⟩
        · rw [if_neg h3] at hexit ⊢
          by_cases h4 : (rxNext W B a s).jsonbufLen ≥ 4096
          · rw [if_pos h4]
            exact ⟨hlast (by omega), hrx2, fun h => by simp at h,
              fun _ => ⟨h4, by simpa using h3⟩⟩
          · rw [if_neg h4] at hexit ⊢
            exact ih _ hnl2 hrx2 hexit

/-- When `send_req` returns true its transmit loop ran to its end and its receive loop was
left through one of its two `break`s. -/
theorem send_req_true (J : Json δ) (W : Platform σ) (rui : Bool) (budget : Nat)
    (self : RAK_BLUES δ) (d : σ) (response : Option (List Nat)) (resp_len : Nat)
    (h : (send_req J W rui budget self d response resp_len).ret = some true) :
    (txPhase J W rui self d).1 = some true ∧
    ((rxPhase J W rui budget self d).1 = RxExit.drained ∨
      (rxPhase J W rui budget self d).1 = RxExit.overflow) := by
  have htx : (txPhase J W rui self d).1 = some true := by
    rcases hq : (txPhase J W rui self d).1 with _ | b
    · exfalso
      simp only [txPhase, requestText, requestBuffer] at hq
      simp [send_req, hq] at h
    · cases b
      · rw [send_req_tx_fail J W rui budget self d response resp_len hq] at h
        simp at h
      · rfl
  refine ⟨htx, ?_⟩
  rw [(send_req_rx J W rui budget self d response resp_len htx).1] at h
  rcases he : (rxPhase J W rui budget self d).1 <;> rw [he] at h <;> simp [retOf] at h
  · exact Or.inl rfl
  · exact Or.inr rfl

/-- The transmit loop makes no receive call. -/
theorem txLoop_rxCalls (W : Platform σ) (B a : Nat) (m : Mem) : ∀ (n : Nat) (s : TxState σ),
    rxCalls (txLoop W B a m n s).2.trace = rxCalls s.trace := by
  intro n
  induction n with
  | zero => intro s; rfl
  | succ n ih =>
    intro s
    rw [txLoop_succ]
    by_cases hpos : s.jsonLen > 0
    · rw [if_pos hpos]
      by_cases hres : (blues_I2C_TX W (W.delay s.dev 6) a m s.chunk
          (min (min s.jsonLen 65535) B)).1 = false
      · rw [if_pos hres]
        simp [rxCalls_append, (blues_I2C_TX_calls W _ a m _ _).2, I2C_RST, rxCalls]
      · rw [if_neg hres, ih]
        simp [rxCalls_append, (blues_I2C_TX_calls W _ a m _ _).2]
    · rw [if_neg hpos]

/-- C7, as amended: whenever `send_req` returns true, every transmit call and every receive
call succeeded, the last poll reported available-count 0, and the receive loop was left
either through the newline-seen-and-nothing-available exit, a newline having been the last
byte of the reassembled buffer at some poll, or through the overflow guard, the reassembled
length having reached 4096 with no newline seen. -/
theorem send_req_true_only_if (J : Json δ) (W : Platform σ) (rui : Bool) (budget : Nat)
    (self : RAK_BLUES δ) (d : σ) (response : Option (List Nat)) (resp_len : Nat)
    (h : (send_req J W rui budget self d response resp_len).ret = some true) :
    (∀ c ∈ txCalls (send_req J W rui budget self d response resp_len).trace, c.2 = true) ∧
    (∀ c ∈ rxCalls (send_req J W rui budget self d response resp_len).trace, c.2.2 = true) ∧
    (∃ p, (send_req J W rui budget self d response resp_len).polls.getLast? = some p ∧
      p.available = 0) ∧
    (((send_req J W rui budget self d response resp_len).exit = some RxExit.drained ∧
        ∃ p ∈ (send_req J W rui budget self d response resp_len).polls, p.newline = true) ∨
      ((send_req J W rui budget self d response resp_len).exit = some RxExit.overflow ∧
        4096 ≤ (send_req J W rui budget self d response resp_len).jsonbufLen ∧
        (send_req J W rui budget self d response resp_len).receivedNewline = false)) := by
  obtain ⟨htx, hexit⟩ := send_req_true J W rui budget self d response resp_len h
  obtain ⟨_, s2, s3, s4, _, s6, s7, _⟩ := send_req_rx J W rui budget self d response resp_len
    htx
  have htc : ∀ c ∈ txCalls (txPhase J W rui self d).2.trace, c.2 = true :=
    txLoop_true W (i2c_buff rui) self._deviceAddress (requestBuffer J self) _ _ htx
      (by simp [txCalls])
  have hrc : rxCalls (txPhase J W rui self d).2.trace = [] := by
    simp only [txPhase]
    rw [txLoop_rxCalls]
    rfl
  obtain ⟨b1, b2, b3, b4⟩ := rxLoop_break W (i2c_buff rui) self._deviceAddress
    (W.millis (txPhase J W rui self d).2.dev % 4294967296) (i2c_buff_pos rui) budget
    { receivedNewline := false, jsonbufLen := 0, chunkLen := 0,
      jsonbuf := memset (requestBuffer J self) 0 JSON_BUFF_SIZE,
      dev := (txPhase J W rui self d).2.dev,
      trace := (txPhase J W rui self d).2.trace, polls := [] }
    (by simp) (by simp [hrc]) hexit
  rw [s2, s3, s4, s6, s7]
  refine ⟨?_, b2, b1, ?_⟩
  · simp only [rxPhase]
    rw [rxLoop_txCalls]
    exact htc
  · rcases hexit with he | he
    · exact Or.inl ⟨by rw [he], b3 he⟩
    · exact Or.inr ⟨by rw [he], b4 he⟩

/-- C7 at a concrete input: the exchange with available-counts 5, 5, 0. -/
theorem send_req_true_only_if_witness :
    (send_req textJson scriptedBus false 3
      { _deviceAddress := 23, note_json := [123, 125], in_out_buff := fun _ => 0 }
      (Script.mk [] [frame 5 [], frame 5 [72, 101, 108, 108, 111],
        frame 0 [33, 33, 33, 125, 10]] 0) none 0).ret = some true ∧
    ∃ p, (send_req textJson scriptedBus false 3
      { _deviceAddress := 23, note_json := [123, 125], in_out_buff := fun _ => 0 }
      (Script.mk [] [frame 5 [], frame 5 [72, 101, 108, 108, 111],
        frame 0 [33, 33, 33, 125, 10]] 0) none 0).polls.getLast? = some p ∧
      p.available = 0 :=
  ⟨by decide,
    (send_req_true_only_if textJson scriptedBus false 3
      { _deviceAddress := 23, note_json := [123, 125], in_out_buff := fun _ => 0 }
      (Script.mk [] [frame 5 [], frame 5 [72, 101, 108, 108, 111],
        frame 0 [33, 33, 33, 125, 10]] 0) none 0 (by decide)).2.2.1⟩

set_option maxRecDepth 1000000 in
set_option maxHeartbeats 4000000 in
/-- C7 fails as stated: a card that delivers 4096 bytes without any newline (128 frames of
32 bytes) and then reports nothing available makes `send_req` return true through the
overflow guard, although no poll ever saw a newline. -/
theorem send_req_true_through_overflow :
    (send_req textJson scriptedBus false 129
      { _deviceAddress := 23, note_json := [123, 125], in_out_buff := fun _ => 0 }
      (Script.mk [] (frame 32 [] :: (List.replicate 127 (frame 32 (List.replicate 32 65)) ++
        [frame 0 (List.replicate 32 65)])) 0) none 0).ret = some true ∧
    (send_req textJson scriptedBus false 129
      { _deviceAddress := 23, note_json := [123, 125], in_out_buff := fun _ => 0 }
      (Script.mk [] (frame 32 [] :: (List.replicate 127 (frame 32 (List.replicate 32 65)) ++
        [frame 0 (List.replicate 32 65)])) 0) none 0).exit = some RxExit.overflow ∧
    (send_req textJson scriptedBus false 129
      { _deviceAddress := 23, note_json := [123, 125], in_out_buff := fun _ => 0 }
      (Script.mk [] (frame 32 [] :: (List.replicate 127 (frame 32 (List.replicate 32 65)) ++
        [frame 0 (List.replicate 32 65)])) 0) none 0).jsonbufLen = 4096 ∧
    (∀ p ∈ (send_req textJson scriptedBus false 129
      { _deviceAddress := 23, note_json := [123, 125], in_out_buff := fun _ => 0 }
      (Script.mk [] (frame 32 [] :: (List.replicate 127 (frame 32 (List.replicate 32 65)) ++
        [frame 0 (List.replicate 32 65)])) 0) none 0).polls, p.newline = false) :=
  ⟨by decide!, by decide!, by decide!, by decide!⟩

/-! ## Transmit errors -/

theorem Mem.getElem?_read (m : Mem) : ∀ (n a i : Nat), i < n →
    (Mem.read m a n)[i]? = some (m (a + i)) := by
  intro n
  induction n with
  | zero => intro a i h; omega
  | succ n ih =>
    intro a i h
    cases i with
    | zero => simp [Mem.read]
    | succ i =>
      simp only [Mem.read, List.getElem?_cons_succ]
      rw [ih (a + 1) i (by omega)]
      congr 2
      omega

theorem writeEvents_append (xs ys : List Event) :
    writeEvents (xs ++ ys) = writeEvents xs ++ writeEvents ys := by
  induction xs with
  | nil => rfl
  | cons e es ih => cases e <;> simp [writeEvents, ih]

theorem readEvents_append (xs ys : List Event) :
    readEvents (xs ++ ys) = readEvents xs ++ readEvents ys := by
  induction xs with
  | nil => rfl
  | cons e es ih => cases e <;> simp [readEvents, ih]

theorem resetCount_append (xs ys : List Event) :
    resetCount (xs ++ ys) = resetCount xs + resetCount ys := by
  induction xs with
  | nil => simp [resetCount]
  | cons e es ih => cases e <;> simp [resetCount, ih, Nat.add_right_comm]

/-- C12: `blues_I2C_TX` returns true exactly when the write transaction ends with error code
0; on every other error code it returns false and resets the bus exactly once (the only
thing it does after the transaction), and on success it does not reset the bus. -/
theorem blues_I2C_TX_result_and_recovery (W : Platform σ) (d : σ) (a : Nat) (m : Mem)
    (p n : Nat) :
    ((blues_I2C_TX W d a m p n).1 = true ↔
      (W.endTransmission d (a % 256) ((n % 256) :: Mem.read m p n)).1 % 256 = 0) ∧
    ((blues_I2C_TX W d a m p n).1 = false ↔
      (W.endTransmission d (a % 256) ((n % 256) :: Mem.read m p n)).1 % 256 ≠ 0) ∧
    resetCount (blues_I2C_TX W d a m p n).2.2
      = (if (W.endTransmission d (a % 256) ((n % 256) :: Mem.read m p n)).1 % 256 = 0
          then 0 else 1) ∧
    (blues_I2C_TX W d a m p n).2.1
      = (if (W.endTransmission d (a % 256) ((n % 256) :: Mem.read m p n)).1 % 256 = 0
          then (W.endTransmission d (a % 256) ((n % 256) :: Mem.read m p n)).2
          else W.wireBegin (W.endTransmission d (a % 256) ((n % 256) :: Mem.read m p n)).2) ∧
    (∀ e : Nat, 1 ≤ e → e ≤ 255 →
      (W.endTransmission d (a % 256) ((n % 256) :: Mem.read m p n)).1 = e →
        (blues_I2C_TX W d a m p n).1 = false ∧
        resetCount (blues_I2C_TX W d a m p n).2.2 = 1) := by
  simp only [blues_I2C_TX, wireWrite, I2C_RST]
  by_cases h : (W.endTransmission d (a % 256) ((n % 256) :: Mem.read m p n)).1 % 256 = 0
  · simp only [h, ne_eq, not_true_eq_false, if_false, if_true]
    refine ⟨by simp, by simp, by simp [resetCount], trivial, ?_⟩
    intro e h1 h2 he
    rw [he] at h
    omega
  · simp only [h, ne_eq, not_false_eq_true, if_true, if_false]
    refine ⟨by simp, by simp, by simp [resetCount, resetCount_append], trivial, ?_⟩
    intro e _ _ _
    simp [resetCount, resetCount_append]

theorem controlWrite_result_false (W : Platform σ) (a r : Nat) :
    ∀ (n : Nat) (c : ControlWrite σ), c.result = false →
      (controlWrite W a r n c).result = false := by
  intro n
  induction n with
  | zero => intro c h; exact h
  | succ n ih =>
    intro c h
    simp only [controlWrite]
    split
    · exact h
    · exact ih _ rfl

/-- A failed first control write leaves `result` false whatever the later attempts do. -/
theorem controlWrite_retry (W : Platform σ) (a r n : Nat) (c : ControlWrite σ)
    (h : (W.endTransmission c.dev (a % 256) [0, r % 256]).1 % 256 ≠ 0) :
    (controlWrite W a r (n + 1) c).result = false := by
  simp only [controlWrite, wireWrite, h, if_false]
  exact controlWrite_result_false W a r n _ rfl

/-- The return value of `blues_I2C_RX` is false whenever its control-write loop left
`result` false. -/
theorem blues_I2C_RX_result_le (W : Platform σ) (d : σ) (a : Nat) (m : Mem) (p r v : Nat)
    (h : (controlWrite W a r 3
      { transmission_error := 0, result := true, dev := d, trace := [] }).result = false) :
    (blues_I2C_RX W d a m p r v).result = false := by
  simp only [blues_I2C_RX]
  split_ifs <;> simp [h]

theorem blues_I2C_RX_first_failed (W : Platform σ) (d : σ) (a : Nat) (m : Mem) (p r v : Nat)
    (h : (W.endTransmission d (a % 256) [0, r % 256]).1 % 256 ≠ 0) :
    (blues_I2C_RX W d a m p r v).result = false :=
  blues_I2C_RX_result_le W d a m p r v
    (controlWrite_retry W a r 2
      { transmission_error := 0, result := true, dev := d, trace := [] } h)

/-- C11 (refuted on the code): `blues_I2C_RX` returns false whenever the first control-write
attempt ends with a bus error, whatever the later attempts and the read do: the flag
`result`, cleared by the failed attempt, is never set again. -/
theorem blues_I2C_RX_retry_returns_false (W : Platform σ) (d : σ) (a : Nat) (m : Mem)
    (p r v : Nat)
    (hfirst : (W.endTransmission d (a % 256) [0, r % 256]).1 % 256 ≠ 0) :
    (blues_I2C_RX W d a m p r v).result = false :=
  blues_I2C_RX_first_failed W d a m p r v hfirst

/-- C11 at the failing input: the first control write is refused (error 2), the second
succeeds and the read delivers a well-formed response to the request for 3 bytes; the
available-count 5 and the payload are stored, and the call returns false. -/
theorem blues_I2C_RX_retry_returns_false_witness :
    (scriptedBus.endTransmission ⟨[2], [[5, 3, 1, 2, 3]], 0⟩ (23 % 256) [0, 3 % 256]).1 % 256
      ≠ 0 ∧
    writeEvents (blues_I2C_RX scriptedBus ⟨[2], [[5, 3, 1, 2, 3]], 0⟩ 23 (fun _ => 0) 0 3 7).trace
      = [(23, [0, 3], 2), (23, [0, 3], 0)] ∧
    (blues_I2C_RX scriptedBus ⟨[2], [[5, 3, 1, 2, 3]], 0⟩ 23 (fun _ => 0) 0 3 7).response
      = some [5, 3, 1, 2, 3] ∧
    (blues_I2C_RX scriptedBus ⟨[2], [[5, 3, 1, 2, 3]], 0⟩ 23 (fun _ => 0) 0 3 7).available = 5 ∧
    Mem.read (blues_I2C_RX scriptedBus ⟨[2], [[5, 3, 1, 2, 3]], 0⟩ 23 (fun _ => 0) 0 3 7).mem 0 3
      = [1, 2, 3] ∧
    (blues_I2C_RX scriptedBus ⟨[2], [[5, 3, 1, 2, 3]], 0⟩ 23 (fun _ => 0) 0 3 7).result = false :=
  ⟨by decide, by decide, by decide, by decide, by decide,
    blues_I2C_RX_retry_returns_false scriptedBus ⟨[2], [[5, 3, 1, 2, 3]], 0⟩ 23 (fun _ => 0) 0 3 7
      (by decide)⟩

theorem controlWrite_events (W : Platform σ) (a r : Nat) :
    ∀ (n : Nat) (c : ControlWrite σ), ∃ ws : List (Nat × List Nat × Nat),
      writeEvents (controlWrite W a r n c).trace = writeEvents c.trace ++ ws ∧
      ws.length ≤ n ∧ (0 < n → 0 < ws.length) ∧
      (∀ x ∈ ws, x.1 = a % 256 ∧ x.2.1 = [0, r % 256]) ∧
      readEvents (controlWrite W a r n c).trace = readEvents c.trace := by
  intro n
  induction n with
  | zero => intro c; exact ⟨[], by simp [controlWrite]⟩
  | succ n ih =>
    intro c
    simp only [controlWrite]
    split
    · refine ⟨[(a % 256, [0, r % 256], (W.endTransmission c.dev (a % 256) [0, r % 256]).1 % 256)],
        ?_, by simp, by simp, by simp, ?_⟩
      · simp [wireWrite, writeEvents_append, writeEvents]
      · simp [wireWrite, readEvents_append, readEvents]
    · obtain ⟨ws, h1, h2, _, h4, h5⟩ := ih
        { transmission_error := (wireWrite W c.dev a [0, r % 256]).1, result := false,
          dev := (I2C_RST W (wireWrite W c.dev a [0, r % 256]).2.1).1,
          trace := c.trace ++ (wireWrite W c.dev a [0, r % 256]).2.2 ++
            (I2C_RST W (wireWrite W c.dev a [0, r % 256]).2.1).2 }
      refine ⟨(a % 256, [0, r % 256], (W.endTransmission c.dev (a % 256) [0, r % 256]).1 % 256)
        :: ws, ?_, by simp; omega, by simp, ?_, ?_⟩
      · rw [h1]
        simp [wireWrite, I2C_RST, writeEvents_append, writeEvents]
      · intro x hx
        rcases List.mem_cons.1 hx with rfl | hx
        · exact ⟨rfl, rfl⟩
        · exact h4 x hx
      · rw [h5]
        simp [wireWrite, I2C_RST, readEvents_append, readEvents]

/-- The bus transactions of one `blues_I2C_RX`: one to three control writes of
`[0, requested_byte_count_]` and at most one read, of `requested_byte_count_ + 2` bytes. -/
theorem blues_I2C_RX_events (W : Platform σ) (d : σ) (a : Nat) (m : Mem) (p r v : Nat) :
    (∀ x ∈ writeEvents (blues_I2C_RX W d a m p r v).trace,
      x.1 = a % 256 ∧ x.2.1 = [0, r % 256]) ∧
    1 ≤ (writeEvents (blues_I2C_RX W d a m p r v).trace).length ∧
    (writeEvents (blues_I2C_RX W d a m p r v).trace).length ≤ 3 ∧
    readEvents (blues_I2C_RX W d a m p r v).trace
      = (if (blues_I2C_RX W d a m p r v).response = none then [] else [(a, r + 2)]) := by
  obtain ⟨ws, h1, h2, h3, h4, h5⟩ := controlWrite_events W a r 3
    { transmission_error := 0, result := true, dev := d, trace := [] }
  simp only [writeEvents, readEvents, List.nil_append] at h1 h5
  have h3 := h3 (by decide)
  simp only [blues_I2C_RX]
  generalize controlWrite W a r 3
    { transmission_error := 0, result := true, dev := d, trace := [] } = c at h1 h5
  simp only [wireRequestFrom]
  generalize (W.requestFrom (W.delay c.dev 2) a (r + 2)).1.map (fun b => b % 256) = q
  generalize (W.requestFrom (W.delay c.dev 2) a (r + 2)).2 = d2
  split_ifs
  all_goals first
    | contradiction
    | (simp only [writeEvents_append, readEvents_append, writeEvents, readEvents, h1, h5,
        List.append_nil, List.nil_append]
       exact ⟨h4, h3, h2, by simp⟩)

theorem controlWrite_error_result (W : Platform σ) (a r : Nat) :
    ∀ (n : Nat) (c : ControlWrite σ), (c.transmission_error ≠ 0 → c.result = false) →
      (controlWrite W a r n c).transmission_error ≠ 0 →
      (controlWrite W a r n c).result = false := by
  intro n
  induction n with
  | zero => intro c h; exact h
  | succ n ih =>
    intro c h
    simp only [controlWrite]
    split
    · rename_i h0
      intro h1
      exact absurd h0 h1
    · exact ih _ (fun _ => rfl)

/-- What a `blues_I2C_RX` that returns true has stored. -/
theorem blues_I2C_RX_stored (W : Platform σ) (d : σ) (a : Nat) (m : Mem) (p r v : Nat)
    (h : (blues_I2C_RX W d a m p r v).result = true) :
    ∃ resp : List Nat, (blues_I2C_RX W d a m p r v).response = some resp ∧
      resp.length = r + 2 ∧
      resp[0]? = some (blues_I2C_RX W d a m p r v).available ∧
      resp[1]? = some r ∧
      Mem.read (blues_I2C_RX W d a m p r v).mem p r = resp.drop 2 := by
  have hc := controlWrite_error_result W a r 3
    { transmission_error := 0, result := true, dev := d, trace := [] } (fun h0 => absurd rfl h0)
  revert h
  simp only [blues_I2C_RX]
  generalize controlWrite W a r 3
    { transmission_error := 0, result := true, dev := d, trace := [] } = c at hc
  simp only [wireRequestFrom]
  generalize (W.requestFrom (W.delay c.dev 2) a (r + 2)).1.map (fun b => b % 256) = q
  generalize (W.requestFrom (W.delay c.dev 2) a (r + 2)).2 = d2
  split_ifs with h1 h2 h3 h4 h5
  · simp
  · simp
  · simp
  · simp
  · intro _
    rcases q with _ | ⟨x, _ | ⟨y, rest⟩⟩
    · simp at h2
    · simp at h3
    · have hl : rest.length = r := by simpa using h3
      have hm := rxCopy_mem W p r 0 rest m d2 (le_of_eq hl.symm)
      refine ⟨x :: y :: rest, rfl, by simp [hl], by simp, ?_, ?_⟩
      · simp at h5
        simp [h5]
      · simp only [List.tail_cons, List.drop_succ_cons, List.drop_zero]
        rw [hm, ← hl, List.take_length]
        exact Mem.read_writeList rest m (p + 0)
  · intro h
    rw [hc h1] at h
    exact absurd h (by simp)

/-- C13: for `size_ ≤ 255`, `blues_I2C_TX` performs exactly one write transaction, of the
byte `size_` followed by `buffer_[0..size_)`, and no read; for `requested_byte_count_ ≤ 255`,
every control write of `blues_I2C_RX` (there are one to three) is the two bytes
`[0, requested_byte_count_]`, its read, when it is issued, is the only one and requests
`requested_byte_count_ + 2` bytes, and when the call returns true `*available_` is the first
response byte and `buffer_[0..requested_byte_count_)` the response bytes from index 2 on. -/
theorem bus_wire_format (W : Platform σ) (d : σ) (a : Nat) (m : Mem) (p n r v : Nat)
    (hn : n ≤ 255) (hr : r ≤ 255) :
    (∃ err, writeEvents (blues_I2C_TX W d a m p n).2.2
      = [(a % 256, n :: Mem.read m p n, err)]) ∧
    readEvents (blues_I2C_TX W d a m p n).2.2 = [] ∧
    (∀ x ∈ writeEvents (blues_I2C_RX W d a m p r v).trace, x.1 = a % 256 ∧ x.2.1 = [0, r]) ∧
    1 ≤ (writeEvents (blues_I2C_RX W d a m p r v).trace).length ∧
    (writeEvents (blues_I2C_RX W d a m p r v).trace).length ≤ 3 ∧
    readEvents (blues_I2C_RX W d a m p r v).trace
      = (if (blues_I2C_RX W d a m p r v).response = none then [] else [(a, r + 2)]) ∧
    ((blues_I2C_RX W d a m p r v).result = true →
      ∃ resp : List Nat, (blues_I2C_RX W d a m p r v).response = some resp ∧
        resp.length = r + 2 ∧
        resp[0]? = some (blues_I2C_RX W d a m p r v).available ∧
        (∀ i, i < r → resp[i + 2]? = some ((blues_I2C_RX W d a m p r v).mem (p + i)))) := by
  have hn' : n % 256 = n := Nat.mod_eq_of_lt (by omega)
  have hr' : r % 256 = r := Nat.mod_eq_of_lt (by omega)
  obtain ⟨e1, e2, e3, e4⟩ := blues_I2C_RX_events W d a m p r v
  rw [hr'] at e1
  refine ⟨?_, ?_, e1, e2, e3, e4, ?_⟩
  · refine ⟨(W.endTransmission d (a % 256) (n :: Mem.read m p n)).1 % 256, ?_⟩
    simp only [blues_I2C_TX, wireWrite, I2C_RST, hn']
    split_ifs <;> simp [writeEvents_append, writeEvents]
  · simp only [blues_I2C_TX, wireWrite, I2C_RST]
    split_ifs <;> simp [readEvents_append, readEvents]
  · intro h
    obtain ⟨resp, h1, h2, h3, _, h5⟩ := blues_I2C_RX_stored W d a m p r v h
    refine ⟨resp, h1, h2, h3, ?_⟩
    intro i hi
    have hd : (resp.drop 2)[i]? = resp[i + 2]? := by
      rw [List.getElem?_drop, Nat.add_comm]
    rw [← hd, ← h5]
    exact Mem.getElem?_read _ _ _ _ hi

/-- C13 at a concrete input: a 3-byte transmit and a 3-byte receive on a card that answers
well-formed. -/
theorem bus_wire_format_witness :
    writeEvents (blues_I2C_TX (steadyBus 5 65) 0 23 (fun i => i + 1) 0 3).2.2
      = [(23, [3, 1, 2, 3], 0)] ∧
    writeEvents (blues_I2C_RX (steadyBus 5 65) 0 23 (fun _ => 0) 0 3 0).trace
      = [(23, [0, 3], 0)] ∧
    readEvents (blues_I2C_RX (steadyBus 5 65) 0 23 (fun _ => 0) 0 3 0).trace = [(23, 5)] ∧
    (∃ resp : List Nat,
      (blues_I2C_RX (steadyBus 5 65) 0 23 (fun _ => 0) 0 3 0).response = some resp ∧
      resp[0]? = some (blues_I2C_RX (steadyBus 5 65) 0 23 (fun _ => 0) 0 3 0).available) := by
  obtain ⟨_, _, _, _, _, _, h⟩ :=
    bus_wire_format (steadyBus 5 65) 0 23 (fun _ => 0) 0 3 3 0 (by decide) (by decide)
  obtain ⟨resp, h1, _, h3, _⟩ := h (by decide)
  exact ⟨by decide, by decide, by decide, resp, h1, h3⟩

/-! ## Document lemmas -/

theorem findMember_upsertMember (key : List Nat) (f : Value → Value) :
    ∀ ms : List (List Nat × Value),
      findMember key (upsertMember key f ms) = some (f ((findMember key ms).getD Value.null)) := by
  intro ms
  induction ms with
  | nil => simp [upsertMember, findMember]
  | cons e ms ih =>
    obtain ⟨k, x⟩ := e
    by_cases h : k = key
    · simp [upsertMember, findMember, h]
    · simp [upsertMember, findMember, h, ih]

theorem findMember_upsertMember_ne (key other : List Nat) (f : Value → Value) (h : other ≠ key) :
    ∀ ms : List (List Nat × Value),
      findMember other (upsertMember key f ms) = findMember other ms := by
  intro ms
  induction ms with
  | nil => simp [upsertMember, findMember, Ne.symm h]
  | cons e ms ih =>
    obtain ⟨k, x⟩ := e
    by_cases hk : k = key
    · subst hk
      simp [upsertMember, findMember, Ne.symm h]
    · by_cases hk2 : k = other
      · subst hk2
        simp [upsertMember, findMember, hk]
      · simp [upsertMember, findMember, hk, hk2, ih]

/-- Writing through a null value or an object leaves the written member in place. -/
theorem Value.getMember_update (v : Value) (key : List Nat) (f : Value → Value)
    (h : v.canHold = true) :
    (v.update key f).getMember key = some (f (v.member key)) := by
  cases v <;> simp [Value.canHold] at h
  · simp [Value.update, Value.getMember, Value.member, findMember]
  · simp [Value.update, Value.getMember, Value.member, findMember_upsertMember]

/-- Writing a member leaves every other member as it was. -/
theorem Value.getMember_update_ne (v : Value) (key other : List Nat) (f : Value → Value)
    (h : other ≠ key) : (v.update key f).getMember other = v.getMember other := by
  cases v <;> simp [Value.update, Value.getMember, findMember, Ne.symm h,
    findMember_upsertMember_ne key other f h]

theorem Value.lookup_null_cons (key : List Nat) (rest : List (List Nat)) :
    Value.lookup Value.null (key :: rest) = none := by
  simp [Value.lookup, Value.getMember]

/-- A write along a writable path is found at that path. -/
theorem Value.lookup_writeAt (x : Value) : ∀ (path : List (List Nat)) (v : Value),
    v.writable path = true → (Value.writeAt x path v).lookup path = some x := by
  intro path
  induction path with
  | nil => intro v _; rfl
  | cons key rest ih =>
    intro v h
    simp only [Value.writable, Bool.and_eq_true] at h
    simp only [Value.writeAt, Value.lookup, Value.getMember_update v key _ h.1, Option.some_bind]
    exact ih _ h.2

/-- A write along a path leaves the value at every path that neither leads to the written
key nor lies below it. -/
theorem Value.lookup_writeAt_other (x : Value) : ∀ (path other : List (List Nat)) (v : Value),
    ¬ path <+: other → ¬ other <+: path →
      (Value.writeAt x path v).lookup other = v.lookup other := by
  intro path
  induction path with
  | nil => intro other v h _; exact absurd List.nil_prefix h
  | cons key rest ih =>
    intro other v h1 h2
    cases other with
    | nil => exact absurd List.nil_prefix h2
    | cons k os =>
      by_cases hk : k = key
      · subst hk
        have h1' : ¬ rest <+: os := fun hp => h1 ((List.prefix_cons_inj k).2 hp)
        have h2' : ¬ os <+: rest := fun hp => h2 ((List.prefix_cons_inj k).2 hp)
        have hos : ∀ w : Value, w = Value.null → w.lookup os = none := by
          intro w hw
          cases os with
          | nil => exact absurd List.nil_prefix h2'
          | cons k2 os2 => rw [hw]; exact Value.lookup_null_cons k2 os2
        simp only [Value.writeAt, Value.lookup]
        by_cases hv : v.canHold = true
        · rw [Value.getMember_update v k _ hv, Option.some_bind, ih os _ h1' h2']
          simp only [Value.member]
          cases hg : v.getMember k with
          | none => simpa using hos Value.null rfl
          | some y => simp
        · have : v.update k (Value.writeAt x rest) = v := by
            cases v <;> simp [Value.canHold] at hv <;> rfl
          rw [this]
      · simp only [Value.writeAt, Value.lookup, Value.getMember_update_ne v key k _ hk]

theorem Value.member_eq_lookup (v : Value) (key : List Nat) :
    v.member key = (v.lookup [key]).getD Value.null := by
  simp only [Value.member, Value.lookup]
  cases v.getMember key <;> rfl

theorem Value.containsKey_eq_lookup (v : Value) (key : List Nat) :
    v.containsKey key = (v.lookup [key]).isSome := by
  simp only [Value.containsKey, Value.lookup]
  cases v.getMember key <;> rfl

/-- Reading below a member that is read through `v[key]`. -/
theorem Value.lookup_member (v : Value) (key k2 : List Nat) (rest : List (List Nat)) :
    (v.member key).lookup (k2 :: rest) = v.lookup (key :: k2 :: rest) := by
  simp only [Value.member, Value.lookup]
  cases v.getMember key with
  | none => simp [Value.getMember]
  | some y => simp

theorem Value.member_member_eq_lookup (v : Value) (k1 k2 : List Nat) :
    (v.member k1).member k2 = (v.lookup [k1, k2]).getD Value.null := by
  rw [Value.member_eq_lookup, Value.lookup_member]

theorem Value.containsKey_member_eq_lookup (v : Value) (k1 k2 : List Nat) :
    (v.member k1).containsKey k2 = (v.lookup [k1, k2]).isSome := by
  rw [Value.containsKey_eq_lookup, Value.lookup_member]

theorem Value.member3_eq_lookup (v : Value) (k1 k2 k3 : List Nat) :
    ((v.member k1).member k2).member k3 = (v.lookup [k1, k2, k3]).getD Value.null := by
  rw [Value.member_eq_lookup, Value.lookup_member, Value.lookup_member]

theorem Value.containsKey_member2_eq_lookup (v : Value) (k1 k2 k3 : List Nat) :
    ((v.member k1).member k2).containsKey k3 = (v.lookup [k1, k2, k3]).isSome := by
  rw [Value.containsKey_eq_lookup, Value.lookup_member, Value.lookup_member]

/-! ## Starting a request and reading absent keys -/

/-- C17: for every prior state of the driver and every request name, `start_req` returns
true and leaves a document whose only entry is `"req"`, holding the request name as a
string: `has_entry` is true for `"req"` and for no other key, no nested entry is present, and
the string read of `"req"` copies the request name; the rest of the driver is untouched. -/
theorem start_req_clears_document (self : RAK_BLUES Value) (request : List Nat) :
    (start_req self request).1 = true ∧
    (start_req self request).2.note_json = Value.obj [(reqKey, Value.str request)] ∧
    (∀ key, has_entry (start_req self request).2 key = true ↔ key = reqKey) ∧
    (∀ key nested, has_nested_entry (start_req self request).2 key nested = false) ∧
    (∀ path, path ≠ [] → path ≠ [reqKey] →
      (start_req self request).2.note_json.lookup path = none) ∧
    (∀ m value value_size, get_string_entry (start_req self request).2 reqKey m value value_size
      = some (true, strncpy m value request value_size)) ∧
    (start_req self request).2._deviceAddress = self._deviceAddress ∧
    (start_req self request).2.in_out_buff = self.in_out_buff := by
  refine ⟨rfl, rfl, ?_, ?_, ?_, ?_, rfl, rfl⟩
  · intro key
    simp only [start_req, has_entry, Value.update, Value.containsKey, Value.getMember,
      findMember]
    by_cases h : reqKey = key
    · simp [h]
    · simp [h, Ne.symm h]
  · intro key nested
    simp only [start_req, has_nested_entry, Value.update, Value.containsKey, Value.member,
      Value.getMember, findMember]
    by_cases h : reqKey = key <;> simp [h]
  · intro path h1 h2
    simp only [start_req, Value.update]
    rcases path with _ | ⟨k, _ | ⟨k2, rest⟩⟩
    · exact absurd rfl h1
    · have hk : reqKey ≠ k := fun h => h2 (by rw [h])
      simp [Value.lookup, Value.getMember, findMember, hk]
    · by_cases hk : reqKey = k <;>
        simp [Value.lookup, Value.getMember, findMember, hk]
  · intro m value value_size
    simp [start_req, get_string_entry, has_entry, Value.update, Value.containsKey,
      Value.member, Value.getMember, findMember, Value.asString]

/-- C18: a typed getter whose key path is not present in the document returns false and
hands back its output (the buffer memory, or the referenced variable) as it was: the six flat
getters when `type` is absent, the four nested ones when `type`, `nested` is absent, the
four two-level ones when `type`, `nested`, `nested2` is absent. No getter has the document
among its results. -/
theorem absent_key_reads (C : Conversions) (self : RAK_BLUES Value)
    (type nested nested2 : List Nat) (m : Mem) (value value_size : Nat)
    (b : Bool) (i : Int) (u f : Nat) :
    (self.note_json.lookup [type] = none →
      get_string_entry self type m value value_size = some (false, m) ∧
      get_string_entry_from_array self type m value value_size = some (false, m) ∧
      get_bool_entry C self type b = (false, b) ∧
      get_int32_entry C self type i = (false, i) ∧
      get_uint32_entry C self type u = (false, u) ∧
      get_float_entry C self type f = (false, f)) ∧
    (self.note_json.lookup [type, nested] = none →
      get_nested_string_entry self type nested m value value_size = some (false, m) ∧
      get_nested_int32_entry C self type nested i = (false, i) ∧
      get_nested_uint32_entry C self type nested u = (false, u) ∧
      get_nested_bool_entry C self type nested b = (false, b)) ∧
    (self.note_json.lookup [type, nested, nested2] = none →
      get_2lv_nested_string_entry self type nested nested2 m value value_size
        = some (false, m) ∧
      get_2lv_nested_int32_entry C self type nested nested2 i = (false, i) ∧
      get_2lv_nested_uint32_entry C self type nested nested2 u = (false, u) ∧
      get_2lv_nested_bool_entry C self type nested nested2 b = (false, b)) := by
  refine ⟨?_, ?_, ?_⟩
  · intro h
    have hc : has_entry self type = false := by
      rw [has_entry, Value.containsKey_eq_lookup, h]
      rfl
    simp [get_string_entry, get_string_entry_from_array, get_bool_entry, get_int32_entry,
      get_uint32_entry, get_float_entry, hc]
  · intro h
    have hc : (self.note_json.member type).containsKey nested = false := by
      rw [Value.containsKey_member_eq_lookup, h]
      rfl
    simp [get_nested_string_entry, get_nested_int32_entry, get_nested_uint32_entry,
      get_nested_bool_entry, hc]
  · intro h
    have hc : ((self.note_json.member type).member nested).containsKey nested2 = false := by
      rw [Value.containsKey_member2_eq_lookup, h]
      rfl
    simp [get_2lv_nested_string_entry, get_2lv_nested_int32_entry,
      get_2lv_nested_uint32_entry, get_2lv_nested_bool_entry, hc]

/-- C18 at a concrete input: the document `{"a":{"b":5}}` read at `"c"`, at `"a"`, `"c"` and
at `"a"`, `"b"`, `"c"`. -/
theorem absent_key_reads_witness :
    get_int32_entry zeroConversions ⟨23, Value.obj [([97], Value.obj [([98], Value.int32 5)])],
      fun _ => 0⟩ [99] 7 = (false, 7) ∧
    get_nested_int32_entry zeroConversions
      ⟨23, Value.obj [([97], Value.obj [([98], Value.int32 5)])], fun _ => 0⟩ [97] [99] 7
      = (false, 7) ∧
    get_2lv_nested_int32_entry zeroConversions
      ⟨23, Value.obj [([97], Value.obj [([98], Value.int32 5)])], fun _ => 0⟩ [97] [98] [99] 7
      = (false, 7) ∧
    get_nested_int32_entry zeroConversions
      ⟨23, Value.obj [([97], Value.obj [([98], Value.int32 5)])], fun _ => 0⟩ [97] [98] 7
      = (true, 5) := by
  obtain ⟨h1, h2, h3⟩ := absent_key_reads zeroConversions
    ⟨23, Value.obj [([97], Value.obj [([98], Value.int32 5)])], fun _ => 0⟩ [99] [0] [0]
    (fun _ => 0) 0 4 false 7 0 0
  obtain ⟨_, k2, _⟩ := absent_key_reads zeroConversions
    ⟨23, Value.obj [([97], Value.obj [([98], Value.int32 5)])], fun _ => 0⟩ [97] [99] [0]
    (fun _ => 0) 0 4 false 7 0 0
  obtain ⟨_, _, k3⟩ := absent_key_reads zeroConversions
    ⟨23, Value.obj [([97], Value.obj [([98], Value.int32 5)])], fun _ => 0⟩ [97] [98] [99]
    (fun _ => 0) 0 4 false 7 0 0
  exact ⟨(h1 rfl).2.2.2.1, (k2 rfl).2.1, (k3 rfl).2.1, by decide⟩

/-! ## String reads -/

theorem strncpy_read (m : Mem) (dest : Nat) (src : List Nat) (n : Nat) :
    Mem.read (strncpy m dest src n) dest n
      = src.take n ++ List.replicate (n - src.length) 0 := by
  have hl : (src.take n ++ List.replicate (n - src.length) 0).length = n := by
    simp only [List.length_append, List.length_take, List.length_replicate]
    omega
  have h := Mem.read_writeList (src.take n ++ List.replicate (n - src.length) 0) m dest
  rw [hl] at h
  exact h

theorem strncpy_outside (m : Mem) (dest : Nat) (src : List Nat) (n i : Nat)
    (h : i < dest ∨ dest + n ≤ i) : strncpy m dest src n i = m i := by
  have hl : (src.take n ++ List.replicate (n - src.length) 0).length = n := by
    simp only [List.length_append, List.length_take, List.length_replicate]
    omega
  rcases h with h | h
  · exact Mem.writeList_below _ _ _ _ h
  · exact Mem.writeList_above _ _ _ _ (by rw [hl]; exact h)

/-- What the two statements `strncpy(value, entry_str, value_size - 1); value[value_size - 1]
= 0` of the nested string getters leave in the buffer. -/
theorem strncpy_terminated_read (m : Mem) (value : Nat) (s : List Nat) (n : Nat) :
    Mem.read (Mem.write (strncpy m value s n) (value + n) 0) value (n + 1)
      = s.take n ++ List.replicate (n - s.length) 0 ++ [0] := by
  rw [Mem.read_add]
  have h1 : Mem.read (Mem.write (strncpy m value s n) (value + n) 0) value n
      = Mem.read (strncpy m value s n) value n := by
    apply Mem.read_congr
    intro i _ h2
    simp only [Mem.write]
    rw [if_neg (by omega)]
  rw [h1, strncpy_read]
  simp [Mem.read, Mem.write]

theorem takeWhile_nul_free (s : List Nat) (h0 : 0 ∉ s) (rest : List Nat) :
    (s ++ 0 :: rest).takeWhile (fun b => b != 0) = s := by
  induction s with
  | nil => simp
  | cons x xs ih =>
    have hx : x ≠ 0 := fun h => h0 (by simp [h])
    have hxs : 0 ∉ xs := fun h => h0 (by simp [h])
    have hb : (x != 0) = true := by simpa using hx
    rw [List.cons_append, List.takeWhile_cons, hb, if_pos rfl, ih hxs]

/-- A buffer that holds a string without NUL, followed by at least one NUL, reads back as
that string. -/
theorem cstring_of_read (m : Mem) (a limit : Nat) (s : List Nat) (k : Nat) (tail : List Nat)
    (h0 : 0 ∉ s) (h : Mem.read m a limit = s ++ List.replicate (k + 1) 0 ++ tail) :
    cstring m a limit = s := by
  simp only [cstring, h, List.replicate_succ, List.cons_append, List.append_assoc]
  exact takeWhile_nul_free s h0 _

/-- C19 (refuted on the code): `get_string_entry` and `get_string_entry_from_array` copy with
`strncpy(value, entry_str, value_size)` and store no terminator, so a stored string without
NUL of `value_size` or more characters is read successfully into a buffer whose first
`value_size` bytes are the first `value_size` characters of the string, none of them NUL. -/
theorem get_string_entry_unterminated (self : RAK_BLUES Value) (type s : List Nat)
    (rest : List Value) (m : Mem) (value value_size : Nat)
    (hlen : value_size ≤ s.length) (h0 : 0 ∉ s) :
    (self.note_json.lookup [type] = some (Value.str s) →
      ∃ m1, get_string_entry self type m value value_size = some (true, m1) ∧
        Mem.read m1 value value_size = s.take value_size ∧
        0 ∉ Mem.read m1 value value_size) ∧
    (self.note_json.lookup [type] = some (Value.arr (Value.str s :: rest)) →
      ∃ m1, get_string_entry_from_array self type m value value_size = some (true, m1) ∧
        Mem.read m1 value value_size = s.take value_size ∧
        0 ∉ Mem.read m1 value value_size) := by
  have hr : Mem.read (strncpy m value s value_size) value value_size = s.take value_size := by
    rw [strncpy_read, Nat.sub_eq_zero_of_le hlen]
    simp
  have hz : 0 ∉ s.take value_size := fun h => h0 (List.mem_of_mem_take h)
  constructor
  · intro h
    have hc : has_entry self type = true := by
      rw [has_entry, Value.containsKey_eq_lookup, h]
      rfl
    have hm : self.note_json.member type = Value.str s := by
      rw [Value.member_eq_lookup, h]
      rfl
    refine ⟨strncpy m value s value_size, ?_, hr, by rw [hr]; exact hz⟩
    simp [get_string_entry, hc, hm, Value.asString]
  · intro h
    have hc : has_entry self type = true := by
      rw [has_entry, Value.containsKey_eq_lookup, h]
      rfl
    have hm : self.note_json.member type = Value.arr (Value.str s :: rest) := by
      rw [Value.member_eq_lookup, h]
      rfl
    refine ⟨strncpy m value s value_size, ?_, hr, by rw [hr]; exact hz⟩
    simp [get_string_entry_from_array, hc, hm, Value.asString, Value.element]

/-- C19 at the failing input: the entry "hello" read from `{"k":"hello"}` and from
`{"k":["hello"]}` into a buffer of 3 bytes gives "hel" and no NUL; the nested getter, given
the same string and buffer, gives "he" and the NUL. -/
theorem get_string_entry_unterminated_witness :
    (3 ≤ [104, 101, 108, 108, 111].length ∧ 0 ∉ [104, 101, 108, 108, 111]) ∧
    (∃ m1, get_string_entry ⟨23, Value.obj [([107], Value.str [104, 101, 108, 108, 111])],
        fun _ => 0⟩ [107] (fun _ => 88) 0 3 = some (true, m1) ∧
      Mem.read m1 0 3 = [104, 101, 108]) ∧
    (∃ m1, get_string_entry_from_array
        ⟨23, Value.obj [([107], Value.arr [Value.str [104, 101, 108, 108, 111]])], fun _ => 0⟩
        [107] (fun _ => 88) 0 3 = some (true, m1) ∧
      Mem.read m1 0 3 = [104, 101, 108]) ∧
    (get_nested_string_entry
        ⟨23, Value.obj [([116], Value.obj [([107], Value.str [104, 101, 108, 108, 111])])],
          fun _ => 0⟩ [116] [107] (fun _ => 88) 0 3).map (fun r => (r.1, Mem.read r.2 0 3))
      = some (true, [104, 101, 0]) := by
  obtain ⟨h1, _⟩ := get_string_entry_unterminated
    ⟨23, Value.obj [([107], Value.str [104, 101, 108, 108, 111])], fun _ => 0⟩ [107]
    [104, 101, 108, 108, 111] [] (fun _ => 88) 0 3 (by decide) (by decide)
  obtain ⟨_, h2⟩ := get_string_entry_unterminated
    ⟨23, Value.obj [([107], Value.arr [Value.str [104, 101, 108, 108, 111]])], fun _ => 0⟩ [107]
    [104, 101, 108, 108, 111] [] (fun _ => 88) 0 3 (by decide) (by decide)
  obtain ⟨m1, e1, r1, _⟩ := h1 rfl
  obtain ⟨m2, e2, r2, _⟩ := h2 rfl
  exact ⟨⟨by decide, by decide⟩, ⟨m1, e1, r1⟩, ⟨m2, e2, r2⟩, by decide⟩

/-! ## Writing and reading back -/

theorem get_bool_entry_of_lookup (C : Conversions) (self : RAK_BLUES Value)
    (type : List Nat) (v old : Bool)
    (h : self.note_json.lookup [type] = some (Value.bool v)) :
    get_bool_entry C self type old = (true, v) := by
  simp [get_bool_entry, has_entry, Value.containsKey_eq_lookup, Value.member_eq_lookup, h, Value.asBool]

theorem get_int32_entry_of_lookup (C : Conversions) (self : RAK_BLUES Value)
    (type : List Nat) (v old : Int)
    (h : self.note_json.lookup [type] = some (Value.int32 v)) :
    get_int32_entry C self type old = (true, v) := by
  simp [get_int32_entry, has_entry, Value.containsKey_eq_lookup, Value.member_eq_lookup, h, Value.asInt32]

theorem get_uint32_entry_of_lookup (C : Conversions) (self : RAK_BLUES Value)
    (type : List Nat) (v old : Nat)
    (h : self.note_json.lookup [type] = some (Value.uint32 v)) :
    get_uint32_entry C self type old = (true, v) := by
  simp [get_uint32_entry, has_entry, Value.containsKey_eq_lookup, Value.member_eq_lookup, h, Value.asUInt32]

theorem get_string_entry_of_lookup (self : RAK_BLUES Value) (type s : List Nat) (m : Mem)
    (value value_size : Nat) (h : self.note_json.lookup [type] = some (Value.str s)) :
    get_string_entry self type m value value_size
      = some (true, strncpy m value s value_size) := by
  simp [get_string_entry, has_entry, Value.containsKey_eq_lookup, Value.member_eq_lookup, h,
    Value.asString]

theorem get_nested_bool_entry_of_lookup (C : Conversions) (self : RAK_BLUES Value)
    (type nested : List Nat) (v old : Bool)
    (h : self.note_json.lookup [type, nested] = some (Value.bool v)) :
    get_nested_bool_entry C self type nested old = (true, v) := by
  simp [get_nested_bool_entry, Value.containsKey_member_eq_lookup, Value.member_member_eq_lookup, h, Value.asBool]

theorem get_nested_int32_entry_of_lookup (C : Conversions) (self : RAK_BLUES Value)
    (type nested : List Nat) (v old : Int)
    (h : self.note_json.lookup [type, nested] = some (Value.int32 v)) :
    get_nested_int32_entry C self type nested old = (true, v) := by
  simp [get_nested_int32_entry, Value.containsKey_member_eq_lookup, Value.member_member_eq_lookup, h, Value.asInt32]

theorem get_nested_uint32_entry_of_lookup (C : Conversions) (self : RAK_BLUES Value)
    (type nested : List Nat) (v old : Nat)
    (h : self.note_json.lookup [type, nested] = some (Value.uint32 v)) :
    get_nested_uint32_entry C self type nested old = (true, v) := by
  simp [get_nested_uint32_entry, Value.containsKey_member_eq_lookup, Value.member_member_eq_lookup, h, Value.asUInt32]

theorem get_nested_string_entry_of_lookup (self : RAK_BLUES Value)
    (type nested s : List Nat) (m : Mem) (value value_size : Nat) (hv : 0 < value_size)
    (h : self.note_json.lookup [type, nested] = some (Value.str s)) :
    get_nested_string_entry self type nested m value value_size
      = some (true, Mem.write (strncpy m value s (value_size - 1))
          (value + (value_size - 1)) 0) := by
  have hv0 : value_size ≠ 0 := by omega
  simp [get_nested_string_entry, Value.containsKey_member_eq_lookup, Value.member_member_eq_lookup, h, Value.asString, hv0]

theorem get_2lv_nested_bool_entry_of_lookup (C : Conversions) (self : RAK_BLUES Value)
    (type nested nested2 : List Nat) (v old : Bool)
    (h : self.note_json.lookup [type, nested, nested2] = some (Value.bool v)) :
    get_2lv_nested_bool_entry C self type nested nested2 old = (true, v) := by
  simp [get_2lv_nested_bool_entry, Value.containsKey_member2_eq_lookup, Value.member3_eq_lookup, h, Value.asBool]

theorem get_2lv_nested_int32_entry_of_lookup (C : Conversions) (self : RAK_BLUES Value)
    (type nested nested2 : List Nat) (v old : Int)
    (h : self.note_json.lookup [type, nested, nested2] = some (Value.int32 v)) :
    get_2lv_nested_int32_entry C self type nested nested2 old = (true, v) := by
  simp [get_2lv_nested_int32_entry, Value.containsKey_member2_eq_lookup, Value.member3_eq_lookup, h, Value.asInt32]

theorem get_2lv_nested_uint32_entry_of_lookup (C : Conversions) (self : RAK_BLUES Value)
    (type nested nested2 : List Nat) (v old : Nat)
    (h : self.note_json.lookup [type, nested, nested2] = some (Value.uint32 v)) :
    get_2lv_nested_uint32_entry C self type nested nested2 old = (true, v) := by
  simp [get_2lv_nested_uint32_entry, Value.containsKey_member2_eq_lookup, Value.member3_eq_lookup, h, Value.asUInt32]

theorem get_2lv_nested_string_entry_of_lookup (self : RAK_BLUES Value)
    (type nested nested2 s : List Nat) (m : Mem) (value value_size : Nat) (hv : 0 < value_size)
    (h : self.note_json.lookup [type, nested, nested2] = some (Value.str s)) :
    get_2lv_nested_string_entry self type nested nested2 m value value_size
      = some (true, Mem.write (strncpy m value s (value_size - 1))
          (value + (value_size - 1)) 0) := by
  have hv0 : value_size ≠ 0 := by omega
  simp [get_2lv_nested_string_entry, Value.containsKey_member2_eq_lookup, Value.member3_eq_lookup, h, Value.asString, hv0]

/-- A string without NUL that fits the buffer with its terminator is read back whole by
`strncpy(value, s, value_size)`. -/
theorem cstring_strncpy (m : Mem) (value value_size : Nat) (s : List Nat) (h0 : 0 ∉ s)
    (hcap : s.length < value_size) :
    cstring (strncpy m value s value_size) value value_size = s := by
  apply cstring_of_read _ _ _ s (value_size - s.length - 1) [] h0
  rw [strncpy_read, List.take_of_length_le (by omega), List.append_nil]
  congr 2
  omega

/-- A string without NUL that fits the buffer with its terminator is read back whole by
the nested string getters. -/
theorem cstring_strncpy_terminated (m : Mem) (value value_size : Nat) (s : List Nat)
    (h0 : 0 ∉ s) (hcap : s.length < value_size) :
    cstring (Mem.write (strncpy m value s (value_size - 1)) (value + (value_size - 1)) 0)
      value value_size = s := by
  apply cstring_of_read _ _ _ s (value_size - 1 - s.length) [] h0
  have h := strncpy_terminated_read m value s (value_size - 1)
  rw [Nat.sub_add_cancel (by omega)] at h
  rw [h, List.take_of_length_le (by omega), List.append_nil, List.append_assoc]
  congr 1
  rw [List.replicate_succ']

/-- C20 (amended): in a document in which every level above the written key is missing,
null or an object (the document itself included), after `add_*_entry`, `add_nested_*_entry`
or `add_2lv_nested_*_entry` of a string, bool, int32 or uint32 the presence check for the
path is true and the matching getter returns true with the value written, whatever the key
held before and whether or not the levels above existed; a string is read back whole when it
has no NUL and fits the buffer with its terminator. In every document, the value at every
path that neither leads to the written key nor lies below it is unchanged. -/
theorem add_get_round_trip (C : Conversions) (self : RAK_BLUES Value)
    (type nested nested2 s : List Nat) (b : Bool) (i : Int) (u : Nat)
    (m : Mem) (value value_size : Nat) (bb : Bool) (ii : Int) (uu : Nat)
    (hs : 0 ∉ s) (hcap : s.length < value_size) :
    (Value.writable self.note_json [type] = true →
      has_entry (add_string_entry self type s) type = true ∧
      (∃ m1, get_string_entry (add_string_entry self type s) type m value
          value_size = some (true, m1) ∧
        cstring m1 value value_size = s) ∧
      has_entry (add_bool_entry self type b) type = true ∧
      get_bool_entry C (add_bool_entry self type b) type bb
        = (true, b) ∧
      has_entry (add_int32_entry self type i) type = true ∧
      get_int32_entry C (add_int32_entry self type i) type ii
        = (true, i) ∧
      has_entry (add_uint32_entry self type u) type = true ∧
      get_uint32_entry C (add_uint32_entry self type u) type uu
        = (true, u)) ∧
    (Value.writable self.note_json [type, nested] = true →
      has_nested_entry (add_nested_string_entry self type nested s) type nested = true ∧
      (∃ m1, get_nested_string_entry (add_nested_string_entry self type nested s) type nested m
          value
          value_size = some (true, m1) ∧
        cstring m1 value value_size = s) ∧
      has_nested_entry (add_nested_bool_entry self type nested b) type nested = true ∧
      get_nested_bool_entry C (add_nested_bool_entry self type nested b) type nested bb
        = (true, b) ∧
      has_nested_entry (add_nested_int32_entry self type nested i) type nested = true ∧
      get_nested_int32_entry C (add_nested_int32_entry self type nested i) type nested ii
        = (true, i) ∧
      has_nested_entry (add_nested_uint32_entry self type nested u) type nested = true ∧
      get_nested_uint32_entry C (add_nested_uint32_entry self type nested u) type nested uu
        = (true, u)) ∧
    (Value.writable self.note_json [type, nested, nested2] = true →
      ((add_2lv_nested_string_entry self type nested nested2 s).note_json.lookup [type, nested,
          nested2]).isSome = true ∧
      (∃ m1, get_2lv_nested_string_entry (add_2lv_nested_string_entry self type nested nested2 s)
          type nested nested2 m value
          value_size = some (true, m1) ∧
        cstring m1 value value_size = s) ∧
      ((add_2lv_nested_bool_entry self type nested nested2 b).note_json.lookup [type, nested,
          nested2]).isSome = true ∧
      get_2lv_nested_bool_entry C (add_2lv_nested_bool_entry self type nested nested2 b) type
          nested nested2 bb
        = (true, b) ∧
      ((add_2lv_nested_int32_entry self type nested nested2 i).note_json.lookup [type, nested,
          nested2]).isSome = true ∧
      get_2lv_nested_int32_entry C (add_2lv_nested_int32_entry self type nested nested2 i) type
          nested nested2 ii
        = (true, i) ∧
      ((add_2lv_nested_uint32_entry self type nested nested2 u).note_json.lookup [type, nested,
          nested2]).isSome = true ∧
      get_2lv_nested_uint32_entry C (add_2lv_nested_uint32_entry self type nested nested2 u) type
          nested nested2 uu
        = (true, u)) ∧
    (∀ doc ∈ [(add_string_entry self type s).note_json,
        (add_bool_entry self type b).note_json,
        (add_int32_entry self type i).note_json,
        (add_uint32_entry self type u).note_json],
      ∀ other, ¬ [type] <+: other → ¬ other <+: [type] →
        Value.lookup doc other = self.note_json.lookup other) ∧
    (∀ doc ∈ [(add_nested_string_entry self type nested s).note_json,
        (add_nested_bool_entry self type nested b).note_json,
        (add_nested_int32_entry self type nested i).note_json,
        (add_nested_uint32_entry self type nested u).note_json],
      ∀ other, ¬ [type, nested] <+: other → ¬ other <+: [type, nested] →
        Value.lookup doc other = self.note_json.lookup other) ∧
    (∀ doc ∈ [(add_2lv_nested_string_entry self type nested nested2 s).note_json,
        (add_2lv_nested_bool_entry self type nested nested2 b).note_json,
        (add_2lv_nested_int32_entry self type nested nested2 i).note_json,
        (add_2lv_nested_uint32_entry self type nested nested2 u).note_json],
      ∀ other, ¬ [type, nested, nested2] <+: other → ¬ other <+: [type, nested, nested2] →
        Value.lookup doc other = self.note_json.lookup other) := by
  refine ⟨?_, ?_, ?_, ?_, ?_, ?_⟩
  · intro hw
    have hS : (add_string_entry self type s).note_json.lookup [type]
        = some (Value.str s) := Value.lookup_writeAt _ _ _ hw
    have hB : (add_bool_entry self type b).note_json.lookup [type]
        = some (Value.bool b) := Value.lookup_writeAt _ _ _ hw
    have hI : (add_int32_entry self type i).note_json.lookup [type]
        = some (Value.int32 i) := Value.lookup_writeAt _ _ _ hw
    have hU : (add_uint32_entry self type u).note_json.lookup [type]
        = some (Value.uint32 u) := Value.lookup_writeAt _ _ _ hw
    exact ⟨by simp [has_entry, Value.containsKey_eq_lookup, hS],
      ⟨_, get_string_entry_of_lookup _ type s m value value_size hS,
        cstring_strncpy m value value_size s hs hcap⟩,
      by simp [has_entry, Value.containsKey_eq_lookup, hB], get_bool_entry_of_lookup C _ type b
          bb hB,
      by simp [has_entry, Value.containsKey_eq_lookup, hI], get_int32_entry_of_lookup C _ type i
          ii hI,
      by simp [has_entry, Value.containsKey_eq_lookup, hU], get_uint32_entry_of_lookup C _ type u
          uu hU⟩
  · intro hw
    have hS : (add_nested_string_entry self type nested s).note_json.lookup [type, nested]
        = some (Value.str s) := Value.lookup_writeAt _ _ _ hw
    have hB : (add_nested_bool_entry self type nested b).note_json.lookup [type, nested]
        = some (Value.bool b) := Value.lookup_writeAt _ _ _ hw
    have hI : (add_nested_int32_entry self type nested i).note_json.lookup [type, nested]
        = some (Value.int32 i) := Value.lookup_writeAt _ _ _ hw
    have hU : (add_nested_uint32_entry self type nested u).note_json.lookup [type, nested]
        = some (Value.uint32 u) := Value.lookup_writeAt _ _ _ hw
    exact ⟨by simp [has_nested_entry, Value.containsKey_member_eq_lookup, hS],
      ⟨_, get_nested_string_entry_of_lookup _ type nested s m value value_size (by omega) hS,
        cstring_strncpy_terminated m value value_size s hs hcap⟩,
      by simp [has_nested_entry, Value.containsKey_member_eq_lookup, hB],
          get_nested_bool_entry_of_lookup C _ type nested b bb hB,
      by simp [has_nested_entry, Value.containsKey_member_eq_lookup, hI],
          get_nested_int32_entry_of_lookup C _ type nested i ii hI,
      by simp [has_nested_entry, Value.containsKey_member_eq_lookup, hU],
          get_nested_uint32_entry_of_lookup C _ type nested u uu hU⟩
  · intro hw
    have hS : (add_2lv_nested_string_entry self type nested nested2 s).note_json.lookup [type,
        nested, nested2]
        = some (Value.str s) := Value.lookup_writeAt _ _ _ hw
    have hB : (add_2lv_nested_bool_entry self type nested nested2 b).note_json.lookup [type,
        nested, nested2]
        = some (Value.bool b) := Value.lookup_writeAt _ _ _ hw
    have hI : (add_2lv_nested_int32_entry self type nested nested2 i).note_json.lookup [type,
        nested, nested2]
        = some (Value.int32 i) := Value.lookup_writeAt _ _ _ hw
    have hU : (add_2lv_nested_uint32_entry self type nested nested2 u).note_json.lookup [type,
        nested, nested2]
        = some (Value.uint32 u) := Value.lookup_writeAt _ _ _ hw
    exact ⟨by simp [hS],
      ⟨_, get_2lv_nested_string_entry_of_lookup _ type nested nested2 s m value value_size (by
          omega) hS,
        cstring_strncpy_terminated m value value_size s hs hcap⟩,
      by simp [hB], get_2lv_nested_bool_entry_of_lookup C _ type nested nested2 b bb hB,
      by simp [hI], get_2lv_nested_int32_entry_of_lookup C _ type nested nested2 i ii hI,
      by simp [hU], get_2lv_nested_uint32_entry_of_lookup C _ type nested nested2 u uu hU⟩
  · intro doc hd other h1 h2
    simp only [List.mem_cons, List.mem_singleton, List.not_mem_nil, or_false] at hd
    rcases hd with rfl | rfl | rfl | rfl <;>
      exact Value.lookup_writeAt_other _ [type] other _ h1 h2
  · intro doc hd other h1 h2
    simp only [List.mem_cons, List.mem_singleton, List.not_mem_nil, or_false] at hd
    rcases hd with rfl | rfl | rfl | rfl <;>
      exact Value.lookup_writeAt_other _ [type, nested] other _ h1 h2
  · intro doc hd other h1 h2
    simp only [List.mem_cons, List.mem_singleton, List.not_mem_nil, or_false] at hd
    rcases hd with rfl | rfl | rfl | rfl <;>
      exact Value.lookup_writeAt_other _ [type, nested, nested2] other _ h1 h2

/-- C20 at a concrete input: in the document `{"a":{"b":1}}`, the entry `"a"`, `"b"` is
overwritten with 5 and read back, the levels `"c"`, `"d"` are created for the entry `"c"`,
`"d"`, `"e"`, and the string "hi" is read back from the entry `"s"`. -/
theorem add_get_round_trip_witness :
    (0 ∉ [104, 105] ∧ [104, 105].length < 8) ∧
    get_nested_int32_entry zeroConversions
      (add_nested_int32_entry ⟨23, Value.obj [([97], Value.obj [([98], Value.int32 1)])],
        fun _ => 0⟩ [97] [98] 5) [97] [98] 7 = (true, 5) ∧
    get_2lv_nested_uint32_entry zeroConversions
      (add_2lv_nested_uint32_entry ⟨23, Value.obj [([97], Value.obj [([98], Value.int32 1)])],
        fun _ => 0⟩ [99] [100] [101] 9) [99] [100] [101] 7 = (true, 9) ∧
    (∃ m1, get_string_entry
        (add_string_entry ⟨23, Value.obj [([97], Value.obj [([98], Value.int32 1)])],
          fun _ => 0⟩ [115] [104, 105]) [115] (fun _ => 88) 0 8 = some (true, m1) ∧
      cstring m1 0 8 = [104, 105]) := by
  obtain ⟨h1, h2, _, _, _, _⟩ := add_get_round_trip zeroConversions
    ⟨23, Value.obj [([97], Value.obj [([98], Value.int32 1)])], fun _ => 0⟩
    [97] [98] [0] [104, 105] true 5 9 (fun _ => 88) 0 8 false 7 7 (by decide) (by decide)
  obtain ⟨_, _, h3, _, _, _⟩ := add_get_round_trip zeroConversions
    ⟨23, Value.obj [([97], Value.obj [([98], Value.int32 1)])], fun _ => 0⟩
    [99] [100] [101] [104, 105] true 5 9 (fun _ => 88) 0 8 false 7 7 (by decide) (by decide)
  obtain ⟨h4, _, _, _, _, _⟩ := add_get_round_trip zeroConversions
    ⟨23, Value.obj [([97], Value.obj [([98], Value.int32 1)])], fun _ => 0⟩
    [115] [0] [0] [104, 105] true 5 9 (fun _ => 88) 0 8 false 7 7 (by decide) (by decide)
  exact ⟨⟨by decide, by decide⟩, (h2 rfl).2.2.2.2.2.1, (h3 rfl).2.2.2.2.2.2.2, (h4 rfl).2.1⟩

/-- C20 as stated fails: in the document `{"a":true}` the write of 5 at `"a"`, `"b"` finds
`"a"` holding a bool, which has no members, and is dropped: the presence check is false and
the getter returns false; likewise the write of 5 at `"a"` in a document that is the array
`[]`. -/
theorem add_nested_through_scalar_dropped :
    has_nested_entry
      (add_nested_int32_entry ⟨23, Value.obj [([97], Value.bool true)], fun _ => 0⟩
        [97] [98] 5) [97] [98] = false ∧
    get_nested_int32_entry zeroConversions
      (add_nested_int32_entry ⟨23, Value.obj [([97], Value.bool true)], fun _ => 0⟩
        [97] [98] 5) [97] [98] 7 = (false, 7) ∧
    has_entry (add_int32_entry ⟨23, Value.arr [], fun _ => 0⟩ [97] 5) [97] = false ∧
    get_int32_entry zeroConversions (add_int32_entry ⟨23, Value.arr [], fun _ => 0⟩ [97] 5)
      [97] 7 = (false, 7) := by
  decide

/-! ## The document after `send_req` -/

/-- What `send_req` does with the document and the caller's response buffer: on success the
document is what `deserializeJson` reads from the C string in the transaction buffer and the
response buffer receives the serialization of that document; otherwise both are left as
they were. -/
theorem send_req_document (J : Json δ) (W : Platform σ) (rui : Bool) (budget : Nat)
    (self : RAK_BLUES δ) (d : σ) (response : Option (List Nat)) (resp_len : Nat) :
    ((send_req J W rui budget self d response resp_len).ret = some true →
      (send_req J W rui budget self d response resp_len).note_json
        = J.deserializeJson
          (cstring (send_req J W rui budget self d response resp_len).in_out_buff 0
            JSON_BUFF_SIZE) ∧
      (send_req J W rui budget self d response resp_len).response
        = response.map (fun _ => J.serializeJson
          (send_req J W rui budget self d response resp_len).note_json resp_len)) ∧
    ((send_req J W rui budget self d response resp_len).ret ≠ some true →
      (send_req J W rui budget self d response resp_len).note_json = self.note_json ∧
      (send_req J W rui budget self d response resp_len).response = response) := by
  simp only [send_req]
  generalize txLoop W _ _ _ _ _ = t
  rcases t with ⟨o, ts⟩
  rcases o with _ | b
  · simp
  · cases b
    · simp
    · simp only
      generalize rxLoop W _ _ _ budget _ = r
      rcases r with ⟨e, st⟩
      cases e <;> simp

theorem rxCopy_outside (W : Platform σ) (b : Nat) :
    ∀ (n i : Nat) (rest : List Nat) (m : Mem) (d : σ) (j : Nat),
      j < b + i ∨ b + i + n ≤ j → (rxCopy W b n i rest m d).1 j = m j := by
  intro n
  induction n with
  | zero => intro i rest m d j _; rfl
  | succ n ih =>
    intro i rest m d j h
    simp only [rxCopy]
    rw [ih (i + 1) _ _ _ j (by omega)]
    simp only [Mem.write]
    rw [if_neg (by omega)]

/-- A receive call stores nothing outside `buffer_[0..requested_byte_count_)`. -/
theorem blues_I2C_RX_outside (W : Platform σ) (d : σ) (a : Nat) (m : Mem) (p r v j : Nat)
    (h : j < p ∨ p + r ≤ j) : (blues_I2C_RX W d a m p r v).mem j = m j := by
  simp only [blues_I2C_RX]
  split_ifs <;> first | rfl | exact rxCopy_outside W p r 0 _ m _ j (by omega)

/-- The receive loop, unless it is left on a failed receive call, has stored nothing at or
beyond the final `jsonbufLen`, which it never decreases. -/
theorem rxLoop_tail (W : Platform σ) (B a t : Nat) : ∀ (n : Nat) (s : RxState σ),
    (rxLoop W B a t n s).1 ≠ RxExit.rxError →
      s.jsonbufLen ≤ (rxLoop W B a t n s).2.jsonbufLen ∧
      ∀ j, (rxLoop W B a t n s).2.jsonbufLen ≤ j →
        (rxLoop W B a t n s).2.jsonbuf j = s.jsonbuf j := by
  intro n
  induction n with
  | zero => intro s _; exact ⟨le_refl _, fun _ _ => rfl⟩
  | succ n ih =>
    intro s
    have hnext : ∀ j, s.jsonbufLen + s.chunkLen ≤ j →
        (rxNext W B a s).jsonbuf j = s.jsonbuf j := by
      intro j hj
      exact blues_I2C_RX_outside W _ a s.jsonbuf s.jsonbufLen s.chunkLen _ j (Or.inr hj)
    have hlen : (rxNext W B a s).jsonbufLen = s.jsonbufLen + s.chunkLen := rfl
    have hrec : ∀ s2 : RxState σ, s2.jsonbufLen = s.jsonbufLen + s.chunkLen →
        s2.jsonbuf = (rxNext W B a s).jsonbuf →
        (rxLoop W B a t n s2).1 ≠ RxExit.rxError →
        s.jsonbufLen ≤ (rxLoop W B a t n s2).2.jsonbufLen ∧
        ∀ j, (rxLoop W B a t n s2).2.jsonbufLen ≤ j →
          (rxLoop W B a t n s2).2.jsonbuf j = s.jsonbuf j := by
      intro s2 h1 h2 h3
      obtain ⟨i1, i2⟩ := ih s2 h3
      refine ⟨by omega, fun j hj => ?_⟩
      rw [i2 j hj, h2]
      exact hnext j (by omega)
    rw [rxLoop_succ]
    split_ifs with h1 h2 h3 h4
    · intro h
      exact absurd rfl h
    · exact hrec _ hlen rfl
    · intro _
      exact ⟨by rw [hlen]; omega, fun j hj => hnext j (by rw [hlen] at hj; exact hj)⟩
    · intro _
      exact ⟨by rw [hlen]; omega, fun j hj => hnext j (by rw [hlen] at hj; exact hj)⟩
    · exact hrec _ hlen rfl

theorem Mem.read_eq_replicate (m : Mem) (c : Nat) : ∀ (n a : Nat),
    (∀ i, a ≤ i → i < a + n → m i = c) → Mem.read m a n = List.replicate n c := by
  intro n
  induction n with
  | zero => intro a _; rfl
  | succ n ih =>
    intro a h
    simp only [Mem.read, List.replicate_succ]
    rw [h a (le_refl a) (by omega), ih (a + 1) (fun i h1 h2 => h i (by omega) (by omega))]

theorem takeWhile_append_zeros (xs : List Nat) (k : Nat) :
    (xs ++ List.replicate k 0).takeWhile (fun b => b != 0)
      = xs.takeWhile (fun b => b != 0) := by
  induction xs with
  | nil => cases k <;> simp [List.replicate_succ]
  | cons x xs ih =>
    rw [List.cons_append, List.takeWhile_cons, List.takeWhile_cons, ih]

/-- After a `send_req` that returned true with at most 4096 bytes reassembled, the first 4096
bytes of the buffer read as a C string are the reassembled bytes up to their first NUL: the
buffer was zeroed before the receive loop and nothing was stored beyond the reassembled
bytes. -/
theorem send_req_text (J : Json δ) (W : Platform σ) (rui : Bool) (budget : Nat)
    (self : RAK_BLUES δ) (d : σ) (response : Option (List Nat)) (resp_len : Nat)
    (hret : (send_req J W rui budget self d response resp_len).ret = some true)
    (hcap : (send_req J W rui budget self d response resp_len).jsonbufLen ≤ JSON_BUFF_SIZE) :
    cstring (send_req J W rui budget self d response resp_len).in_out_buff 0 JSON_BUFF_SIZE
      = cstring (send_req J W rui budget self d response resp_len).in_out_buff 0
          (send_req J W rui budget self d response resp_len).jsonbufLen := by
  obtain ⟨htx, hex⟩ := send_req_true J W rui budget self d response resp_len hret
  obtain ⟨_, _, _, _, s5, s6, _, _⟩ :=
    send_req_rx J W rui budget self d response resp_len htx
  have hne : (rxPhase J W rui budget self d).1 ≠ RxExit.rxError := by
    rcases hex with h | h <;> rw [h] <;> simp
  rw [s6] at hcap
  rw [s5, s6]
  simp only [rxPhase] at hne hcap ⊢
  obtain ⟨_, htail⟩ := rxLoop_tail W _ _ _ budget _ hne
  generalize rxLoop W _ _ _ budget _ = r at hcap htail ⊢
  have hz : Mem.read r.2.jsonbuf r.2.jsonbufLen (JSON_BUFF_SIZE - r.2.jsonbufLen)
      = List.replicate (JSON_BUFF_SIZE - r.2.jsonbufLen) 0 := by
    apply Mem.read_eq_replicate
    intro i h1 h2
    rw [htail i h1]
    simp only [memset]
    rw [if_pos (by omega)]
  have hsplit : JSON_BUFF_SIZE = r.2.jsonbufLen + (JSON_BUFF_SIZE - r.2.jsonbufLen) := by
    omega
  simp only [cstring]
  conv_lhs => rw [hsplit]
  rw [Mem.read_add, Nat.zero_add, hz, takeWhile_append_zeros]

theorem takeWhile_append_zero (xs ys : List Nat) :
    (xs ++ 0 :: ys).takeWhile (fun b => b != 0) = xs.takeWhile (fun b => b != 0) := by
  induction xs with
  | nil => simp
  | cons x xs ih => rw [List.cons_append, List.takeWhile_cons, List.takeWhile_cons, ih]

/-- A C string that ends at a NUL is the same however far beyond the NUL the scan may go. -/
theorem cstring_of_nul (m : Mem) (a k n : Nat) (h : m (a + k) = 0) (hn : k ≤ n) :
    cstring m a n = cstring m a k := by
  rcases Nat.eq_or_lt_of_le hn with heq | hlt
  · rw [heq]
  · obtain ⟨j, rfl⟩ : ∃ j, n = k + (j + 1) := ⟨n - k - 1, by omega⟩
    simp only [cstring]
    rw [Mem.read_add]
    simp only [Mem.read]
    rw [h, takeWhile_append_zero]

/-- After a `send_req` that returned true with fewer than 4096 bytes reassembled, a NUL
follows the reassembled bytes inside the transaction buffer (the buffer was zeroed before
the receive loop and nothing was stored beyond them). So the C string that
`deserializeJson` is handed at `in_out_buff` ends inside the buffer, and is the reassembled
bytes up to their first NUL however far the scan could go. -/
theorem send_req_text_ends (J : Json δ) (W : Platform σ) (rui : Bool) (budget : Nat)
    (self : RAK_BLUES δ) (d : σ) (response : Option (List Nat)) (resp_len : Nat)
    (hret : (send_req J W rui budget self d response resp_len).ret = some true)
    (hcap : (send_req J W rui budget self d response resp_len).jsonbufLen < JSON_BUFF_SIZE) :
    (send_req J W rui budget self d response resp_len).in_out_buff
      (send_req J W rui budget self d response resp_len).jsonbufLen = 0 ∧
    ∀ n, (send_req J W rui budget self d response resp_len).jsonbufLen ≤ n →
      cstring (send_req J W rui budget self d response resp_len).in_out_buff 0 n
        = cstring (send_req J W rui budget self d response resp_len).in_out_buff 0
            (send_req J W rui budget self d response resp_len).jsonbufLen := by
  have hnul : (send_req J W rui budget self d response resp_len).in_out_buff
      (send_req J W rui budget self d response resp_len).jsonbufLen = 0 := by
    obtain ⟨htx, hex⟩ := send_req_true J W rui budget self d response resp_len hret
    obtain ⟨_, _, _, _, s5, s6, _, _⟩ :=
      send_req_rx J W rui budget self d response resp_len htx
    have hne : (rxPhase J W rui budget self d).1 ≠ RxExit.rxError := by
      rcases hex with h | h <;> rw [h] <;> simp
    rw [s6] at hcap
    rw [s5, s6]
    simp only [rxPhase] at hne hcap ⊢
    obtain ⟨_, htail⟩ := rxLoop_tail W _ _ _ budget _ hne
    generalize rxLoop W _ _ _ budget _ = r at hcap htail ⊢
    rw [htail _ (le_refl _)]
    simp only [memset]
    rw [if_pos hcap]
  refine ⟨hnul, fun n hn => ?_⟩
  exact cstring_of_nul _ 0 _ n (by rw [Nat.zero_add]; exact hnul) hn

/-- C15 (amended): when `send_req` returns true with a non-NULL `response`, the text written
to `response` is the serialization `serializeJson(note_json, response, resp_len)` of the
document that was parsed from the received text, which is at most `resp_len` characters for
a library that keeps to the capacity; with a NULL `response` nothing is copied, and when
`send_req` does not return true `response` is left as it was. The received text is the
reassembled bytes up to their first NUL; this is stated for exchanges that reassembled fewer
than 4096 bytes, after which a NUL follows these bytes inside the transaction buffer and the
C string handed to `deserializeJson` ends there. -/
theorem send_req_response_copy (J : Json δ) (W : Platform σ) (rui : Bool) (budget : Nat)
    (self : RAK_BLUES δ) (d : σ) (response : Option (List Nat)) (resp_len : Nat) :
    ((send_req J W rui budget self d response resp_len).ret = some true →
      (send_req J W rui budget self d response resp_len).jsonbufLen < JSON_BUFF_SIZE →
      (send_req J W rui budget self d response resp_len).in_out_buff
        (send_req J W rui budget self d response resp_len).jsonbufLen = 0 ∧
      (send_req J W rui budget self d response resp_len).response
        = response.map (fun _ => J.serializeJson (J.deserializeJson
            (cstring (send_req J W rui budget self d response resp_len).in_out_buff 0
              (send_req J W rui budget self d response resp_len).jsonbufLen)) resp_len)) ∧
    ((send_req J W rui budget self d response resp_len).ret = some true →
      (∀ doc capacity, (J.serializeJson doc capacity).length ≤ capacity) →
      ∀ text, (send_req J W rui budget self d response resp_len).response = some text →
        text.length ≤ resp_len) ∧
    (response = none → (send_req J W rui budget self d response resp_len).response = none) ∧
    ((send_req J W rui budget self d response resp_len).ret ≠ some true →
      (send_req J W rui budget self d response resp_len).response = response) := by
  obtain ⟨h1, h2⟩ := send_req_document J W rui budget self d response resp_len
  refine ⟨?_, ?_, ?_, fun h => (h2 h).2⟩
  · intro h hlt
    obtain ⟨e1, e2⟩ := h1 h
    obtain ⟨z1, z2⟩ := send_req_text_ends J W rui budget self d response resp_len h hlt
    refine ⟨z1, ?_⟩
    rw [e2, e1, z2 JSON_BUFF_SIZE (le_of_lt hlt)]
  · intro h hcap text ht
    rw [(h1 h).2] at ht
    cases response with
    | none => simp at ht
    | some old =>
      simp only [Option.map_some', Option.some.injEq] at ht
      rw [← ht]
      exact hcap _ _
  · intro hn
    by_cases h : (send_req J W rui budget self d response resp_len).ret = some true
    · rw [(h1 h).2, hn]
      rfl
    · rw [(h2 h).2, hn]

/-- C15 at a concrete input: the response `{"err":"x"}` and a newline, 12 bytes, received by
the small document library into a caller buffer of 64 bytes. -/
theorem send_req_response_copy_witness :
    (send_req flatJson scriptedBus false 3
      { _deviceAddress := 23, note_json := Value.obj [(reqKey, Value.str [97])],
        in_out_buff := fun _ => 0 }
      (Script.mk [] [frame 12 [], frame 0 errResponse] 0) (some []) 64).jsonbufLen
      < JSON_BUFF_SIZE ∧
    (send_req flatJson scriptedBus false 3
      { _deviceAddress := 23, note_json := Value.obj [(reqKey, Value.str [97])],
        in_out_buff := fun _ => 0 }
      (Script.mk [] [frame 12 [], frame 0 errResponse] 0) (some []) 64).response
      = some [123, 34, 101, 114, 114, 34, 58, 34, 120, 34, 125] := by
  refine ⟨by decide, ?_⟩
  rw [((send_req_response_copy flatJson scriptedBus false 3
    { _deviceAddress := 23, note_json := Value.obj [(reqKey, Value.str [97])],
      in_out_buff := fun _ => 0 }
    (Script.mk [] [frame 12 [], frame 0 errResponse] 0) (some []) 64).1 (by decide)
    (by decide)).2]
  decide

/-- C15 as stated fails: the card sends `{"err":"x"}` and a newline, 12 bytes, which are
reassembled in the transaction buffer; `response` receives the 11 characters of the parsed
document printed again, without the newline. When the card sends `x` and a newline, which is
not JSON, `response` receives `null`. -/
theorem send_req_response_not_raw :
    ((send_req flatJson scriptedBus false 3
      { _deviceAddress := 23, note_json := Value.obj [(reqKey, Value.str [97])],
        in_out_buff := fun _ => 0 }
      (Script.mk [] [frame 12 [], frame 0 errResponse] 0) (some []) 64).ret = some true ∧
    (send_req flatJson scriptedBus false 3
      { _deviceAddress := 23, note_json := Value.obj [(reqKey, Value.str [97])],
        in_out_buff := fun _ => 0 }
      (Script.mk [] [frame 12 [], frame 0 errResponse] 0) (some []) 64).jsonbufLen = 12 ∧
    (Mem.read (send_req flatJson scriptedBus false 3
      { _deviceAddress := 23, note_json := Value.obj [(reqKey, Value.str [97])],
        in_out_buff := fun _ => 0 }
      (Script.mk [] [frame 12 [], frame 0 errResponse] 0) (some []) 64).in_out_buff 0 12).take 64
      = [123, 34, 101, 114, 114, 34, 58, 34, 120, 34, 125, 10] ∧
    (send_req flatJson scriptedBus false 3
      { _deviceAddress := 23, note_json := Value.obj [(reqKey, Value.str [97])],
        in_out_buff := fun _ => 0 }
      (Script.mk [] [frame 12 [], frame 0 errResponse] 0) (some []) 64).response
      = some [123, 34, 101, 114, 114, 34, 58, 34, 120, 34, 125]) ∧
    ((send_req flatJson scriptedBus false 3
      { _deviceAddress := 23, note_json := Value.obj [(reqKey, Value.str [97])],
        in_out_buff := fun _ => 0 }
      (Script.mk [] [frame 2 [], frame 0 [120, 10]] 0) (some []) 64).ret = some true ∧
    (send_req flatJson scriptedBus false 3
      { _deviceAddress := 23, note_json := Value.obj [(reqKey, Value.str [97])],
        in_out_buff := fun _ => 0 }
      (Script.mk [] [frame 2 [], frame 0 [120, 10]] 0) (some []) 64).jsonbufLen = 2 ∧
    (Mem.read (send_req flatJson scriptedBus false 3
      { _deviceAddress := 23, note_json := Value.obj [(reqKey, Value.str [97])],
        in_out_buff := fun _ => 0 }
      (Script.mk [] [frame 2 [], frame 0 [120, 10]] 0) (some []) 64).in_out_buff 0 2).take 64
      = [120, 10] ∧
    (send_req flatJson scriptedBus false 3
      { _deviceAddress := 23, note_json := Value.obj [(reqKey, Value.str [97])],
        in_out_buff := fun _ => 0 }
      (Script.mk [] [frame 2 [], frame 0 [120, 10]] 0) (some []) 64).response
      = some [110, 117, 108, 108]) := by
  decide

/-- The return value and the transaction buffer of `send_req` do not depend on the parser of
the document library. -/
theorem send_req_parser_independent (parse parse2 : List Nat → Option Value)
    (print : Value → List Nat) (W : Platform σ) (rui : Bool) (budget : Nat)
    (self : RAK_BLUES Value) (d : σ) (response : Option (List Nat)) (resp_len : Nat) :
    (send_req (arduinoJson parse2 print) W rui budget self d response resp_len).ret
      = (send_req (arduinoJson parse print) W rui budget self d response resp_len).ret ∧
    (send_req (arduinoJson parse2 print) W rui budget self d response resp_len).in_out_buff
      = (send_req (arduinoJson parse print) W rui budget self d response resp_len).in_out_buff ∧
    (send_req (arduinoJson parse2 print) W rui budget self d response resp_len).jsonbufLen
      = (send_req (arduinoJson parse print) W rui budget self d response resp_len).jsonbufLen := by
  simp only [send_req, arduinoJson]
  generalize txLoop W _ _ _ _ _ = t
  rcases t with ⟨o, ts⟩
  rcases o with _ | b
  · simp
  · cases b
    · simp
    · simp only
      generalize rxLoop W _ _ _ budget _ = r
      rcases r with ⟨e, st⟩
      cases e <;> simp

/-- C16: after a `send_req` that returned true with fewer than 4096 bytes reassembled, the
document is the parse of the reassembled bytes (read as a C string, so up to their first
NUL, which is all of them when they hold no NUL), whatever the document held before: every
key found in it afterwards is a key of the parsed response. When these bytes do not parse,
the document is empty, `has_entry` is false for every key, and the return value is true all
the same: it is the same for every parser. A NUL follows the reassembled bytes inside the
transaction buffer, so the C string handed to `deserializeJson` ends inside the buffer. -/
theorem send_req_deserialize (parse : List Nat → Option Value) (print : Value → List Nat)
    (W : Platform σ) (rui : Bool) (budget : Nat) (self : RAK_BLUES Value) (d : σ)
    (response : Option (List Nat)) (resp_len : Nat)
    (hret : (send_req (arduinoJson parse print) W rui budget self d response resp_len).ret
      = some true)
    (hcap : (send_req (arduinoJson parse print) W rui budget self d response
      resp_len).jsonbufLen < JSON_BUFF_SIZE) :
    (send_req (arduinoJson parse print) W rui budget self d response resp_len).note_json
      = (parse (cstring
          (send_req (arduinoJson parse print) W rui budget self d response resp_len).in_out_buff
          0 (send_req (arduinoJson parse print) W rui budget self d response
            resp_len).jsonbufLen)).getD Value.null ∧
    (0 ∉ Mem.read
        (send_req (arduinoJson parse print) W rui budget self d response resp_len).in_out_buff
        0 (send_req (arduinoJson parse print) W rui budget self d response resp_len).jsonbufLen →
      (send_req (arduinoJson parse print) W rui budget self d response resp_len).note_json
        = (parse (Mem.read
          (send_req (arduinoJson parse print) W rui budget self d response resp_len).in_out_buff
          0 (send_req (arduinoJson parse print) W rui budget self d response
            resp_len).jsonbufLen)).getD Value.null) ∧
    (∀ key, has_entry ((send_req (arduinoJson parse print) W rui budget self d response
        resp_len).after self) key = true →
      ∃ doc, parse (cstring
          (send_req (arduinoJson parse print) W rui budget self d response resp_len).in_out_buff
          0 (send_req (arduinoJson parse print) W rui budget self d response
            resp_len).jsonbufLen) = some doc ∧ doc.containsKey key = true) ∧
    (parse (cstring
        (send_req (arduinoJson parse print) W rui budget self d response resp_len).in_out_buff
        0 (send_req (arduinoJson parse print) W rui budget self d response
          resp_len).jsonbufLen) = none →
      (send_req (arduinoJson parse print) W rui budget self d response resp_len).note_json
        = Value.null ∧
      ∀ key, has_entry ((send_req (arduinoJson parse print) W rui budget self d response
        resp_len).after self) key = false) ∧
    (∀ parse2 : List Nat → Option Value,
      (send_req (arduinoJson parse2 print) W rui budget self d response resp_len).ret
        = some true) ∧
    (send_req (arduinoJson parse print) W rui budget self d response resp_len).in_out_buff
      (send_req (arduinoJson parse print) W rui budget self d response resp_len).jsonbufLen
      = 0 := by
  have hdoc := ((send_req_document (arduinoJson parse print) W rui budget self d response
    resp_len).1 hret).1
  rw [send_req_text _ W rui budget self d response resp_len hret (le_of_lt hcap)] at hdoc
  have hnul := (send_req_text_ends (arduinoJson parse print) W rui budget self d response
    resp_len hret hcap).1
  have hall : ∀ parse2 : List Nat → Option Value,
      (send_req (arduinoJson parse2 print) W rui budget self d response resp_len).ret
        = some true := by
    intro parse2
    rw [(send_req_parser_independent parse parse2 print W rui budget self d response
      resp_len).1]
    exact hret
  generalize send_req (arduinoJson parse print) W rui budget self d response resp_len = R
    at hdoc hret hcap hnul ⊢
  have hdoc' : R.note_json = (parse (cstring R.in_out_buff 0 R.jsonbufLen)).getD Value.null :=
    hdoc
  refine ⟨hdoc', ?_, ?_, ?_, hall, hnul⟩
  · intro h0
    rw [hdoc']
    congr 2
    simp only [cstring]
    rw [List.takeWhile_eq_self_iff]
    intro b hb
    have : b ≠ 0 := fun h => h0 (h ▸ hb)
    simpa using this
  · intro key hk
    simp only [has_entry, SendResult.after] at hk
    rw [hdoc'] at hk
    cases hp : parse (cstring R.in_out_buff 0 R.jsonbufLen) with
    | none =>
      rw [hp] at hk
      simp [Value.containsKey, Value.getMember] at hk
    | some doc =>
      rw [hp] at hk
      exact ⟨doc, rfl, hk⟩
  · intro hp
    have hn : R.note_json = Value.null := by rw [hdoc', hp]; rfl
    refine ⟨hn, fun key => ?_⟩
    simp only [has_entry, SendResult.after, hn]
    rfl

/-- The receive loop against a scripted card that first reports the length of a payload and
then delivers it, ending in a newline, with nothing more available: the loop is left through
the newline-and-drained exit with the payload at the start of the buffer. -/
theorem rxLoop_single_payload (B a t n : Nat) (p : List Nat) (s : RxState Script)
    (hpB : p.length ≤ B) (hB : B ≤ 253) (hbytes : ∀ b ∈ p, b < 256)
    (hnl : p.getLast? = some 10)
    (hc : s.chunkLen = 0) (hj : s.jsonbufLen = 0) (hrn : s.receivedNewline = false)
    (he : s.dev.errs = []) (hr : s.dev.reads = [frame p.length [], frame 0 p]) :
    (rxLoop scriptedBus B a t (n + 2) s).1 = RxExit.drained ∧
    (rxLoop scriptedBus B a t (n + 2) s).2.jsonbuf = Mem.writeList s.jsonbuf 0 p ∧
    (rxLoop scriptedBus B a t (n + 2) s).2.jsonbufLen = p.length := by
  have hne : p ≠ [] := by
    intro h0
    rw [h0] at hnl
    simp at hnl
  have hlen : 0 < p.length := List.length_pos.2 hne
  obtain ⟨r1, r2, r3, r4, r5⟩ := scripted_poll a s p.length [] [frame 0 p] he hr
    (by simp [hc]) (by omega) (by omega)
  have hchunk : (rxNext scriptedBus B a s).chunkLen = p.length := by
    simp only [rxNext, r3]
    omega
  have hstep : rxLoop scriptedBus B a t (n + 1 + 1) s
      = rxLoop scriptedBus B a t (n + 1) (rxNext scriptedBus B a s) := by
    rw [rxLoop_succ, if_neg (by simp [r1]), if_pos (by omega)]
  have hj1 : (rxNext scriptedBus B a s).jsonbufLen = 0 := by
    simp only [rxNext]
    omega
  have hrn1 : (rxNext scriptedBus B a s).receivedNewline = false := by
    simp [rxNext, hrn, hj, hc]
  have hm1 : (rxNext scriptedBus B a s).jsonbuf = s.jsonbuf := by
    simp only [rxNext, r2]
    rfl
  obtain ⟨q1, q2, q3, _, _⟩ := scripted_poll a (rxNext scriptedBus B a s) 0 p [] r4
    (by simpa [rxNext] using r5) hchunk.symm (by omega) (by omega)
  rw [map_mod_of_lt p hbytes, hj1, hm1] at q2
  have hnl2 : (rxPoll scriptedBus a (rxNext scriptedBus B a s)).mem (p.length - 1) = 10 := by
    rw [q2]
    have := Mem.writeList_last p s.jsonbuf 0 10 hnl
    rw [Nat.zero_add] at this
    exact this
  have hchunk2 : (rxNext scriptedBus B a (rxNext scriptedBus B a s)).chunkLen = 0 := by
    have hx : (rxNext scriptedBus B a (rxNext scriptedBus B a s)).chunkLen
        = min (min (rxPoll scriptedBus a (rxNext scriptedBus B a s)).available 65535) B := rfl
    rw [hx, q3]
    simp
  have hlen2 : (rxNext scriptedBus B a (rxNext scriptedBus B a s)).jsonbufLen = p.length := by
    simp only [rxNext] at hj1 hchunk ⊢
    omega
  have hrn2 : (rxNext scriptedBus B a (rxNext scriptedBus B a s)).receivedNewline = true := by
    have e : (rxNext scriptedBus B a s).jsonbufLen + (rxNext scriptedBus B a s).chunkLen
        = p.length := by omega
    have hx : (rxNext scriptedBus B a (rxNext scriptedBus B a s)).receivedNewline
        = ((rxNext scriptedBus B a s).receivedNewline ||
          (decide ((rxNext scriptedBus B a s).jsonbufLen
              + (rxNext scriptedBus B a s).chunkLen > 0) &&
            ((rxPoll scriptedBus a (rxNext scriptedBus B a s)).mem
              ((rxNext scriptedBus B a s).jsonbufLen
                + (rxNext scriptedBus B a s).chunkLen - 1) == 10))) := rfl
    rw [hx, e, hnl2]
    simp [hlen]
  have hstep2 : rxLoop scriptedBus B a t (n + 1) (rxNext scriptedBus B a s)
      = (RxExit.drained, rxNext scriptedBus B a (rxNext scriptedBus B a s)) := by
    rw [rxLoop_succ, if_neg (by simp [q1]), if_neg (by omega), if_pos hrn2]
  rw [hstep, hstep2]
  exact ⟨rfl, q2, hlen2⟩

/-- C14 (refuted on the code): `send_req` never looks into the response. When the card
answers `{"err":"x"}` and a newline, and the document library reads that text as a document
with the key `"err"`, `send_req` returns true, with that document, `"err"` included, as the
new content of `note_json`. -/
theorem send_req_true_on_err_response (parse : List Nat → Option Value)
    (print : Value → List Nat) (rui : Bool) (self : RAK_BLUES Value) (clock budget : Nat)
    (response : Option (List Nat)) (resp_len : Nat) (doc : Value)
    (hparse : parse errResponse = some doc) (herr : doc.containsKey errKey = true) :
    (send_req (arduinoJson parse print) scriptedBus rui (budget + 2) self
      (Script.mk [] [frame 12 [], frame 0 errResponse] clock) response resp_len).ret
      = some true ∧
    Mem.read (send_req (arduinoJson parse print) scriptedBus rui (budget + 2) self
      (Script.mk [] [frame 12 [], frame 0 errResponse] clock) response resp_len).in_out_buff 0
      (send_req (arduinoJson parse print) scriptedBus rui (budget + 2) self
        (Script.mk [] [frame 12 [], frame 0 errResponse] clock) response resp_len).jsonbufLen
      = errResponse ∧
    (send_req (arduinoJson parse print) scriptedBus rui (budget + 2) self
      (Script.mk [] [frame 12 [], frame 0 errResponse] clock) response resp_len).note_json
      = doc ∧
    has_entry ((send_req (arduinoJson parse print) scriptedBus rui (budget + 2) self
      (Script.mk [] [frame 12 [], frame 0 errResponse] clock) response resp_len).after self)
      errKey = true := by
  have he : (Script.mk [] [frame 12 [], frame 0 errResponse] clock).errs = [] := rfl
  have hrd : (Script.mk [] [frame 12 [], frame 0 errResponse] clock).reads
      = [frame errResponse.length [], frame 0 errResponse] := rfl
  generalize Script.mk [] [frame 12 [], frame 0 errResponse] clock = d at he hrd ⊢
  obtain ⟨t1, t2, t3, _⟩ := txPhase_scripted (arduinoJson parse print) rui self d he
  obtain ⟨s1, _, _, _, s5, s6, _, _⟩ := send_req_rx (arduinoJson parse print) scriptedBus rui
    (budget + 2) self d response resp_len t1
  obtain ⟨r1, r2, r3⟩ := rxLoop_single_payload (i2c_buff rui) self._deviceAddress
    (scriptedBus.millis (txPhase (arduinoJson parse print) scriptedBus rui self d).2.dev
      % 4294967296) budget errResponse
    { receivedNewline := false, jsonbufLen := 0, chunkLen := 0,
      jsonbuf := memset (requestBuffer (arduinoJson parse print) self) 0 JSON_BUFF_SIZE,
      dev := (txPhase (arduinoJson parse print) scriptedBus rui self d).2.dev,
      trace := (txPhase (arduinoJson parse print) scriptedBus rui self d).2.trace,
      polls := [] }
    (by cases rui <;> decide) (by cases rui <;> decide) (by decide) (by decide) rfl rfl rfl
    t2 (t3.trans hrd)
  have hret : (send_req (arduinoJson parse print) scriptedBus rui (budget + 2) self d response
      resp_len).ret = some true := by
    rw [s1]
    simp only [rxPhase]
    rw [r1]
    rfl
  have hlen : (send_req (arduinoJson parse print) scriptedBus rui (budget + 2) self d response
      resp_len).jsonbufLen = 12 := by
    rw [s6]
    simp only [rxPhase]
    rw [r3]
    rfl
  have hbuf : Mem.read (send_req (arduinoJson parse print) scriptedBus rui (budget + 2) self d
      response resp_len).in_out_buff 0 12 = errResponse := by
    rw [s5]
    simp only [rxPhase]
    rw [r2]
    exact Mem.read_writeList errResponse _ 0
  have htext := send_req_text (arduinoJson parse print) scriptedBus rui (budget + 2) self d
    response resp_len hret (by rw [hlen]; decide)
  have hdoc := ((send_req_document (arduinoJson parse print) scriptedBus rui (budget + 2) self
    d response resp_len).1 hret).1
  rw [htext, hlen] at hdoc
  simp only [cstring] at hdoc
  rw [hbuf] at hdoc
  have hd : (send_req (arduinoJson parse print) scriptedBus rui (budget + 2) self d response
      resp_len).note_json = doc := by
    rw [hdoc]
    have ht : errResponse.takeWhile (fun b => b != 0) = errResponse := by decide
    rw [ht]
    simp only [arduinoJson, hparse]
    rfl
  refine ⟨hret, by rw [hlen]; exact hbuf, hd, ?_⟩
  simp only [has_entry, SendResult.after, hd]
  exact herr

/-- C14 at the failing input, with the small document library: the answer `{"err":"x"}` is
parsed into a document with the key `"err"`, and `send_req` returns true. -/
theorem send_req_true_on_err_response_witness :
    parseFlat errResponse = some (Value.obj [(errKey, Value.str [120])]) ∧
    (Value.obj [(errKey, Value.str [120])]).containsKey errKey = true ∧
    (send_req flatJson scriptedBus false 2
      { _deviceAddress := 23, note_json := Value.obj [(reqKey, Value.str [97])],
        in_out_buff := fun _ => 0 }
      (Script.mk [] [frame 12 [], frame 0 errResponse] 0) none 0).ret = some true ∧
    has_entry ((send_req flatJson scriptedBus false 2
      { _deviceAddress := 23, note_json := Value.obj [(reqKey, Value.str [97])],
        in_out_buff := fun _ => 0 }
      (Script.mk [] [frame 12 [], frame 0 errResponse] 0) none 0).after
      { _deviceAddress := 23, note_json := Value.obj [(reqKey, Value.str [97])],
        in_out_buff := fun _ => 0 }) errKey = true :=
  ⟨rfl, rfl,
    (send_req_true_on_err_response parseFlat printFlat false
      { _deviceAddress := 23, note_json := Value.obj [(reqKey, Value.str [97])],
        in_out_buff := fun _ => 0 } 0 0 none 0 (Value.obj [(errKey, Value.str [120])])
      rfl rfl).1,
    (send_req_true_on_err_response parseFlat printFlat false
      { _deviceAddress := 23, note_json := Value.obj [(reqKey, Value.str [97])],
        in_out_buff := fun _ => 0 } 0 0 none 0 (Value.obj [(errKey, Value.str [120])])
      rfl rfl).2.2.2⟩

/-- C16 at a concrete input: the card answers `x` and a newline, which does not parse; the
exchange succeeds and leaves the document empty, the key `"req"` of the request included. -/
theorem send_req_deserialize_witness :
    (send_req (arduinoJson parseFlat printFlat) scriptedBus false 2
      { _deviceAddress := 23, note_json := Value.obj [(reqKey, Value.str [97])],
        in_out_buff := fun _ => 0 }
      (Script.mk [] [frame 2 [], frame 0 [120, 10]] 0) none 0).ret = some true ∧
    (send_req (arduinoJson parseFlat printFlat) scriptedBus false 2
      { _deviceAddress := 23, note_json := Value.obj [(reqKey, Value.str [97])],
        in_out_buff := fun _ => 0 }
      (Script.mk [] [frame 2 [], frame 0 [120, 10]] 0) none 0).jsonbufLen < JSON_BUFF_SIZE ∧
    has_entry ((send_req (arduinoJson parseFlat printFlat) scriptedBus false 2
      { _deviceAddress := 23, note_json := Value.obj [(reqKey, Value.str [97])],
        in_out_buff := fun _ => 0 }
      (Script.mk [] [frame 2 [], frame 0 [120, 10]] 0) none 0).after
      { _deviceAddress := 23, note_json := Value.obj [(reqKey, Value.str [97])],
        in_out_buff := fun _ => 0 }) reqKey = false :=
  ⟨by decide, by decide,
    ((send_req_deserialize parseFlat printFlat scriptedBus false 2
      { _deviceAddress := 23, note_json := Value.obj [(reqKey, Value.str [97])],
        in_out_buff := fun _ => 0 }
      (Script.mk [] [frame 2 [], frame 0 [120, 10]] 0) none 0 (by decide) (by decide)).2.2.2.1
      rfl).2 reqKey⟩

/-! ## Control-write retry and outputs of `blues_I2C_RX` -/

/-- The control-write loop, run for three attempts: either some attempt succeeds after at most
two failed ones, and the loop stops there, or three attempts fail. Every failed attempt is
followed by one bus reset. -/
theorem controlWrite_attempts (W : Platform σ) (a r : Nat) (d : σ) :
    ∃ errs : List Nat, (∀ e ∈ errs, e ≠ 0) ∧
      ((errs.length ≤ 2 ∧
        (controlWrite W a r 3
          { transmission_error := 0, result := true, dev := d, trace := [] }).trace
          = failedAttempts a r errs ++ [Event.write (a % 256) [0, r % 256] 0] ∧
        (controlWrite W a r 3
          { transmission_error := 0, result := true, dev := d, trace := [] }).transmission_error
          = 0 ∧
        ((controlWrite W a r 3
          { transmission_error := 0, result := true, dev := d, trace := [] }).result = true
          ↔ errs = [])) ∨
      (errs.length = 3 ∧
        (controlWrite W a r 3
          { transmission_error := 0, result := true, dev := d, trace := [] }).trace
          = failedAttempts a r errs ∧
        (controlWrite W a r 3
          { transmission_error := 0, result := true, dev := d, trace := [] }).transmission_error
          ≠ 0 ∧
        (controlWrite W a r 3
          { transmission_error := 0, result := true, dev := d, trace := [] }).result = false)) := by
  simp only [controlWrite, wireWrite, I2C_RST]
  generalize he1 : (W.endTransmission d (a % 256) [0, r % 256]).1 % 256 = e1
  generalize (W.endTransmission d (a % 256) [0, r % 256]).2 = d1
  by_cases h1 : e1 = 0
  · refine ⟨[], by simp, Or.inl ?_⟩
    simp [h1, failedAttempts]
  · simp only [h1, if_false]
    generalize he2 : (W.endTransmission (W.wireBegin d1) (a % 256) [0, r % 256]).1 % 256 = e2
    generalize (W.endTransmission (W.wireBegin d1) (a % 256) [0, r % 256]).2 = d2
    by_cases h2 : e2 = 0
    · refine ⟨[e1], by simpa using h1, Or.inl ?_⟩
      simp [h2, failedAttempts]
    · simp only [h2, if_false]
      generalize he3 : (W.endTransmission (W.wireBegin d2) (a % 256) [0, r % 256]).1 % 256
        = e3
      generalize (W.endTransmission (W.wireBegin d2) (a % 256) [0, r % 256]).2 = d3
      by_cases h3 : e3 = 0
      · refine ⟨[e1, e2], by simp [h1, h2], Or.inl ?_⟩
        simp [h3, failedAttempts]
      · refine ⟨[e1, e2, e3], by simp [h1, h2, h3], Or.inr ?_⟩
        simp [h3, failedAttempts]

theorem writeEvents_failedAttempts (a r : Nat) (errs : List Nat) :
    writeEvents (failedAttempts a r errs) = errs.map (fun e => (a % 256, [0, r % 256], e)) := by
  induction errs with
  | nil => rfl
  | cons e es ih =>
    have : failedAttempts a r (e :: es)
        = [Event.write (a % 256) [0, r % 256] e, Event.rst] ++ failedAttempts a r es := by
      simp [failedAttempts]
    rw [this, writeEvents_append, ih]
    rfl

theorem resetCount_failedAttempts (a r : Nat) (errs : List Nat) :
    resetCount (failedAttempts a r errs) = errs.length := by
  induction errs with
  | nil => rfl
  | cons e es ih =>
    have : failedAttempts a r (e :: es)
        = [Event.write (a % 256) [0, r % 256] e, Event.rst] ++ failedAttempts a r es := by
      simp [failedAttempts]
    rw [this, resetCount_append, ih]
    simp [resetCount]
    omega

theorem readEvents_failedAttempts (a r : Nat) (errs : List Nat) :
    readEvents (failedAttempts a r errs) = [] := by
  induction errs with
  | nil => rfl
  | cons e es ih =>
    have : failedAttempts a r (e :: es)
        = [Event.write (a % 256) [0, r % 256] e, Event.rst] ++ failedAttempts a r es := by
      simp [failedAttempts]
    rw [this, readEvents_append, ih]
    rfl

/-- Every execution of `blues_I2C_RX`: after at most two failed control writes one succeeds
and the read is issued, or three control writes fail and the call returns false without a
read and without storing anything. -/
theorem blues_I2C_RX_attempts (W : Platform σ) (d : σ) (a : Nat) (m : Mem) (p r v : Nat) :
    ∃ errs : List Nat, (∀ e ∈ errs, e ≠ 0) ∧
      ((errs.length ≤ 2 ∧
        ((blues_I2C_RX W d a m p r v).result = true → errs = []) ∧
        ∃ resp, (blues_I2C_RX W d a m p r v).response = some resp ∧
          (blues_I2C_RX W d a m p r v).trace
            = failedAttempts a r errs ++ [Event.write (a % 256) [0, r % 256] 0,
                Event.read a (r + 2) resp,
                Event.rx p r (blues_I2C_RX W d a m p r v).result]) ∨
      (errs.length = 3 ∧
        (blues_I2C_RX W d a m p r v).trace
          = failedAttempts a r errs ++ [Event.rx p r false] ∧
        (blues_I2C_RX W d a m p r v).response = none ∧
        (blues_I2C_RX W d a m p r v).result = false ∧
        (blues_I2C_RX W d a m p r v).mem = m ∧
        (blues_I2C_RX W d a m p r v).available = v)) := by
  obtain ⟨errs, h0, h⟩ := controlWrite_attempts W a r d
  refine ⟨errs, h0, ?_⟩
  simp only [blues_I2C_RX]
  generalize controlWrite W a r 3
    { transmission_error := 0, result := true, dev := d, trace := [] } = c at h
  simp only [wireRequestFrom]
  generalize (W.requestFrom (W.delay c.dev 2) a (r + 2)).1.map (fun b => b % 256) = q
  generalize (W.requestFrom (W.delay c.dev 2) a (r + 2)).2 = d2
  rcases h with ⟨hl, ht, he, hr⟩ | ⟨hl, ht, he, hr⟩
  · left
    rw [if_pos he]
    refine ⟨hl, ?_, q, ?_⟩
    · split_ifs <;> first | exact fun h => hr.1 h | (intro h; exact absurd h (by simp))
    · split_ifs <;> simp [ht]
  · right
    rw [if_neg he]
    exact ⟨hl, by simp [ht, hr], rfl, hr, rfl, rfl⟩

/-- C27: in every execution of `blues_I2C_RX` the control write is attempted at most three
times, every attempt but the last has failed (no attempt follows one that succeeded), and
there is one bus reset per failed attempt, directly after it; when three attempts fail, no
read is issued, the call returns false, and memory (so `buffer_`) and `*available_` are as
they were. -/
theorem blues_I2C_RX_control_write_bound (W : Platform σ) (d : σ) (a : Nat) (m : Mem)
    (p r v : Nat) :
    ∃ errs : List Nat, (∀ e ∈ errs, e ≠ 0) ∧
      resetCount (blues_I2C_RX W d a m p r v).trace = errs.length ∧
      (writeEvents (blues_I2C_RX W d a m p r v).trace).length ≤ 3 ∧
      ((errs.length ≤ 2 ∧
        writeEvents (blues_I2C_RX W d a m p r v).trace
          = errs.map (fun e => (a % 256, [0, r % 256], e)) ++ [(a % 256, [0, r % 256], 0)] ∧
        readEvents (blues_I2C_RX W d a m p r v).trace = [(a, r + 2)] ∧
        ∃ resp, (blues_I2C_RX W d a m p r v).trace
            = failedAttempts a r errs ++ [Event.write (a % 256) [0, r % 256] 0,
                Event.read a (r + 2) resp,
                Event.rx p r (blues_I2C_RX W d a m p r v).result]) ∨
      (errs.length = 3 ∧
        writeEvents (blues_I2C_RX W d a m p r v).trace
          = errs.map (fun e => (a % 256, [0, r % 256], e)) ∧
        readEvents (blues_I2C_RX W d a m p r v).trace = [] ∧
        (blues_I2C_RX W d a m p r v).trace
          = failedAttempts a r errs ++ [Event.rx p r false] ∧
        (blues_I2C_RX W d a m p r v).response = none ∧
        (blues_I2C_RX W d a m p r v).result = false ∧
        (blues_I2C_RX W d a m p r v).mem = m ∧
        (blues_I2C_RX W d a m p r v).available = v)) := by
  obtain ⟨errs, h0, h⟩ := blues_I2C_RX_attempts W d a m p r v
  refine ⟨errs, h0, ?_⟩
  rcases h with ⟨hl, _, resp, _, ht⟩ | ⟨hl, ht, h3, h4, h5, h6⟩
  · rw [ht]
    refine ⟨?_, ?_, Or.inl ⟨hl, ?_, ?_, resp, rfl⟩⟩
    · simp [resetCount_append, resetCount_failedAttempts, resetCount]
    · simp [writeEvents_append, writeEvents_failedAttempts, writeEvents]
      omega
    · simp [writeEvents_append, writeEvents_failedAttempts, writeEvents]
    · simp [readEvents_append, readEvents_failedAttempts, readEvents]
  · rw [ht]
    refine ⟨?_, ?_, Or.inr ⟨hl, ?_, ?_, rfl, h3, h4, h5, h6⟩⟩
    · simp [resetCount_append, resetCount_failedAttempts, resetCount]
    · simp [writeEvents_append, writeEvents_failedAttempts, writeEvents]
      omega
    · simp [writeEvents_append, writeEvents_failedAttempts, writeEvents]
    · simp [readEvents_append, readEvents_failedAttempts, readEvents]

/-- The outputs of `blues_I2C_RX` in terms of the response of its read: stored from a
well-formed response, untouched otherwise. -/
theorem blues_I2C_RX_outputs_of_response (W : Platform σ) (d : σ) (a : Nat) (m : Mem)
    (p r v : Nat) :
    (∀ resp, (blues_I2C_RX W d a m p r v).response = some resp →
      resp.length = r + 2 → (∃ x, resp[0]? = some x ∧ x ≤ 253) → resp[1]? = some r →
        resp[0]? = some (blues_I2C_RX W d a m p r v).available ∧
        Mem.read (blues_I2C_RX W d a m p r v).mem p r = resp.drop 2) ∧
    ((¬ ∃ resp, (blues_I2C_RX W d a m p r v).response = some resp ∧
        resp.length = r + 2 ∧ (∃ x, resp[0]? = some x ∧ x ≤ 253) ∧ resp[1]? = some r) →
      (blues_I2C_RX W d a m p r v).mem = m ∧ (blues_I2C_RX W d a m p r v).available = v) := by
  simp only [blues_I2C_RX]
  generalize controlWrite W a r 3
    { transmission_error := 0, result := true, dev := d, trace := [] } = c
  simp only [wireRequestFrom]
  generalize (W.requestFrom (W.delay c.dev 2) a (r + 2)).1.map (fun b => b % 256) = q
  generalize (W.requestFrom (W.delay c.dev 2) a (r + 2)).2 = d2
  by_cases h1 : c.transmission_error = 0
  · simp only [h1, if_true]
    rcases q with _ | ⟨x, _ | ⟨y, rest⟩⟩
    · simp
    · simp
    · simp only [AVAILBLE_MAX]
      by_cases hl : rest.length = r
      · by_cases hx : x ≤ 253
        · by_cases hy : r = y
          · have hm := rxCopy_mem W p r 0 rest m d2 (le_of_eq hl.symm)
            rw [← hl, List.take_length] at hm
            have hrd : Mem.read (rxCopy W p r 0 rest m d2).1 p r = rest := by
              rw [← hl, hm]
              exact Mem.read_writeList rest m (p + 0)
            simp [hl, hx, hy, Nat.not_lt.2 hx]
            rw [← hy]
            exact hrd
          · simp [hl, hx, hy, Nat.not_lt.2 hx]
            intro h
            exact absurd h.symm hy
        · simp [hl, hx, Nat.lt_of_not_le hx]
      · simp [hl]
  · simp [h1]

/-- With the control write succeeding at once, `blues_I2C_RX` returns true exactly on a
well-formed response. -/
theorem blues_I2C_RX_true_iff (W : Platform σ) (d : σ) (a : Nat) (m : Mem) (p r v : Nat)
    (h1 : (W.endTransmission d (a % 256) [0, r % 256]).1 % 256 = 0) :
    (blues_I2C_RX W d a m p r v).result = true ↔
      ∃ resp, (blues_I2C_RX W d a m p r v).response = some resp ∧
        resp.length = r + 2 ∧ (∃ x, resp[0]? = some x ∧ x ≤ 253) ∧ resp[1]? = some r := by
  have hc := controlWrite_first W a r 2
    { transmission_error := 0, result := true, dev := d, trace := [] } h1
  simp only [blues_I2C_RX, hc, wireRequestFrom]
  generalize (W.requestFrom (W.delay (W.endTransmission d (a % 256) [0, r % 256]).2 2) a
    (r + 2)).1.map (fun b => b % 256) = resp
  generalize (W.requestFrom (W.delay (W.endTransmission d (a % 256) [0, r % 256]).2 2) a
    (r + 2)).2 = d2
  rcases resp with _ | ⟨x, _ | ⟨y, rest⟩⟩
  · simp
  · simp
  · simp only [AVAILBLE_MAX]
    by_cases hl : rest.length = r
    · by_cases hx : x ≤ 253
      · by_cases hy : r = y
        · simp [hl, hx, hy, Nat.not_lt.2 hx]
        · simp [hl, hx, hy, Nat.not_lt.2 hx]
          intro h
          exact absurd h.symm hy
      · simp [hl, hx, Nat.lt_of_not_le hx]
    · simp [hl]

/-- C29: `*available_` and `buffer_[0..requested_byte_count_)` are stored from the response
exactly in the executions in which a control-write attempt succeeded (so that the read was
issued) and the read delivered `requested_byte_count_ + 2` bytes, the first at most 253 and
the second equal to `requested_byte_count_`; in every other execution memory and
`*available_` are as they were, and nothing outside the buffer is ever stored. With the
first control write succeeding these are the executions that return true; with the first
control write failing the call returns false all the same. -/
theorem blues_I2C_RX_outputs (W : Platform σ) (d : σ) (a : Nat) (m : Mem) (p r v : Nat) :
    ((∃ w ∈ writeEvents (blues_I2C_RX W d a m p r v).trace, w.2.2 = 0) ↔
      (blues_I2C_RX W d a m p r v).response ≠ none) ∧
    (∀ resp, (blues_I2C_RX W d a m p r v).response = some resp →
      resp.length = r + 2 → (∃ x, resp[0]? = some x ∧ x ≤ 253) → resp[1]? = some r →
        resp[0]? = some (blues_I2C_RX W d a m p r v).available ∧
        Mem.read (blues_I2C_RX W d a m p r v).mem p r = resp.drop 2) ∧
    ((¬ ∃ resp, (blues_I2C_RX W d a m p r v).response = some resp ∧
        resp.length = r + 2 ∧ (∃ x, resp[0]? = some x ∧ x ≤ 253) ∧ resp[1]? = some r) →
      (blues_I2C_RX W d a m p r v).mem = m ∧ (blues_I2C_RX W d a m p r v).available = v) ∧
    (∀ j, j < p ∨ p + r ≤ j → (blues_I2C_RX W d a m p r v).mem j = m j) ∧
    ((W.endTransmission d (a % 256) [0, r % 256]).1 % 256 = 0 →
      ((blues_I2C_RX W d a m p r v).result = true ↔
        ∃ resp, (blues_I2C_RX W d a m p r v).response = some resp ∧
          resp.length = r + 2 ∧ (∃ x, resp[0]? = some x ∧ x ≤ 253) ∧ resp[1]? = some r)) ∧
    ((W.endTransmission d (a % 256) [0, r % 256]).1 % 256 ≠ 0 →
      (blues_I2C_RX W d a m p r v).result = false) := by
  obtain ⟨o1, o2⟩ := blues_I2C_RX_outputs_of_response W d a m p r v
  refine ⟨?_, o1, o2, fun j hj => blues_I2C_RX_outside W d a m p r v j hj,
    blues_I2C_RX_true_iff W d a m p r v, blues_I2C_RX_first_failed W d a m p r v⟩
  obtain ⟨errs, h0, h⟩ := blues_I2C_RX_attempts W d a m p r v
  rcases h with ⟨_, _, resp, hresp, ht⟩ | ⟨_, ht, hnone, _⟩
  · rw [ht, hresp]
    simp only [writeEvents_append, writeEvents_failedAttempts, writeEvents, ne_eq,
      reduceCtorEq, not_false_eq_true, iff_true]
    exact ⟨(a % 256, [0, r % 256], 0), by simp, rfl⟩
  · rw [ht, hnone]
    simp only [writeEvents_append, writeEvents_failedAttempts, writeEvents, List.append_nil,
      ne_eq, not_true_eq_false, iff_false, not_exists, not_and]
    intro w hw
    obtain ⟨e, he, rfl⟩ := List.mem_map.1 hw
    exact h0 e he

/-- C29 at a concrete input: the first control write fails, the second succeeds and the
response is well-formed: the outputs are stored although the call returns false. -/
theorem blues_I2C_RX_outputs_witness :
    (blues_I2C_RX scriptedBus ⟨[2], [[5, 3, 1, 2, 3]], 0⟩ 23 (fun _ => 0) 0 3 7).response
      = some [5, 3, 1, 2, 3] ∧
    some 5 = some (blues_I2C_RX scriptedBus ⟨[2], [[5, 3, 1, 2, 3]], 0⟩ 23 (fun _ => 0) 0 3
      7).available ∧
    Mem.read (blues_I2C_RX scriptedBus ⟨[2], [[5, 3, 1, 2, 3]], 0⟩ 23 (fun _ => 0) 0 3 7).mem 0 3
      = [1, 2, 3] ∧
    (blues_I2C_RX scriptedBus ⟨[2], [[5, 3, 1, 2, 3]], 0⟩ 23 (fun _ => 0) 0 3 7).result = false :=
  ⟨by decide,
    ((blues_I2C_RX_outputs scriptedBus ⟨[2], [[5, 3, 1, 2, 3]], 0⟩ 23 (fun _ => 0) 0 3 7).2.1
      [5, 3, 1, 2, 3] (by decide) (by decide) ⟨5, by decide, by decide⟩ (by decide)).1,
    ((blues_I2C_RX_outputs scriptedBus ⟨[2], [[5, 3, 1, 2, 3]], 0⟩ 23 (fun _ => 0) 0 3 7).2.1
      [5, 3, 1, 2, 3] (by decide) (by decide) ⟨5, by decide, by decide⟩ (by decide)).2,
    (blues_I2C_RX_outputs scriptedBus ⟨[2], [[5, 3, 1, 2, 3]], 0⟩ 23 (fun _ => 0) 0 3
      7).2.2.2.2.2 (by decide)⟩

/-! ## The newline flag and the outbound capacity of `send_req` -/

/-- The flag `receivedNewline` is never cleared by the receive loop. -/
theorem rxLoop_sticky (W : Platform σ) (B a t : Nat) : ∀ (n : Nat) (s : RxState σ),
    s.receivedNewline = true → (rxLoop W B a t n s).2.receivedNewline = true := by
  intro n
  induction n with
  | zero => intro s h; exact h
  | succ n ih =>
    intro s h
    have hnext : (rxNext W B a s).receivedNewline = true := by
      simp [rxNext, h]
    rw [rxLoop_succ]
    split_ifs <;> first | exact h | exact hnext | exact ih _ hnext

/-- C28: the flag `receivedNewline` of the receive loop is sticky: from a state in which it
is set, every run of the loop ends with it set. So when the card delivers `AB` and a newline
with 2 more bytes available, and then `CD` with nothing more available, `send_req` leaves
the loop through the newline-and-drained exit and returns true, with the reassembled
response `AB\nCD`: a newline inside, none at the end. -/
theorem send_req_newline_flag_sticky :
    (∀ (W : Platform Script) (B a t n : Nat) (s : RxState Script),
      s.receivedNewline = true → (rxLoop W B a t n s).2.receivedNewline = true) ∧
    (send_req textJson scriptedBus false 3
      { _deviceAddress := 23, note_json := [123, 125], in_out_buff := fun _ => 0 }
      (Script.mk [] [frame 3 [], frame 2 [65, 66, 10], frame 0 [67, 68]] 0) none 0).ret
      = some true ∧
    (send_req textJson scriptedBus false 3
      { _deviceAddress := 23, note_json := [123, 125], in_out_buff := fun _ => 0 }
      (Script.mk [] [frame 3 [], frame 2 [65, 66, 10], frame 0 [67, 68]] 0) none 0).exit
      = some RxExit.drained ∧
    (send_req textJson scriptedBus false 3
      { _deviceAddress := 23, note_json := [123, 125], in_out_buff := fun _ => 0 }
      (Script.mk [] [frame 3 [], frame 2 [65, 66, 10], frame 0 [67, 68]] 0) none 0).polls
      = [⟨0, 0, 3, false⟩, ⟨0, 3, 2, true⟩, ⟨3, 2, 0, false⟩] ∧
    (send_req textJson scriptedBus false 3
      { _deviceAddress := 23, note_json := [123, 125], in_out_buff := fun _ => 0 }
      (Script.mk [] [frame 3 [], frame 2 [65, 66, 10], frame 0 [67, 68]] 0) none 0).jsonbufLen
      = 5 ∧
    Mem.read (send_req textJson scriptedBus false 3
      { _deviceAddress := 23, note_json := [123, 125], in_out_buff := fun _ => 0 }
      (Script.mk [] [frame 3 [], frame 2 [65, 66, 10], frame 0 [67, 68]] 0) none 0).in_out_buff
      0 5 = [65, 66, 10, 67, 68] :=
  ⟨fun W B a t n s h => rxLoop_sticky W B a t n s h, by decide, by decide, by decide,
    by decide, by decide⟩

/-- C30 (refuted on the code): `send_req` serializes with the whole buffer as capacity,
`serializeJson(note_json, in_out_buff, 4096)`, and stores the newline at the index returned.
For a document whose text has 4096 characters or more the index is 4096: the newline is
stored one byte past the 4096-byte buffer, the transmit calls are handed 4097 bytes, and
what is transmitted is the text cut at 4096 characters. -/
theorem send_req_newline_past_buffer (parse : List Nat → Option Value)
    (print : Value → List Nat) (W : Platform σ) (rui : Bool) (budget : Nat)
    (self : RAK_BLUES Value) (d : σ) (response : Option (List Nat)) (resp_len : Nat)
    (hbus : ∀ s a bs, (W.endTransmission s a bs).1 % 256 = 0)
    (hbig : 4096 ≤ (print self.note_json).length) :
    ((arduinoJson parse print).serializeJson self.note_json 4096).length = 4096 ∧
    JSON_BUFF_SIZE ≤ ((arduinoJson parse print).serializeJson self.note_json 4096).length ∧
    requestBuffer (arduinoJson parse print) self 4096 = 10 ∧
    ∃ cs : List (List Nat),
      txCalls (send_req (arduinoJson parse print) W rui budget self d response resp_len).trace
        = cs.map (fun c => (c, true)) ∧
      cs.flatten = (print self.note_json).take 4096 ++ [10] ∧
      cs.flatten.length = JSON_BUFF_SIZE + 1 := by
  have hlen : ((arduinoJson parse print).serializeJson self.note_json 4096).length = 4096 := by
    simp only [arduinoJson, List.length_take]
    omega
  obtain ⟨h1, _, _, cs, c1, c2, _⟩ := txPhase_inv (arduinoJson parse print) W rui self d
    (fun _ _ => True) (fun _ _ _ _ => trivial) (fun _ s p _ _ _ => ⟨hbus s _ _, trivial⟩)
    trivial
  refine ⟨hlen, by rw [hlen]; decide, ?_, cs, ?_, c2, ?_⟩
  · have hl : (requestText (arduinoJson parse print) self).length = 4096 := hlen
    simp only [requestBuffer, Mem.write, hl]
    simp
  · rw [(send_req_rx (arduinoJson parse print) W rui budget self d response resp_len h1).2.2.1]
    simp only [rxPhase]
    rw [rxLoop_txCalls]
    exact c1
  · rw [c2]
    have hl : (requestText (arduinoJson parse print) self).length = 4096 := hlen
    simp only [List.length_append, hl, JSON_BUFF_SIZE]
    rfl

theorem length_printFlat_bigDocument : (printFlat bigDocument).length = 4096 := by
  have h : printFlat bigDocument
      = [123] ++ (([34] ++ [112] ++ [34, 58] ++ ([34] ++ List.replicate 4088 65 ++ [34]))
          ++ []) ++ [125] := rfl
  rw [h]
  simp only [List.length_append, List.length_replicate, List.length_cons, List.length_nil]

/-- C30 at the failing input: the document `{"p":"AAA…"}` with 4088 characters `A`, whose
text has 4096 characters, on a card that accepts every write. -/
theorem send_req_newline_past_buffer_witness :
    (∀ s a bs, ((steadyBus 0 0).endTransmission s a bs).1 % 256 = 0) ∧
    4096 ≤ (printFlat bigDocument).length ∧
    (flatJson.serializeJson bigDocument 4096).length = 4096 ∧
    requestBuffer flatJson ⟨23, bigDocument, fun _ => 0⟩ 4096 = 10 :=
  ⟨fun _ _ _ => rfl, le_of_eq length_printFlat_bigDocument.symm,
    (send_req_newline_past_buffer parseFlat printFlat (steadyBus 0 0) false 1
      ⟨23, bigDocument, fun _ => 0⟩ 0 none 0 (fun _ _ _ => rfl)
      (le_of_eq length_printFlat_bigDocument.symm)).1,
    (send_req_newline_past_buffer parseFlat printFlat (steadyBus 0 0) false 1
      ⟨23, bigDocument, fun _ => 0⟩ 0 none 0 (fun _ _ _ => rfl)
      (le_of_eq length_printFlat_bigDocument.symm)).2.2.1⟩

/-! ## Base64: the index expressions -/

set_option maxRecDepth 100000 in
theorem index_first (signedChar : Bool) : ∀ b < 256,
    sar (promote signedChar b) 2 &&& 0x3F = b / 4 := by
  cases signedChar <;> decide

set_option maxRecDepth 100000 in
theorem index_low2 (signedChar : Bool) : ∀ b < 256,
    shl (promote signedChar b &&& 0x3) 4 = b % 4 * 16 := by
  cases signedChar <;> decide

set_option maxRecDepth 100000 in
theorem index_high4 (signedChar : Bool) : ∀ b < 256,
    sar (promote signedChar b &&& 0xF0) 4 = b / 16 := by
  cases signedChar <;> decide

set_option maxRecDepth 100000 in
theorem index_low4 (signedChar : Bool) : ∀ b < 256,
    shl (promote signedChar b &&& 0xF) 2 = b % 16 * 4 := by
  cases signedChar <;> decide

set_option maxRecDepth 100000 in
theorem index_high2 (signedChar : Bool) : ∀ b < 256,
    sar (promote signedChar b &&& 0xC0) 6 = b / 64 := by
  cases signedChar <;> decide

set_option maxRecDepth 100000 in
theorem index_last (signedChar : Bool) : ∀ b < 256,
    promote signedChar b &&& 0x3F = b % 64 := by
  cases signedChar <;> decide

theorem or_low2_high4 : ∀ u < 4, ∀ v < 16, u * 16 ||| v = u * 16 + v := by decide

theorem or_low4_high2 : ∀ u < 16, ∀ v < 4, u * 4 ||| v = u * 4 + v := by decide

/-- The four index expressions of a full group are the four 6-bit values of its 24 bits. -/
theorem index_group (signedChar : Bool) (a b c : Nat) (ha : a < 256) (hb : b < 256)
    (hc : c < 256) :
    sar (promote signedChar a) 2 &&& 0x3F = (a * 65536 + b * 256 + c) / 262144 ∧
    (shl (promote signedChar a &&& 0x3) 4 ||| sar (promote signedChar b &&& 0xF0) 4)
      = (a * 65536 + b * 256 + c) / 4096 % 64 ∧
    (shl (promote signedChar b &&& 0xF) 2 ||| sar (promote signedChar c &&& 0xC0) 6)
      = (a * 65536 + b * 256 + c) / 64 % 64 ∧
    promote signedChar c &&& 0x3F = (a * 65536 + b * 256 + c) % 64 := by
  rw [index_first signedChar a ha, index_low2 signedChar a ha, index_high4 signedChar b hb,
    index_low4 signedChar b hb, index_high2 signedChar c hc, index_last signedChar c hc,
    or_low2_high4 (a % 4) (Nat.mod_lt _ (by decide)) (b / 16) (by omega),
    or_low4_high2 (b % 16) (Nat.mod_lt _ (by decide)) (c / 64) (by omega)]
  refine ⟨by omega, by omega, by omega, by omega⟩

/-! ## Base64: the encoder on memory -/

theorem Mem.write_ne (m : Mem) (a v j : Nat) (h : j ≠ a) : Mem.write m a v j = m j := by
  simp [Mem.write, h]

theorem Mem.write_same (m : Mem) (a v : Nat) : Mem.write m a v a = v := by
  simp [Mem.write]

theorem charAt_write (signedChar : Bool) (m : Mem) (a v j : Nat) (h : j ≠ a) :
    charAt signedChar (Mem.write m a v) j = charAt signedChar m j := by
  simp [charAt, Mem.write, h]

theorem rfc4648_tail1 (signedChar : Bool) (a : Nat) (ha : a < 256) :
    [basis (sar (promote signedChar a) 2 &&& 0x3F),
      basis (shl (promote signedChar a &&& 0x3) 4), 61, 61] = rfc4648Encode [a] := by
  rw [index_first signedChar a ha, index_low2 signedChar a ha]
  simp only [rfc4648Encode]
  have h1 : a * 16 / 64 = a / 4 := by omega
  have h2 : a * 16 % 64 = a % 4 * 16 := by omega
  rw [h1, h2]

theorem rfc4648_tail2 (signedChar : Bool) (a b : Nat) (ha : a < 256) (hb : b < 256) :
    [basis (sar (promote signedChar a) 2 &&& 0x3F),
      basis (shl (promote signedChar a &&& 0x3) 4 ||| sar (promote signedChar b &&& 0xF0) 4),
      basis (shl (promote signedChar b &&& 0xF) 2), 61] = rfc4648Encode [a, b] := by
  rw [index_first signedChar a ha, index_low2 signedChar a ha, index_high4 signedChar b hb,
    index_low4 signedChar b hb,
    or_low2_high4 (a % 4) (Nat.mod_lt _ (by decide)) (b / 16) (by omega)]
  simp only [rfc4648Encode]
  have h1 : (a * 256 + b) * 4 / 4096 = a / 4 := by omega
  have h2 : (a * 256 + b) * 4 / 64 % 64 = a % 4 * 16 + b / 16 := by omega
  have h3 : (a * 256 + b) * 4 % 64 = b % 16 * 4 := by omega
  rw [h1, h2, h3]

theorem rfc4648_group (signedChar : Bool) (a b c : Nat) (ha : a < 256) (hb : b < 256)
    (hc : c < 256) :
    [basis (sar (promote signedChar a) 2 &&& 0x3F),
      basis (shl (promote signedChar a &&& 0x3) 4 ||| sar (promote signedChar b &&& 0xF0) 4),
      basis (shl (promote signedChar b &&& 0xF) 2 ||| sar (promote signedChar c &&& 0xC0) 6),
      basis (promote signedChar c &&& 0x3F)] = rfc4648Group3 a b c := by
  obtain ⟨h1, h2, h3, h4⟩ := index_group signedChar a b c ha hb hc
  rw [h1, h2, h3, h4]
  rfl

/-- What is handed back when a list of characters was stored at `p`, the bytes read from
elsewhere. -/
theorem writeList_spec (m : Mem) (p : Nat) (l : List Nat) (n : Nat) (hn : l.length = n) :
    Mem.read (Mem.writeList m p l) p n = l ∧
    ∀ j, j < p ∨ p + n ≤ j → Mem.writeList m p l j = m j := by
  subst hn
  refine ⟨Mem.read_writeList l m p, fun j hj => ?_⟩
  rcases hj with h | h
  · exact Mem.writeList_below l m p j h
  · exact Mem.writeList_above l m p j h

/-- The statements after the loop, for at most two bytes left, none of them in the at most
five bytes that are stored. -/
theorem encodeTail_spec (signedChar : Bool) (encoded string len : Nat) (s : EncodeState)
    (hi : s.i ≤ len) (hrem : len - s.i ≤ 2) (hp : encoded ≤ s.p)
    (hdis : string + len ≤ s.p ∨ s.p + 4 * ((len - s.i + 2) / 3) + 1 ≤ string + s.i) :
    (encodeTail signedChar encoded string len s).1 + encoded
      = s.p + 4 * ((len - s.i + 2) / 3) + 1 ∧
    Mem.read (encodeTail signedChar encoded string len s).2 s.p
        (4 * ((len - s.i + 2) / 3) + 1)
      = rfc4648Encode ((Mem.read s.mem (string + s.i) (len - s.i)).map (fun b => b % 256))
        ++ [0] ∧
    ∀ j, j < s.p ∨ s.p + 4 * ((len - s.i + 2) / 3) + 1 ≤ j →
      (encodeTail signedChar encoded string len s).2 j = s.mem j := by
  rcases Nat.lt_or_ge s.i len with hlt | hge
  · by_cases h1 : s.i = len - 1
    · have hr : len - s.i = 1 := by omega
      have hlen : 4 * ((len - s.i + 2) / 3) + 1 = 5 := by rw [hr]
      have hn0 : string + s.i ≠ s.p := by omega
      have he : encodeTail signedChar encoded string len s
          = (s.p + 5 - encoded, Mem.writeList s.mem s.p
              [basis (sar (promote signedChar (s.mem (string + s.i) % 256)) 2 &&& 0x3F),
                basis (shl (promote signedChar (s.mem (string + s.i) % 256) &&& 0x3) 4),
                61, 61, 0]) := by
        simp only [encodeTail, hlt, if_true]
        rw [if_pos h1]
        simp only [charAt_write signedChar _ _ _ _ hn0]
        rfl
      rw [hlen, hr, he]
      refine ⟨by simp only; omega, ?_, (writeList_spec s.mem s.p _ 5 (by rfl)).2⟩
      rw [(writeList_spec s.mem s.p _ 5 (by rfl)).1]
      simp only [Mem.read, List.map_cons, List.map_nil]
      rw [← rfc4648_tail1 signedChar (s.mem (string + s.i) % 256) (Nat.mod_lt _ (by decide))]
      rfl
    · have hr : len - s.i = 2 := by omega
      have hlen : 4 * ((len - s.i + 2) / 3) + 1 = 5 := by rw [hr]
      have hn0 : string + s.i ≠ s.p := by omega
      have hn1 : string + (s.i + 1) ≠ s.p := by omega
      have hn2 : string + (s.i + 1) ≠ s.p + 1 := by omega
      have he : encodeTail signedChar encoded string len s
          = (s.p + 5 - encoded, Mem.writeList s.mem s.p
              [basis (sar (promote signedChar (s.mem (string + s.i) % 256)) 2 &&& 0x3F),
                basis (shl (promote signedChar (s.mem (string + s.i) % 256) &&& 0x3) 4 |||
                  sar (promote signedChar (s.mem (string + (s.i + 1)) % 256) &&& 0xF0) 4),
                basis (shl (promote signedChar (s.mem (string + (s.i + 1)) % 256) &&& 0xF) 2),
                61, 0]) := by
        simp only [encodeTail, hlt, if_true]
        rw [if_neg h1]
        simp only [charAt_write signedChar _ _ _ _ hn0, charAt_write signedChar _ _ _ _ hn1,
          charAt_write signedChar _ _ _ _ hn2]
        rfl
      rw [hlen, hr, he]
      refine ⟨by simp only; omega, ?_, (writeList_spec s.mem s.p _ 5 (by rfl)).2⟩
      rw [(writeList_spec s.mem s.p _ 5 (by rfl)).1]
      simp only [Mem.read, List.map_cons, List.map_nil]
      rw [show string + s.i + 1 = string + (s.i + 1) by omega,
        ← rfc4648_tail2 signedChar (s.mem (string + s.i) % 256)
          (s.mem (string + (s.i + 1)) % 256) (Nat.mod_lt _ (by decide))
          (Nat.mod_lt _ (by decide))]
      rfl
  · have hr : len - s.i = 0 := by omega
    have hlen : 4 * ((len - s.i + 2) / 3) + 1 = 1 := by rw [hr]
    have he : encodeTail signedChar encoded string len s
        = (s.p + 1 - encoded, Mem.writeList s.mem s.p [0]) := by
      simp only [encodeTail, Nat.not_lt.2 hge, if_false]
      rfl
    rw [hlen, hr, he]
    obtain ⟨w1, w2⟩ := writeList_spec s.mem s.p [0] 1 rfl
    refine ⟨by simp only; omega, ?_, w2⟩
    rw [w1]
    rfl

theorem rfc4648Encode_group (a b c : Nat) (rest : List Nat) :
    rfc4648Encode (a :: b :: c :: rest) = rfc4648Group3 a b c ++ rfc4648Encode rest := by
  simp only [rfc4648Encode]

theorem Mem.read_three (m : Mem) (a k : Nat) :
    Mem.read m a (k + 3) = m a :: m (a + 1) :: m (a + 2) :: Mem.read m (a + 3) k := rfl

/-- One iteration of the loop, for three bytes that are not among the four bytes stored. -/
theorem encodeLoop_step (signedChar : Bool) (string len n : Nat) (s : EncodeState)
    (h3 : s.i + 3 ≤ len)
    (hdis : string + s.i + 3 ≤ s.p ∨ s.p + 4 ≤ string + s.i) :
    encodeLoop signedChar string len (n + 1) s
      = encodeLoop signedChar string len n
          { i := s.i + 3, p := s.p + 4,
            mem := Mem.writeList s.mem s.p
              (rfc4648Group3 (s.mem (string + s.i) % 256) (s.mem (string + s.i + 1) % 256)
                (s.mem (string + s.i + 2) % 256)) } := by
  have hc : (s.i : Int) < (len : Int) - 2 := by omega
  have hn0 : string + s.i ≠ s.p := by omega
  have hn1 : string + (s.i + 1) ≠ s.p := by omega
  have hn2 : string + (s.i + 1) ≠ s.p + 1 := by omega
  have hn3 : string + (s.i + 2) ≠ s.p := by omega
  have hn4 : string + (s.i + 2) ≠ s.p + 1 := by omega
  have hn5 : string + (s.i + 2) ≠ s.p + 2 := by omega
  rw [encodeLoop]
  simp only [hc, if_true]
  simp only [charAt_write signedChar _ _ _ _ hn0, charAt_write signedChar _ _ _ _ hn1,
    charAt_write signedChar _ _ _ _ hn2, charAt_write signedChar _ _ _ _ hn3,
    charAt_write signedChar _ _ _ _ hn4, charAt_write signedChar _ _ _ _ hn5]
  rw [← rfc4648_group signedChar (s.mem (string + s.i) % 256) (s.mem (string + s.i + 1) % 256)
    (s.mem (string + s.i + 2) % 256) (Nat.mod_lt _ (by decide)) (Nat.mod_lt _ (by decide))
    (Nat.mod_lt _ (by decide))]
  rfl

/-- The encoder from any state of its loop: the characters stored from `p` on are the RFC
4648 encoding of the bytes from `string[i]` on, followed by NUL, when none of these bytes is
among the bytes stored. -/
theorem encode_spec (signedChar : Bool) (encoded string len : Nat) :
    ∀ (n : Nat) (s : EncodeState), s.i ≤ len → len - s.i ≤ 3 * n + 2 → encoded ≤ s.p →
      (string + len ≤ s.p ∨ s.p + 4 * ((len - s.i + 2) / 3) + 1 ≤ string + s.i) →
      (encodeTail signedChar encoded string len (encodeLoop signedChar string len n s)).1
          + encoded = s.p + 4 * ((len - s.i + 2) / 3) + 1 ∧
      Mem.read (encodeTail signedChar encoded string len
          (encodeLoop signedChar string len n s)).2 s.p (4 * ((len - s.i + 2) / 3) + 1)
        = rfc4648Encode ((Mem.read s.mem (string + s.i) (len - s.i)).map (fun b => b % 256))
          ++ [0] ∧
      ∀ j, j < s.p ∨ s.p + 4 * ((len - s.i + 2) / 3) + 1 ≤ j →
        (encodeTail signedChar encoded string len
          (encodeLoop signedChar string len n s)).2 j = s.mem j := by
  intro n
  induction n with
  | zero =>
    intro s hi hrem hp hdis
    exact encodeTail_spec signedChar encoded string len s hi (by omega) hp hdis
  | succ n ih =>
    intro s hi hrem hp hdis
    by_cases h3 : s.i + 3 ≤ len
    · rw [encodeLoop_step signedChar string len n s h3 (by omega)]
      obtain ⟨g1, g2⟩ := writeList_spec s.mem s.p
        (rfc4648Group3 (s.mem (string + s.i) % 256) (s.mem (string + s.i + 1) % 256)
          (s.mem (string + s.i + 2) % 256)) 4 rfl
      obtain ⟨i1, i2, i3⟩ := ih
        { i := s.i + 3, p := s.p + 4,
          mem := Mem.writeList s.mem s.p
            (rfc4648Group3 (s.mem (string + s.i) % 256) (s.mem (string + s.i + 1) % 256)
              (s.mem (string + s.i + 2) % 256)) }
        (by simp only; omega) (by simp only; omega) (by simp only; omega)
        (by simp only; omega)
      simp only at i1 i2 i3
      have hk : len - s.i = (len - (s.i + 3)) + 3 := by omega
      have hout : 4 * ((len - s.i + 2) / 3) + 1 = 4 + (4 * ((len - (s.i + 3) + 2) / 3) + 1) := by
        omega
      refine ⟨by omega, ?_, ?_⟩
      · rw [hout, Mem.read_add, i2]
        have hfirst : Mem.read (encodeTail signedChar encoded string len
            (encodeLoop signedChar string len n
              { i := s.i + 3, p := s.p + 4,
                mem := Mem.writeList s.mem s.p
                  (rfc4648Group3 (s.mem (string + s.i) % 256) (s.mem (string + s.i + 1) % 256)
                    (s.mem (string + s.i + 2) % 256)) })).2 s.p 4
            = rfc4648Group3 (s.mem (string + s.i) % 256) (s.mem (string + s.i + 1) % 256)
                (s.mem (string + s.i + 2) % 256) := by
          exact (Mem.read_congr _ _ 4 s.p (fun j _ hj2 => i3 j (Or.inl (by omega)))).trans g1
        have hin : Mem.read (Mem.writeList s.mem s.p
              (rfc4648Group3 (s.mem (string + s.i) % 256) (s.mem (string + s.i + 1) % 256)
                (s.mem (string + s.i + 2) % 256))) (string + (s.i + 3)) (len - (s.i + 3))
            = Mem.read s.mem (string + (s.i + 3)) (len - (s.i + 3)) := by
          apply Mem.read_congr
          intro j hj1 hj2
          exact g2 j (by omega)
        rw [hfirst, hin, hk, Mem.read_three]
        simp only [List.map_cons, rfc4648Encode_group, List.append_assoc]
        rw [show string + s.i + 3 = string + (s.i + 3) by omega]
      · intro j hj
        rw [i3 j (by omega)]
        exact g2 j (by omega)
    · have hloop : encodeLoop signedChar string len (n + 1) s = s := by
        rw [encodeLoop]
        have hc : ¬ ((s.i : Int) < (len : Int) - 2) := by omega
        simp only [hc, if_false]
      rw [hloop]
      exact encodeTail_spec signedChar encoded string len s hi (by omega) hp hdis

/-- `myJB64Encode` on buffers that do not overlap: the `4 * ⌈len / 3⌉` characters stored
at `encoded` are the RFC 4648 encoding of the `len` bytes at `string`, a NUL follows them,
nothing else is stored, and the return value is the number of bytes stored, the NUL
included. -/
theorem myJB64Encode_spec (signedChar : Bool) (m : Mem) (encoded string len : Nat)
    (hdis : string + len ≤ encoded ∨ encoded + 4 * ((len + 2) / 3) + 1 ≤ string) :
    (myJB64Encode signedChar m encoded string len).1 = 4 * ((len + 2) / 3) + 1 ∧
    Mem.read (myJB64Encode signedChar m encoded string len).2 encoded (4 * ((len + 2) / 3) + 1)
      = rfc4648Encode ((Mem.read m string len).map (fun b => b % 256)) ++ [0] ∧
    ∀ j, j < encoded ∨ encoded + 4 * ((len + 2) / 3) + 1 ≤ j →
      (myJB64Encode signedChar m encoded string len).2 j = m j := by
  obtain ⟨h1, h2, h3⟩ := encode_spec signedChar encoded string len len
    { i := 0, p := encoded, mem := m } (Nat.zero_le _) (by simp only; omega) (le_refl _)
    (by simpa using hdis)
  simp only [Nat.sub_zero, Nat.add_zero] at h1 h2 h3
  exact ⟨by simp only [myJB64Encode]; omega, h2, h3⟩

/-! ## Base64: the reference encoding -/

theorem sextetOf_basis : ∀ i < 64, sextetOf (basis i) = some i := by decide

theorem basis_mem : ∀ i < 64, basis i ∈ basis_64 := by decide

theorem basis_64_ne : ∀ c ∈ basis_64, c ≠ 61 ∧ c ≠ 0 ∧ 32 < c ∧ c < 127 := by decide

theorem rfc4648Encode_length : ∀ l : List Nat,
    (rfc4648Encode l).length = 4 * ((l.length + 2) / 3) := by
  intro l
  induction l using rfc4648Encode.induct with
  | case1 => rfl
  | case2 a => simp [rfc4648Encode]
  | case3 a b => simp [rfc4648Encode]
  | case4 a b c rest ih =>
    rw [rfc4648Encode_group, List.length_append, ih]
    simp only [rfc4648Group3, List.length_cons, List.length_nil]
    omega

/-- The shape of the encoding of bytes: characters of the alphabet, then two `=` for a
length that leaves the remainder 1, one for the remainder 2, none for the remainder 0. -/
theorem rfc4648Encode_shape : ∀ l : List Nat, (∀ b ∈ l, b < 256) →
    ∃ body, rfc4648Encode l = body ++ List.replicate ((3 - l.length % 3) % 3) 61 ∧
      ∀ c ∈ body, c ∈ basis_64 := by
  intro l
  induction l using rfc4648Encode.induct with
  | case1 => intro _; exact ⟨[], rfl, by simp⟩
  | case2 a =>
    intro h
    have ha : a < 256 := h a (by simp)
    refine ⟨[basis (a * 16 / 64), basis (a * 16 % 64)], rfl, ?_⟩
    intro c hc
    simp only [List.mem_cons, List.mem_singleton, List.not_mem_nil, or_false] at hc
    rcases hc with rfl | rfl
    · exact basis_mem _ (by omega)
    · exact basis_mem _ (by omega)
  | case3 a b =>
    intro h
    have ha : a < 256 := h a (by simp)
    have hb : b < 256 := h b (by simp)
    refine ⟨[basis ((a * 256 + b) * 4 / 4096), basis ((a * 256 + b) * 4 / 64 % 64),
      basis ((a * 256 + b) * 4 % 64)], rfl, ?_⟩
    intro c hc
    simp only [List.mem_cons, List.mem_singleton, List.not_mem_nil, or_false] at hc
    rcases hc with rfl | rfl | rfl
    · exact basis_mem _ (by omega)
    · exact basis_mem _ (by omega)
    · exact basis_mem _ (by omega)
  | case4 a b c rest ih =>
    intro h
    have ha : a < 256 := h a (by simp)
    have hb : b < 256 := h b (by simp)
    have hc : c < 256 := h c (by simp)
    obtain ⟨body, e, hbody⟩ := ih (fun x hx => h x (by simp [hx]))
    refine ⟨rfc4648Group3 a b c ++ body, ?_, ?_⟩
    · rw [rfc4648Encode_group, e, List.append_assoc]
      congr 3
      simp only [List.length_cons]
      omega
    · intro x hx
      rcases List.mem_append.1 hx with hg | hb'
      · simp only [rfc4648Group3, List.mem_cons, List.mem_singleton, List.not_mem_nil,
          or_false] at hg
        rcases hg with rfl | rfl | rfl | rfl
        · exact basis_mem _ (by omega)
        · exact basis_mem _ (by omega)
        · exact basis_mem _ (by omega)
        · exact basis_mem _ (by omega)
      · exact hbody x hb'

theorem decodeGroup_group3 (a b c : Nat) (ha : a < 256) (hb : b < 256) (hc : c < 256) :
    decodeGroup (basis ((a * 65536 + b * 256 + c) / 262144))
      (basis ((a * 65536 + b * 256 + c) / 4096 % 64))
      (basis ((a * 65536 + b * 256 + c) / 64 % 64))
      (basis ((a * 65536 + b * 256 + c) % 64)) = some [a, b, c] := by
  have n3 := (basis_64_ne _ (basis_mem ((a * 65536 + b * 256 + c) / 64 % 64)
    (Nat.mod_lt _ (by decide)))).1
  have n4 := (basis_64_ne _ (basis_mem ((a * 65536 + b * 256 + c) % 64)
    (Nat.mod_lt _ (by decide)))).1
  simp only [decodeGroup, sextetOf_basis _ (show (a * 65536 + b * 256 + c) / 262144 < 64 by omega),
    sextetOf_basis _ (Nat.mod_lt ((a * 65536 + b * 256 + c) / 4096) (by decide)),
    sextetOf_basis _ (Nat.mod_lt ((a * 65536 + b * 256 + c) / 64) (by decide)),
    sextetOf_basis _ (Nat.mod_lt (a * 65536 + b * 256 + c) (by decide)), n3, n4, false_and,
    if_false]
  congr 2
  · omega
  · congr 2
    · omega
    · omega

/-- The standard decoder gives back the bytes that were encoded. -/
theorem rfc4648Decode_encode : ∀ l : List Nat, (∀ b ∈ l, b < 256) →
    rfc4648Decode (rfc4648Encode l) = some l := by
  intro l
  induction l using rfc4648Encode.induct with
  | case1 => intro _; rfl
  | case2 a =>
    intro h
    have ha : a < 256 := h a (by simp)
    simp only [rfc4648Encode, rfc4648Decode, decodeGroup,
      sextetOf_basis _ (show a * 16 / 64 < 64 by omega),
      sextetOf_basis _ (Nat.mod_lt (a * 16) (by decide))]
    simp
    omega
  | case3 a b =>
    intro h
    have ha : a < 256 := h a (by simp)
    have hb : b < 256 := h b (by simp)
    have n3 := (basis_64_ne _ (basis_mem ((a * 256 + b) * 4 % 64)
      (Nat.mod_lt _ (by decide)))).1
    simp only [rfc4648Encode, rfc4648Decode, decodeGroup,
      sextetOf_basis _ (show (a * 256 + b) * 4 / 4096 < 64 by omega),
      sextetOf_basis _ (Nat.mod_lt ((a * 256 + b) * 4 / 64) (by decide)),
      sextetOf_basis _ (Nat.mod_lt ((a * 256 + b) * 4) (by decide)), n3]
    simp
    omega
  | case4 a b c rest ih =>
    intro h
    have ha : a < 256 := h a (by simp)
    have hb : b < 256 := h b (by simp)
    have hc : c < 256 := h c (by simp)
    have hr := ih (fun x hx => h x (by simp [hx]))
    rw [rfc4648Encode_group]
    simp only [rfc4648Group3, List.cons_append, List.nil_append, rfc4648Decode,
      decodeGroup_group3 a b c ha hb hc]
    have he : ([] : List Nat).append (rfc4648Encode rest) = rfc4648Encode rest := rfl
    rw [he, hr]
    simp

/-! ## Base64: the claims -/

theorem map_mod_lt (l : List Nat) : ∀ b ∈ l.map (fun b => b % 256), b < 256 := by
  intro b hb
  obtain ⟨x, _, rfl⟩ := List.mem_map.1 hb
  exact Nat.mod_lt _ (by decide)

theorem map_mod_self (m : Mem) (string : Nat) : ∀ (len : Nat) ,
    (∀ j, j < len → m (string + j) < 256) →
    (Mem.read m string len).map (fun b => b % 256) = Mem.read m string len := by
  intro len h
  apply List.ext_getElem?
  intro i
  by_cases hi : i < len
  · rw [List.getElem?_map, Mem.getElem?_read m len string i hi]
    simp only [Option.map_some']
    rw [Nat.mod_eq_of_lt (h i hi)]
  · have h1 : (Mem.read m string len).length ≤ i := by
      rw [Mem.read_length]
      omega
    rw [List.getElem?_eq_none (by simpa using h1), List.getElem?_eq_none h1]

/-- The string `myJB64Encode` leaves at `encoded`, for buffers that do not overlap: the RFC
4648 encoding of the bytes, closed by a NUL, which is the first NUL. -/
theorem myJB64Encode_string (signedChar : Bool) (m : Mem) (encoded string len : Nat)
    (hdis : string + len ≤ encoded ∨ encoded + 4 * ((len + 2) / 3) + 1 ≤ string) :
    Mem.read (myJB64Encode signedChar m encoded string len).2 encoded (4 * ((len + 2) / 3))
      = rfc4648Encode ((Mem.read m string len).map (fun b => b % 256)) ∧
    (myJB64Encode signedChar m encoded string len).2 (encoded + 4 * ((len + 2) / 3)) = 0 ∧
    (∀ c ∈ rfc4648Encode ((Mem.read m string len).map (fun b => b % 256)),
      c ≠ 0 ∧ 32 < c ∧ c < 127) ∧
    ∀ limit, 4 * ((len + 2) / 3) + 1 ≤ limit →
      cstring (myJB64Encode signedChar m encoded string len).2 encoded limit
        = rfc4648Encode ((Mem.read m string len).map (fun b => b % 256)) := by
  obtain ⟨_, h2, _⟩ := myJB64Encode_spec signedChar m encoded string len hdis
  have hl := rfc4648Encode_length ((Mem.read m string len).map (fun b => b % 256))
  rw [List.length_map, Mem.read_length] at hl
  rw [Mem.read_add] at h2
  have hsplit := List.append_inj h2 (by rw [Mem.read_length, hl])
  obtain ⟨body, hb, hbody⟩ := rfc4648Encode_shape _
    (map_mod_lt (Mem.read m string len))
  have hchars : ∀ c ∈ rfc4648Encode ((Mem.read m string len).map (fun b => b % 256)),
      c ≠ 0 ∧ 32 < c ∧ c < 127 := by
    intro c hc
    rw [hb] at hc
    rcases List.mem_append.1 hc with h | h
    · exact (basis_64_ne c (hbody c h)).2
    · rw [List.eq_of_mem_replicate h]
      decide
  refine ⟨hsplit.1, ?_, hchars, ?_⟩
  · have := hsplit.2
    simp only [Mem.read, List.cons.injEq, and_true] at this
    exact this
  · intro limit hlimit
    have hk : limit = (4 * ((len + 2) / 3) + 1) + (limit - (4 * ((len + 2) / 3) + 1)) := by
      omega
    simp only [cstring]
    rw [hk, Mem.read_add, Mem.read_add, h2, List.append_assoc, List.singleton_append]
    exact takeWhile_nul_free _ (fun h0 => (hchars 0 h0).1 rfl) _

theorem suffix_padding (body : List Nat) (h61 : 61 ∉ body) :
    ¬ [61] <:+ body ∧ ¬ [61, 61] <:+ body ∧ ¬ [61, 61] <:+ body ++ [61] := by
  have h1 : ¬ [61] <:+ body := by
    rintro ⟨t, ht⟩
    exact h61 (by rw [← ht]; simp)
  refine ⟨h1, ?_, ?_⟩
  · rintro ⟨t, ht⟩
    exact h61 (by rw [← ht]; simp)
  · rintro ⟨t, ht⟩
    have h2 : t ++ [61, 61] = (t ++ [61]) ++ [61] := by simp
    rw [h2] at ht
    have h3 := List.append_inj' ht rfl
    exact h61 (by rw [← h3.1]; simp)

/-- C21: for buffers that do not overlap and every length, the string that `myJB64Encode`
leaves at `encoded`, given to the standard base64 decoder, yields the `len` bytes of
`string`. -/
theorem myJB64Encode_round_trip (signedChar : Bool) (m : Mem) (encoded string len : Nat)
    (hdis : string + len ≤ encoded ∨ encoded + 4 * ((len + 2) / 3) + 1 ≤ string)
    (hbytes : ∀ j, j < len → m (string + j) < 256) :
    rfc4648Decode (cstring (myJB64Encode signedChar m encoded string len).2 encoded
      (4 * ((len + 2) / 3) + 1)) = some (Mem.read m string len) := by
  obtain ⟨_, _, _, h4⟩ := myJB64Encode_string signedChar m encoded string len hdis
  rw [h4 _ (le_refl _), rfc4648Decode_encode _ (map_mod_lt _), map_mod_self m string len hbytes]

/-- C21 at concrete inputs: the buffers of length 0, 1, 2, 3 and 5. -/
theorem myJB64Encode_round_trip_witness :
    rfc4648Decode (cstring (myJB64Encode true (fun _ => 88) 0 1000 0).2 0 1) = some [] ∧
    rfc4648Decode (cstring
      (myJB64Encode true (Mem.writeList (fun _ => 88) 1000 [255]) 0 1000 1).2 0 5)
      = some [255] ∧
    rfc4648Decode (cstring
      (myJB64Encode true (Mem.writeList (fun _ => 88) 1000 [0, 1]) 0 1000 2).2 0 5)
      = some [0, 1] ∧
    rfc4648Decode (cstring
      (myJB64Encode false (Mem.writeList (fun _ => 88) 1000 [0, 1, 2]) 0 1000 3).2 0 5)
      = some [0, 1, 2] ∧
    rfc4648Decode (cstring
      (myJB64Encode true (Mem.writeList (fun _ => 88) 1000 [255, 254, 253, 128, 200]) 0 1000
        5).2 0 9) = some [255, 254, 253, 128, 200] :=
  ⟨myJB64Encode_round_trip true (fun _ => 88) 0 1000 0 (by decide) (by decide),
    myJB64Encode_round_trip true (Mem.writeList (fun _ => 88) 1000 [255]) 0 1000 1
      (by decide) (by decide),
    myJB64Encode_round_trip true (Mem.writeList (fun _ => 88) 1000 [0, 1]) 0 1000 2
      (by decide) (by decide),
    myJB64Encode_round_trip false (Mem.writeList (fun _ => 88) 1000 [0, 1, 2]) 0 1000 3
      (by decide) (by decide),
    myJB64Encode_round_trip true (Mem.writeList (fun _ => 88) 1000 [255, 254, 253, 128, 200])
      0 1000 5 (by decide) (by decide)⟩

/-- C22: for buffers that do not overlap, `myJB64Encode` leaves a string of exactly
`4 * ⌈len / 3⌉` characters, followed by a NUL: characters of the alphabet, then `==` when
`len mod 3 = 1`, one `=` when `len mod 3 = 2`, and no `=` at all when `len mod 3 = 0`; so the
string ends in `==` exactly when `len mod 3 = 1`, in just one `=` exactly when
`len mod 3 = 2`, and holds no `=` exactly when `len mod 3 = 0`. -/
theorem myJB64Encode_length_and_padding (signedChar : Bool) (m : Mem)
    (encoded string len : Nat)
    (hdis : string + len ≤ encoded ∨ encoded + 4 * ((len + 2) / 3) + 1 ≤ string) :
    (cstring (myJB64Encode signedChar m encoded string len).2 encoded
      (4 * ((len + 2) / 3) + 1)).length = 4 * ((len + 2) / 3) ∧
    (myJB64Encode signedChar m encoded string len).2 (encoded + 4 * ((len + 2) / 3)) = 0 ∧
    (∃ body, cstring (myJB64Encode signedChar m encoded string len).2 encoded
        (4 * ((len + 2) / 3) + 1) = body ++ List.replicate ((3 - len % 3) % 3) 61 ∧
      ∀ c ∈ body, c ∈ basis_64) ∧
    ([61, 61] <:+ cstring (myJB64Encode signedChar m encoded string len).2 encoded
        (4 * ((len + 2) / 3) + 1) ↔ len % 3 = 1) ∧
    (([61] <:+ cstring (myJB64Encode signedChar m encoded string len).2 encoded
        (4 * ((len + 2) / 3) + 1) ∧
      ¬ [61, 61] <:+ cstring (myJB64Encode signedChar m encoded string len).2 encoded
        (4 * ((len + 2) / 3) + 1)) ↔ len % 3 = 2) ∧
    (61 ∉ cstring (myJB64Encode signedChar m encoded string len).2 encoded
        (4 * ((len + 2) / 3) + 1) ↔ len % 3 = 0) := by
  obtain ⟨_, h2, _, h4⟩ := myJB64Encode_string signedChar m encoded string len hdis
  have hl := rfc4648Encode_length ((Mem.read m string len).map (fun b => b % 256))
  obtain ⟨body, hb, hbody⟩ := rfc4648Encode_shape _ (map_mod_lt (Mem.read m string len))
  rw [List.length_map, Mem.read_length] at hl hb
  rw [h4 _ (le_refl _)]
  have h61 : 61 ∉ body := fun h => (basis_64_ne 61 (hbody 61 h)).1 rfl
  obtain ⟨s1, s2, s3⟩ := suffix_padding body h61
  refine ⟨hl, h2, ⟨body, hb, hbody⟩, ?_⟩
  rw [hb]
  have h3 : len % 3 = 0 ∨ len % 3 = 1 ∨ len % 3 = 2 := by omega
  rcases h3 with h | h | h
  · rw [h]
    simp only [show (3 - 0) % 3 = 0 by decide, List.replicate_zero, List.append_nil]
    exact ⟨⟨fun x => absurd x s2, fun x => absurd x (by decide)⟩,
      ⟨fun x => absurd x.1 s1, fun x => absurd x (by decide)⟩, ⟨fun _ => trivial, fun _ => h61⟩⟩
  · rw [h]
    simp only [show (3 - 1) % 3 = 2 by decide, List.replicate_succ, List.replicate_zero]
    refine ⟨⟨fun _ => trivial, fun _ => ⟨body, rfl⟩⟩,
      ⟨fun x => absurd ⟨body, rfl⟩ x.2, fun x => absurd x (by decide)⟩,
      ⟨fun x => absurd (by simp) x, fun x => absurd x (by decide)⟩⟩
  · rw [h]
    simp only [show (3 - 2) % 3 = 1 by decide, List.replicate_succ, List.replicate_zero]
    refine ⟨⟨fun x => absurd x s3, fun x => absurd x (by decide)⟩,
      ⟨fun _ => trivial, fun _ => ⟨⟨body, rfl⟩, s3⟩⟩,
      ⟨fun x => absurd (by simp) x, fun x => absurd x (by decide)⟩⟩

/-- C22 at the inputs of the specification: `[0x00]` gives `AA==`, `[0x00, 0x01]` gives
`AAE=`, `[0x00, 0x01, 0x02]` gives `AAEC`, and the empty buffer the empty string. -/
theorem myJB64Encode_length_and_padding_witness :
    cstring (myJB64Encode true (Mem.writeList (fun _ => 88) 1000 [0]) 0 1000 1).2 0 5
      = [65, 65, 61, 61] ∧
    cstring (myJB64Encode true (Mem.writeList (fun _ => 88) 1000 [0, 1]) 0 1000 2).2 0 5
      = [65, 65, 69, 61] ∧
    cstring (myJB64Encode true (Mem.writeList (fun _ => 88) 1000 [0, 1, 2]) 0 1000 3).2 0 5
      = [65, 65, 69, 67] ∧
    cstring (myJB64Encode true (fun _ => 88) 0 1000 0).2 0 1 = [] ∧
    ([61, 61] <:+ cstring
      (myJB64Encode true (Mem.writeList (fun _ => 88) 1000 [0]) 0 1000 1).2 0 5) :=
  ⟨by decide, by decide, by decide, by decide,
    (myJB64Encode_length_and_padding true (Mem.writeList (fun _ => 88) 1000 [0]) 0 1000 1
      (by decide)).2.2.2.1.2 (by decide)⟩

/-- C23: for buffers that do not overlap, whether `char` is signed or not, the characters
`myJB64Encode` stores before the NUL are exactly the RFC 4648 encoding, with the standard
alphabet and `=` padding, of the `len` bytes of `string`; every one of them is a printable
character and none is NUL, the NUL follows them at once, nothing outside the string is
stored, and the choice of signed or unsigned `char` makes no difference to memory. -/
theorem myJB64Encode_is_rfc4648 (signedChar : Bool) (m : Mem) (encoded string len : Nat)
    (hdis : string + len ≤ encoded ∨ encoded + 4 * ((len + 2) / 3) + 1 ≤ string) :
    Mem.read (myJB64Encode signedChar m encoded string len).2 encoded (4 * ((len + 2) / 3))
      = rfc4648Encode ((Mem.read m string len).map (fun b => b % 256)) ∧
    cstring (myJB64Encode signedChar m encoded string len).2 encoded (4 * ((len + 2) / 3) + 1)
      = rfc4648Encode ((Mem.read m string len).map (fun b => b % 256)) ∧
    (myJB64Encode signedChar m encoded string len).2 (encoded + 4 * ((len + 2) / 3)) = 0 ∧
    (∀ c ∈ Mem.read (myJB64Encode signedChar m encoded string len).2 encoded
        (4 * ((len + 2) / 3)), c ≠ 0 ∧ 32 < c ∧ c < 127) ∧
    (∀ j, j < encoded ∨ encoded + 4 * ((len + 2) / 3) + 1 ≤ j →
      (myJB64Encode signedChar m encoded string len).2 j = m j) ∧
    (∀ j, (myJB64Encode true m encoded string len).2 j
      = (myJB64Encode false m encoded string len).2 j) := by
  obtain ⟨h1, h2, h3, h4⟩ := myJB64Encode_string signedChar m encoded string len hdis
  obtain ⟨_, _, hout⟩ := myJB64Encode_spec signedChar m encoded string len hdis
  refine ⟨h1, h4 _ (le_refl _), h2, by rw [h1]; exact h3, hout, ?_⟩
  intro j
  obtain ⟨_, t2, t3⟩ := myJB64Encode_spec true m encoded string len hdis
  obtain ⟨_, f2, f3⟩ := myJB64Encode_spec false m encoded string len hdis
  by_cases hj : j < encoded ∨ encoded + 4 * ((len + 2) / 3) + 1 ≤ j
  · rw [t3 j hj, f3 j hj]
  · have hk : j - encoded < 4 * ((len + 2) / 3) + 1 := by omega
    have e1 := Mem.getElem?_read (myJB64Encode true m encoded string len).2 _ encoded
      (j - encoded) hk
    have e2 := Mem.getElem?_read (myJB64Encode false m encoded string len).2 _ encoded
      (j - encoded) hk
    rw [t2] at e1
    rw [f2, e1] at e2
    have hje : encoded + (j - encoded) = j := by omega
    rw [hje] at e2
    exact Option.some.inj e2

/-- C23 at a concrete input: the bytes `ff fe fd 80 c8`, which are negative where `char` is
signed, come out as `//79gMg=` either way. -/
theorem myJB64Encode_is_rfc4648_witness :
    cstring (myJB64Encode true (Mem.writeList (fun _ => 88) 1000 [255, 254, 253, 128, 200])
      0 1000 5).2 0 9 = [47, 47, 55, 57, 103, 77, 103, 61] ∧
    cstring (myJB64Encode false (Mem.writeList (fun _ => 88) 1000 [255, 254, 253, 128, 200])
      0 1000 5).2 0 9 = [47, 47, 55, 57, 103, 77, 103, 61] ∧
    rfc4648Encode [255, 254, 253, 128, 200] = [47, 47, 55, 57, 103, 77, 103, 61] := by
  have h1 := (myJB64Encode_is_rfc4648 true
    (Mem.writeList (fun _ => 88) 1000 [255, 254, 253, 128, 200]) 0 1000 5 (by decide)).2.1
  have h2 := (myJB64Encode_is_rfc4648 false
    (Mem.writeList (fun _ => 88) 1000 [255, 254, 253, 128, 200]) 0 1000 5 (by decide)).2.1
  have h3 : rfc4648Encode ((Mem.read (Mem.writeList (fun _ => 88) 1000
      [255, 254, 253, 128, 200]) 1000 5).map (fun b => b % 256))
      = [47, 47, 55, 57, 103, 77, 103, 61] := by decide
  rw [h3] at h1 h2
  exact ⟨h1, h2, by decide⟩

/-- C24 (refuted on the code): `myJB64Encode` returns `p - encoded` after the NUL was
stored through `p`, so for buffers that do not overlap the returned number is the length of
the encoded string plus one, not its length. -/
theorem myJB64Encode_returns_length_plus_one (signedChar : Bool) (m : Mem)
    (encoded string len : Nat)
    (hdis : string + len ≤ encoded ∨ encoded + 4 * ((len + 2) / 3) + 1 ≤ string) :
    (myJB64Encode signedChar m encoded string len).1 = 4 * ((len + 2) / 3) + 1 ∧
    (myJB64Encode signedChar m encoded string len).1
      = (cstring (myJB64Encode signedChar m encoded string len).2 encoded
          (4 * ((len + 2) / 3) + 1)).length + 1 := by
  obtain ⟨h1, _, _⟩ := myJB64Encode_spec signedChar m encoded string len hdis
  obtain ⟨_, _, _, h4⟩ := myJB64Encode_string signedChar m encoded string len hdis
  have hl := rfc4648Encode_length ((Mem.read m string len).map (fun b => b % 256))
  rw [List.length_map, Mem.read_length] at hl
  rw [h4 _ (le_refl _), hl]
  exact ⟨h1, h1⟩

/-- C24 at the failing input: for the one byte `00` the string is `AA==`, of 4 characters,
and the return value is 5. -/
theorem myJB64Encode_returns_length_plus_one_witness :
    cstring (myJB64Encode true (Mem.writeList (fun _ => 88) 1000 [0]) 0 1000 1).2 0 5
      = [65, 65, 61, 61] ∧
    (myJB64Encode true (Mem.writeList (fun _ => 88) 1000 [0]) 0 1000 1).1 = 5 :=
  ⟨by decide,
    (myJB64Encode_returns_length_plus_one true (Mem.writeList (fun _ => 88) 1000 [0]) 0 1000 1
      (by decide)).1⟩

/-! ## The retry loops of the sketches -/

theorem App.start_req_spec (app : App σ) (request : List Nat) :
    (app.start_req request).1 = true ∧
    (app.start_req request).2.calls = app.calls ++ [Call.start_req request] ∧
    (app.start_req request).2.dev = app.dev :=
  ⟨rfl, rfl, rfl⟩

theorem App.send_req_calls (E : Board σ) (app : App σ) (response : Bool) (resp_len : Nat)
    (ok : Bool) (c : App σ) (h : app.send_req E response resp_len = some (ok, c)) :
    c.calls = app.calls ++ [Call.send_req ok] := by
  simp only [App.send_req] at h
  split at h
  · exact absurd h (by simp)
  · simp only [Option.some.injEq, Prod.mk.injEq] at h
    obtain ⟨h1, h2⟩ := h
    rw [← h2, ← h1]

/-- On a transport on which every exchange fails, `send_req` returns false. -/
theorem App.send_req_failing (E : Board σ)
    (hfail : ∀ self d response resp_len,
      (RakBlues.send_req E.J E.W E.RUI_SDK E.budget self d response resp_len).ret = some false)
    (app : App σ) (response : Bool) (resp_len : Nat) :
    ∃ c, app.send_req E response resp_len = some (false, c) := by
  simp only [App.send_req, hfail]
  exact ⟨_, rfl⟩

/-- The calls of a retry loop whose every attempt is `start_req`, `send_req` and, where the
loop pauses, `delay(100)` after a failure: some number `k` of attempts, not more than the
bound, all failed but the last, which succeeded if the loop was left with `break` and else
was the last the bound allows. -/
theorem forTries_calls (body : App σ → Option (Bool × App σ)) (request : List Nat)
    (pause : Bool)
    (hbody : ∀ app ok app1, body app = some (ok, app1) →
      app1.calls = app.calls ++ attempt request pause ok) :
    ∀ (n : Nat) (app : App σ) (ok : Bool) (app1 : App σ),
      forTries body (n + 1) app = some (ok, app1) →
      ∃ k, 1 ≤ k ∧ k ≤ n + 1 ∧ (ok = false → k = n + 1) ∧
        app1.calls = app.calls ++ failedTries request pause (k - 1)
          ++ attempt request pause ok := by
  intro n
  induction n with
  | zero =>
    intro app ok app1 h
    simp only [forTries] at h
    rcases hb : body app with _ | ⟨b, a1⟩
    · rw [hb] at h
      exact absurd h (by simp)
    · rw [hb] at h
      cases b
      · simp only [Option.some.injEq, Prod.mk.injEq] at h
        obtain ⟨h1, h2⟩ := h
        subst h1 h2
        exact ⟨1, le_refl _, le_refl _, fun _ => rfl,
          by simpa [failedTries] using hbody app false a1 hb⟩
      · simp only [Option.some.injEq, Prod.mk.injEq] at h
        obtain ⟨h1, h2⟩ := h
        subst h1 h2
        exact ⟨1, le_refl _, le_refl _, fun h0 => absurd h0 (by simp),
          by simpa [failedTries] using hbody app true a1 hb⟩
  | succ n ih =>
    intro app ok app1 h
    rw [forTries] at h
    rcases hb : body app with _ | ⟨b, a1⟩
    · rw [hb] at h
      exact absurd h (by simp)
    · rw [hb] at h
      cases b
      · simp only at h
        obtain ⟨k, k1, k2, k3, k4⟩ := ih a1 ok app1 h
        refine ⟨k + 1, by omega, by omega, fun h0 => by rw [k3 h0], ?_⟩
        rw [k4, hbody app false a1 hb]
        have hk : k + 1 - 1 = (k - 1) + 1 := by omega
        rw [hk]
        simp [failedTries, List.replicate_succ]
      · simp only [Option.some.injEq, Prod.mk.injEq] at h
        obtain ⟨h1, h2⟩ := h
        subst h1 h2
        exact ⟨1, le_refl _, by omega, fun h0 => absurd h0 (by simp),
          by simpa [failedTries] using hbody app true a1 hb⟩

/-- A retry loop whose every attempt fails makes as many attempts as its bound allows and is
not left with `break`. -/
theorem forTries_failing (body : App σ → Option (Bool × App σ)) (request : List Nat)
    (pause : Bool)
    (hbody : ∀ app ok app1, body app = some (ok, app1) →
      app1.calls = app.calls ++ attempt request pause ok)
    (hfail : ∀ app, ∃ app1, body app = some (false, app1)) :
    ∀ (n : Nat) (app : App σ), ∃ app1, forTries body n app = some (false, app1) ∧
      app1.calls = app.calls ++ failedTries request pause n := by
  intro n
  induction n with
  | zero => intro app; exact ⟨app, rfl, by simp [failedTries]⟩
  | succ n ih =>
    intro app
    obtain ⟨a1, h1⟩ := hfail app
    obtain ⟨a2, h2, h3⟩ := ih a1
    refine ⟨a2, ?_, ?_⟩
    · rw [forTries, h1]
      exact h2
    · rw [h3, hbody app false a1 h1]
      simp [failedTries, List.replicate_succ]

theorem App.send_req_failing_eq (E : Board σ)
    (hfail : ∀ self d response resp_len,
      (RakBlues.send_req E.J E.W E.RUI_SDK E.budget self d response resp_len).ret = some false)
    (app : App σ) (response : Bool) (resp_len : Nat) (x : Option (Bool × App σ))
    (h : app.send_req E response resp_len = x) : ∃ c, x = some (false, c) := by
  obtain ⟨c, hc⟩ := App.send_req_failing E hfail app response resp_len
  exact ⟨c, by rw [← h, hc]⟩

theorem attempt_calls (E : Board σ) (app b : App σ) (request : List Nat)
    (hb : b.calls = app.calls ++ [Call.start_req request]) (response : Bool)
    (resp_len : Nat) (ok : Bool) (c : App σ)
    (h : b.send_req E response resp_len = some (ok, c)) :
    c.calls = app.calls ++ attempt request false ok := by
  rw [App.send_req_calls E b response resp_len ok c h, hb]
  simp [attempt]

theorem attempt_calls_pause (E : Board σ) (app b : App σ) (request : List Nat)
    (hb : b.calls = app.calls ++ [Call.start_req request]) (response : Bool)
    (resp_len : Nat) (ok : Bool) (c : App σ)
    (h : b.send_req E response resp_len = some (ok, c)) :
    (if ok then c else c.delay E 100).calls = app.calls ++ attempt request true ok := by
  have hc := App.send_req_calls E b response resp_len ok c h
  cases ok
  · simp [attempt, App.delay, hc, hb]
  · simp [attempt, hc, hb]

theorem rui3_card_version_try_calls (E : Board σ) (app : App σ) (ok : Bool) (app1 : App σ)
    (h : RUI3.card_version_try E app = some (ok, app1)) :
    app1.calls = app.calls ++ attempt (cstr "card.version") false ok := by
  simp only [RUI3.card_version_try, (App.start_req_spec _ _).1, if_true] at h
  split at h
  · exact absurd h (by simp)
  all_goals
    next c hc =>
    simp only [Option.some.injEq, Prod.mk.injEq] at h
    obtain ⟨h1, h2⟩ := h
    subst h1 h2
    exact attempt_calls E app _ _ rfl _ _ _ _ hc

theorem rui3_card_version_try_failing (E : Board σ)
    (hfail : ∀ self d response resp_len,
      (RakBlues.send_req E.J E.W E.RUI_SDK E.budget self d response resp_len).ret = some false)
    (app : App σ) : ∃ app1, RUI3.card_version_try E app = some (false, app1) := by
  simp only [RUI3.card_version_try, (App.start_req_spec _ _).1, if_true]
  split
  all_goals
    next hc =>
    obtain ⟨c1, h1⟩ := App.send_req_failing_eq E hfail _ _ _ _ hc
    first
      | exact ⟨_, rfl⟩
      | exact absurd h1 (by simp)

theorem rui3_location_mode_try_calls (E : Board σ) (app : App σ) (ok : Bool)
    (app1 : App σ) (h : RUI3.location_mode_try E app = some (ok, app1)) :
    app1.calls = app.calls ++ attempt (cstr "card.location.mode") false ok := by
  simp only [RUI3.location_mode_try, (App.start_req_spec _ _).1, if_true] at h
  split at h
  · exact absurd h (by simp)
  all_goals
    next c hc =>
    simp only [Option.some.injEq, Prod.mk.injEq] at h
    obtain ⟨h1, h2⟩ := h
    subst h1 h2
    exact attempt_calls E app _ _ rfl _ _ _ _ hc

theorem rui3_location_mode_try_failing (E : Board σ)
    (hfail : ∀ self d response resp_len,
      (RakBlues.send_req E.J E.W E.RUI_SDK E.budget self d response resp_len).ret = some false)
    (app : App σ) : ∃ app1, RUI3.location_mode_try E app = some (false, app1) := by
  simp only [RUI3.location_mode_try, (App.start_req_spec _ _).1, if_true]
  split
  all_goals
    next hc =>
    obtain ⟨c1, h1⟩ := App.send_req_failing_eq E hfail _ _ _ _ hc
    first
      | exact ⟨_, rfl⟩
      | exact absurd h1 (by simp)

theorem rui3_stop_try_calls (E : Board σ) (request : List Nat) (app : App σ) (ok : Bool)
    (app1 : App σ) (h : RUI3.stop_try E request app = some (ok, app1)) :
    app1.calls = app.calls ++ attempt request false ok := by
  simp only [RUI3.stop_try, (App.start_req_spec _ _).1, if_true] at h
  split at h
  · exact absurd h (by simp)
  all_goals
    next c hc =>
    simp only [Option.some.injEq, Prod.mk.injEq] at h
    obtain ⟨h1, h2⟩ := h
    subst h1 h2
    exact attempt_calls E app _ _ rfl _ _ _ _ hc

theorem rui3_stop_try_failing (E : Board σ)
    (hfail : ∀ self d response resp_len,
      (RakBlues.send_req E.J E.W E.RUI_SDK E.budget self d response resp_len).ret = some false)
    (request : List Nat) (app : App σ) : ∃ app1, RUI3.stop_try E request app = some (false, app1) := by
  simp only [RUI3.stop_try, (App.start_req_spec _ _).1, if_true]
  split
  all_goals
    next hc =>
    obtain ⟨c1, h1⟩ := App.send_req_failing_eq E hfail _ _ _ _ hc
    first
      | exact ⟨_, rfl⟩
      | exact absurd h1 (by simp)

theorem rui3_hub_set_try_calls (E : Board σ) (S : Settings) (app : App σ) (ok : Bool)
    (app1 : App σ) (h : RUI3.hub_set_try E S app = some (ok, app1)) :
    app1.calls = app.calls ++ attempt (cstr "hub.set") true ok := by
  simp only [RUI3.hub_set_try, (App.start_req_spec _ _).1, if_true] at h
  split at h
  · exact absurd h (by simp)
  all_goals
    next c hc =>
    simp only [Option.some.injEq, Prod.mk.injEq] at h
    obtain ⟨h1, h2⟩ := h
    subst h1 h2
    first
      | exact attempt_calls_pause E app _ _ (by split_ifs <;> rfl) _ _ true _ hc
      | exact attempt_calls_pause E app _ _ (by split_ifs <;> rfl) _ _ false _ hc

theorem rui3_hub_set_try_failing (E : Board σ)
    (hfail : ∀ self d response resp_len,
      (RakBlues.send_req E.J E.W E.RUI_SDK E.budget self d response resp_len).ret = some false)
    (S : Settings) (app : App σ) : ∃ app1, RUI3.hub_set_try E S app = some (false, app1) := by
  simp only [RUI3.hub_set_try, (App.start_req_spec _ _).1, if_true]
  split
  all_goals
    next hc =>
    obtain ⟨c1, h1⟩ := App.send_req_failing_eq E hfail _ _ _ _ hc
    first
      | exact ⟨_, rfl⟩
      | exact absurd h1 (by simp)

theorem rui3_card_wireless_try_calls (E : Board σ) (S : Settings) (app : App σ) (ok : Bool)
    (app1 : App σ) (h : RUI3.card_wireless_try E S app = some (ok, app1)) :
    app1.calls = app.calls ++ attempt (cstr "card.wireless") false ok := by
  simp only [RUI3.card_wireless_try, (App.start_req_spec _ _).1, if_true] at h
  split at h
  · exact absurd h (by simp)
  all_goals
    next c hc =>
    simp only [Option.some.injEq, Prod.mk.injEq] at h
    obtain ⟨h1, h2⟩ := h
    subst h1 h2
    exact attempt_calls E app _ _ (by split_ifs <;> rfl) _ _ _ _ hc

theorem rui3_card_wireless_try_failing (E : Board σ)
    (hfail : ∀ self d response resp_len,
      (RakBlues.send_req E.J E.W E.RUI_SDK E.budget self d response resp_len).ret = some false)
    (S : Settings) (app : App σ) : ∃ app1, RUI3.card_wireless_try E S app = some (false, app1) := by
  simp only [RUI3.card_wireless_try, (App.start_req_spec _ _).1, if_true]
  split
  all_goals
    next hc =>
    obtain ⟨c1, h1⟩ := App.send_req_failing_eq E hfail _ _ _ _ hc
    first
      | exact ⟨_, rfl⟩
      | exact absurd h1 (by simp)

theorem rui3_send_payload_try_calls (E : Board σ) (S : Settings) (data data_len payload_b86 : Nat) (app : App σ) (ok : Bool)
    (app1 : App σ) (h : RUI3.send_payload_try E S data data_len payload_b86 app = some (ok, app1)) :
    app1.calls = app.calls ++ attempt (cstr "note.add") false ok := by
  simp only [RUI3.send_payload_try, (App.start_req_spec _ _).1, if_true] at h
  split at h
  · exact absurd h (by simp)
  all_goals
    next c hc =>
    simp only [Option.some.injEq, Prod.mk.injEq] at h
    obtain ⟨h1, h2⟩ := h
    subst h1 h2
    exact attempt_calls E app _ _ rfl _ _ _ _ hc

theorem rui3_send_payload_try_failing (E : Board σ)
    (hfail : ∀ self d response resp_len,
      (RakBlues.send_req E.J E.W E.RUI_SDK E.budget self d response resp_len).ret = some false)
    (S : Settings) (data data_len payload_b86 : Nat) (app : App σ) : ∃ app1, RUI3.send_payload_try E S data data_len payload_b86 app = some (false, app1) := by
  simp only [RUI3.send_payload_try, (App.start_req_spec _ _).1, if_true]
  split
  all_goals
    next hc =>
    obtain ⟨c1, h1⟩ := App.send_req_failing_eq E hfail _ _ _ _ hc
    first
      | exact ⟨_, rfl⟩
      | exact absurd h1 (by simp)

theorem rui3_breq_try_calls (E : Board σ) (request : List Nat) (app : App σ) (ok : Bool)
    (app1 : App σ) (h : RUI3.breq_try E request app = some (ok, app1)) :
    app1.calls = app.calls ++ attempt request true ok := by
  simp only [RUI3.breq_try, (App.start_req_spec _ _).1, if_true] at h
  split at h
  · exact absurd h (by simp)
  all_goals
    next c hc =>
    simp only [Option.some.injEq, Prod.mk.injEq] at h
    obtain ⟨h1, h2⟩ := h
    subst h1 h2
    first
      | exact attempt_calls_pause E app _ _ rfl _ _ true _ hc
      | exact attempt_calls_pause E app _ _ rfl _ _ false _ hc

theorem rui3_breq_try_failing (E : Board σ)
    (hfail : ∀ self d response resp_len,
      (RakBlues.send_req E.J E.W E.RUI_SDK E.budget self d response resp_len).ret = some false)
    (request : List Nat) (app : App σ) : ∃ app1, RUI3.breq_try E request app = some (false, app1) := by
  simp only [RUI3.breq_try, (App.start_req_spec _ _).1, if_true]
  split
  all_goals
    next hc =>
    obtain ⟨c1, h1⟩ := App.send_req_failing_eq E hfail _ _ _ _ hc
    first
      | exact ⟨_, rfl⟩
      | exact absurd h1 (by simp)

theorem wisblock_hub_set_try_calls (E : Board σ) (S : Settings) (app : App σ) (ok : Bool)
    (app1 : App σ) (h : WisBlock.hub_set_try E S app = some (ok, app1)) :
    app1.calls = app.calls ++ attempt (cstr "hub.set") true ok := by
  simp only [WisBlock.hub_set_try, (App.start_req_spec _ _).1, if_true] at h
  split at h
  · exact absurd h (by simp)
  all_goals
    next c hc =>
    simp only [Option.some.injEq, Prod.mk.injEq] at h
    obtain ⟨h1, h2⟩ := h
    subst h1 h2
    first
      | exact attempt_calls_pause E app _ _ (by split_ifs <;> rfl) _ _ true _ hc
      | exact attempt_calls_pause E app _ _ (by split_ifs <;> rfl) _ _ false _ hc

theorem wisblock_hub_set_try_failing (E : Board σ)
    (hfail : ∀ self d response resp_len,
      (RakBlues.send_req E.J E.W E.RUI_SDK E.budget self d response resp_len).ret = some false)
    (S : Settings) (app : App σ) : ∃ app1, WisBlock.hub_set_try E S app = some (false, app1) := by
  simp only [WisBlock.hub_set_try, (App.start_req_spec _ _).1, if_true]
  split
  all_goals
    next hc =>
    obtain ⟨c1, h1⟩ := App.send_req_failing_eq E hfail _ _ _ _ hc
    first
      | exact ⟨_, rfl⟩
      | exact absurd h1 (by simp)

theorem wisblock_card_wireless_try_calls (E : Board σ) (S : Settings) (app : App σ) (ok : Bool)
    (app1 : App σ) (h : WisBlock.card_wireless_try E S app = some (ok, app1)) :
    app1.calls = app.calls ++ attempt (cstr "card.wireless") false ok := by
  simp only [WisBlock.card_wireless_try, (App.start_req_spec _ _).1, if_true] at h
  split at h
  · exact absurd h (by simp)
  all_goals
    next c hc =>
    simp only [Option.some.injEq, Prod.mk.injEq] at h
    obtain ⟨h1, h2⟩ := h
    subst h1 h2
    exact attempt_calls E app _ _ (by split_ifs <;> rfl) _ _ _ _ hc

theorem wisblock_card_wireless_try_failing (E : Board σ)
    (hfail : ∀ self d response resp_len,
      (RakBlues.send_req E.J E.W E.RUI_SDK E.budget self d response resp_len).ret = some false)
    (S : Settings) (app : App σ) : ∃ app1, WisBlock.card_wireless_try E S app = some (false, app1) := by
  simp only [WisBlock.card_wireless_try, (App.start_req_spec _ _).1, if_true]
  split
  all_goals
    next hc =>
    obtain ⟨c1, h1⟩ := App.send_req_failing_eq E hfail _ _ _ _ hc
    first
      | exact ⟨_, rfl⟩
      | exact absurd h1 (by simp)

theorem wisblock_location_mode_try_calls (E : Board σ) (app : App σ) (ok : Bool)
    (app1 : App σ) (h : WisBlock.location_mode_try E app = some (ok, app1)) :
    app1.calls = app.calls ++ attempt (cstr "card.location.mode") false ok := by
  simp only [WisBlock.location_mode_try, (App.start_req_spec _ _).1, if_true] at h
  split at h
  · exact absurd h (by simp)
  all_goals
    next c hc =>
    simp only [Option.some.injEq, Prod.mk.injEq] at h
    obtain ⟨h1, h2⟩ := h
    subst h1 h2
    exact attempt_calls E app _ _ rfl _ _ _ _ hc

theorem wisblock_location_mode_try_failing (E : Board σ)
    (hfail : ∀ self d response resp_len,
      (RakBlues.send_req E.J E.W E.RUI_SDK E.budget self d response resp_len).ret = some false)
    (app : App σ) : ∃ app1, WisBlock.location_mode_try E app = some (false, app1) := by
  simp only [WisBlock.location_mode_try, (App.start_req_spec _ _).1, if_true]
  split
  all_goals
    next hc =>
    obtain ⟨c1, h1⟩ := App.send_req_failing_eq E hfail _ _ _ _ hc
    first
      | exact ⟨_, rfl⟩
      | exact absurd h1 (by simp)

theorem wisblock_stop_try_calls (E : Board σ) (request : List Nat) (app : App σ) (ok : Bool)
    (app1 : App σ) (h : WisBlock.stop_try E request app = some (ok, app1)) :
    app1.calls = app.calls ++ attempt request false ok := by
  simp only [WisBlock.stop_try, (App.start_req_spec _ _).1, if_true] at h
  split at h
  · exact absurd h (by simp)
  all_goals
    next c hc =>
    simp only [Option.some.injEq, Prod.mk.injEq] at h
    obtain ⟨h1, h2⟩ := h
    subst h1 h2
    exact attempt_calls E app _ _ rfl _ _ _ _ hc

theorem wisblock_stop_try_failing (E : Board σ)
    (hfail : ∀ self d response resp_len,
      (RakBlues.send_req E.J E.W E.RUI_SDK E.budget self d response resp_len).ret = some false)
    (request : List Nat) (app : App σ) : ∃ app1, WisBlock.stop_try E request app = some (false, app1) := by
  simp only [WisBlock.stop_try, (App.start_req_spec _ _).1, if_true]
  split
  all_goals
    next hc =>
    obtain ⟨c1, h1⟩ := App.send_req_failing_eq E hfail _ _ _ _ hc
    first
      | exact ⟨_, rfl⟩
      | exact absurd h1 (by simp)

theorem wisblock_card_version_try_calls (E : Board σ) (app : App σ) (ok : Bool)
    (app1 : App σ) (h : WisBlock.card_version_try E app = some (ok, app1)) :
    app1.calls = app.calls ++ attempt (cstr "card.version") false ok := by
  simp only [WisBlock.card_version_try, (App.start_req_spec _ _).1, if_true] at h
  split at h
  · exact absurd h (by simp)
  all_goals
    next c hc =>
    simp only [Option.some.injEq, Prod.mk.injEq] at h
    obtain ⟨h1, h2⟩ := h
    subst h1 h2
    exact attempt_calls E app _ _ rfl _ _ _ _ hc

theorem wisblock_card_version_try_failing (E : Board σ)
    (hfail : ∀ self d response resp_len,
      (RakBlues.send_req E.J E.W E.RUI_SDK E.budget self d response resp_len).ret = some false)
    (app : App σ) : ∃ app1, WisBlock.card_version_try E app = some (false, app1) := by
  simp only [WisBlock.card_version_try, (App.start_req_spec _ _).1, if_true]
  split
  all_goals
    next hc =>
    obtain ⟨c1, h1⟩ := App.send_req_failing_eq E hfail _ _ _ _ hc
    first
      | exact ⟨_, rfl⟩
      | exact absurd h1 (by simp)

theorem wisblock_hub_status_try_calls (E : Board σ) (app : App σ) (ok : Bool)
    (app1 : App σ) (h : WisBlock.hub_status_try E app = some (ok, app1)) :
    app1.calls = app.calls ++ attempt (cstr "hub.status") false ok := by
  simp only [WisBlock.hub_status_try, (App.start_req_spec _ _).1, if_true] at h
  split at h
  · exact absurd h (by simp)
  all_goals
    next c hc =>
    simp only [Option.some.injEq, Prod.mk.injEq] at h
    obtain ⟨h1, h2⟩ := h
    subst h1 h2
    exact attempt_calls E app _ _ rfl _ _ _ _ hc

theorem wisblock_hub_status_try_failing (E : Board σ)
    (hfail : ∀ self d response resp_len,
      (RakBlues.send_req E.J E.W E.RUI_SDK E.budget self d response resp_len).ret = some false)
    (app : App σ) : ∃ app1, WisBlock.hub_status_try E app = some (false, app1) := by
  simp only [WisBlock.hub_status_try, (App.start_req_spec _ _).1, if_true]
  split
  all_goals
    next hc =>
    obtain ⟨c1, h1⟩ := App.send_req_failing_eq E hfail _ _ _ _ hc
    first
      | exact ⟨_, rfl⟩
      | exact absurd h1 (by simp)

/-! ## A card that refuses every write -/

theorem blues_I2C_TX_refused (W : Platform σ)
    (hW : ∀ s a bytes, (W.endTransmission s a bytes).1 % 256 ≠ 0)
    (d : σ) (a : Nat) (m : Mem) (p n : Nat) : (blues_I2C_TX W d a m p n).1 = false := by
  simp [blues_I2C_TX, wireWrite, hW]

theorem txLoop_refused (W : Platform σ)
    (hW : ∀ s a bytes, (W.endTransmission s a bytes).1 % 256 ≠ 0)
    (B a : Nat) (m : Mem) (n : Nat) (s : TxState σ) (h : 0 < s.jsonLen) :
    (txLoop W B a m (n + 1) s).1 = some false := by
  rw [txLoop]
  simp only [gt_iff_lt, h, if_true, blues_I2C_TX_refused W hW]

/-- On a platform whose every write transaction ends with an error, `send_req` returns
false, from its first chunk. -/
theorem send_req_refused (J : Json δ) (W : Platform σ)
    (hW : ∀ s a bytes, (W.endTransmission s a bytes).1 % 256 ≠ 0)
    (rui : Bool) (budget : Nat) (self : RAK_BLUES δ) (d : σ) (response : Option (List Nat))
    (resp_len : Nat) : (send_req J W rui budget self d response resp_len).ret = some false := by
  unfold send_req
  simp only []
  split
  · next h1 =>
    rw [txLoop_refused W hW _ _ _ _ _ (by simp)] at h1
    exact absurd h1 (by simp)
  · rfl
  · next h1 =>
    rw [txLoop_refused W hW _ _ _ _ _ (by simp)] at h1
    exact absurd h1 (by simp)

theorem deadBoard_failing (self : RAK_BLUES Value) (d : Nat) (response : Option (List Nat))
    (resp_len : Nat) :
    (send_req deadBoard.J deadBoard.W deadBoard.RUI_SDK deadBoard.budget self d response
      resp_len).ret = some false :=
  send_req_refused _ _ (fun _ _ _ => by simp [deadBoard, deadBus]) _ _ _ _ _ _

/-! ## The sketches on a transport on which every exchange fails -/

theorem rui3_blues_send_payload_eq (E : Board σ) (S : Settings)
    (data data_len payload_b86 : Nat) (app : App σ) :
    RUI3.blues_send_payload E S data data_len payload_b86 app =
      forTries (RUI3.send_payload_try E S data data_len payload_b86) 3 app := by
  unfold RUI3.blues_send_payload
  rcases forTries (RUI3.send_payload_try E S data data_len payload_b86) 3 app
    with _ | ⟨ok, a⟩
  · rfl
  · cases ok <;> rfl

theorem rui3_breq_handler_eq (E : Board σ) (request : List Nat) (app : App σ) :
    RUI3.breq_handler E [request] app =
      (forTries (RUI3.breq_try E request) 3 app).map
        (fun r => (if r.1 then AtResult.AT_OK else AtResult.AT_ERROR, r.2)) := by
  simp only [RUI3.breq_handler, List.length_singleton, if_true, List.headD_cons]
  rcases forTries (RUI3.breq_try E request) 3 app with _ | ⟨ok, a⟩
  · rfl
  · cases ok <;> rfl

theorem rui3_blues_send_payload_failing (E : Board σ)
    (hfail : ∀ self d response resp_len,
      (RakBlues.send_req E.J E.W E.RUI_SDK E.budget self d response resp_len).ret = some false)
    (S : Settings) (data data_len payload_b86 : Nat) (app : App σ) :
    ∃ a1, RUI3.blues_send_payload E S data data_len payload_b86 app = some (false, a1) ∧
      a1.calls = app.calls ++ failedTries (cstr "note.add") false 3 := by
  rw [rui3_blues_send_payload_eq]
  exact forTries_failing _ _ _ (rui3_send_payload_try_calls E S data data_len payload_b86)
    (rui3_send_payload_try_failing E hfail S data data_len payload_b86) 3 app

theorem rui3_breq_handler_failing (E : Board σ)
    (hfail : ∀ self d response resp_len,
      (RakBlues.send_req E.J E.W E.RUI_SDK E.budget self d response resp_len).ret = some false)
    (request : List Nat) (app : App σ) :
    ∃ a1, RUI3.breq_handler E [request] app = some (AtResult.AT_ERROR, a1) ∧
      a1.calls = app.calls ++ failedTries request true 3 := by
  obtain ⟨a1, h1, c1⟩ := forTries_failing _ _ _ (rui3_breq_try_calls E request)
    (rui3_breq_try_failing E hfail request) 3 app
  exact ⟨a1, by rw [rui3_breq_handler_eq, h1]; rfl, c1⟩

/-- The five loops that switch location and motion off, on a transport on which every
exchange fails. -/
theorem rui3_init_blues_failing (E : Board σ)
    (hfail : ∀ self d response resp_len,
      (RakBlues.send_req E.J E.W E.RUI_SDK E.budget self d response resp_len).ret = some false)
    (S : Settings) (app : App σ) :
    ∃ a1, RUI3.init_blues E S app = some (false, a1) ∧
      a1.calls = app.calls ++
        ([cstr "card.location.mode", cstr "card.location.track", cstr "card.motion.mode",
          cstr "card.motion.sync", cstr "card.motion.track"].map
            (fun request => failedTries request false 3)).flatten ++
        (if S.read_blues_settings then failedTries (cstr "hub.set") true 3
          else failedTries (cstr "card.version") false 3) := by
  obtain ⟨a1, h1, c1⟩ := forTries_failing _ _ _ (rui3_location_mode_try_calls E)
    (rui3_location_mode_try_failing E hfail) 3 app
  obtain ⟨a2, h2, c2⟩ := forTries_failing _ _ _
    (rui3_stop_try_calls E (cstr "card.location.track"))
    (rui3_stop_try_failing E hfail (cstr "card.location.track")) 3 a1
  obtain ⟨a3, h3, c3⟩ := forTries_failing _ _ _
    (rui3_stop_try_calls E (cstr "card.motion.mode"))
    (rui3_stop_try_failing E hfail (cstr "card.motion.mode")) 3 a2
  obtain ⟨a4, h4, c4⟩ := forTries_failing _ _ _
    (rui3_stop_try_calls E (cstr "card.motion.sync"))
    (rui3_stop_try_failing E hfail (cstr "card.motion.sync")) 3 a3
  obtain ⟨a5, h5, c5⟩ := forTries_failing _ _ _
    (rui3_stop_try_calls E (cstr "card.motion.track"))
    (rui3_stop_try_failing E hfail (cstr "card.motion.track")) 3 a4
  have c : a5.calls = app.calls ++
      ([cstr "card.location.mode", cstr "card.location.track", cstr "card.motion.mode",
        cstr "card.motion.sync", cstr "card.motion.track"].map
          (fun request => failedTries request false 3)).flatten := by
    rw [c5, c4, c3, c2, c1]
    simp only [List.map_cons, List.map_nil, List.flatten_cons, List.flatten_nil,
      List.append_assoc, List.append_nil]
  cases hS : S.read_blues_settings
  · obtain ⟨a6, h6, c6⟩ := forTries_failing _ _ _ (rui3_card_version_try_calls E)
      (rui3_card_version_try_failing E hfail) 3 a5
    refine ⟨a6, ?_, ?_⟩
    · simp only [RUI3.init_blues, h1, h2, h3, h4, h5, hS, Bool.false_eq_true, if_false,
        if_true, h6]
    · rw [c6, c]
      rfl
  · obtain ⟨a6, h6, c6⟩ := forTries_failing _ _ _ (rui3_hub_set_try_calls E S)
      (rui3_hub_set_try_failing E hfail S) 3 a5
    refine ⟨a6, ?_, ?_⟩
    · simp only [RUI3.init_blues, h1, h2, h3, h4, h5, hS, Bool.false_eq_true, if_false,
        if_true, h6]
    · rw [c6, c]
      rfl

theorem wisblock_blues_send_payload_calls (E : Board σ) (S : Settings)
    (data data_len payload_b86 : Nat) (app : App σ) (ok : Bool) (app1 : App σ)
    (h : WisBlock.blues_send_payload E S data data_len payload_b86 app = some (ok, app1)) :
    app1.calls = app.calls ++ attempt (cstr "note.add") false ok := by
  simp only [WisBlock.blues_send_payload, (App.start_req_spec _ _).1, if_true] at h
  split at h
  · exact absurd h (by simp)
  all_goals
    next c hc =>
    simp only [Option.some.injEq, Prod.mk.injEq] at h
    obtain ⟨h1, h2⟩ := h
    subst h1 h2
    exact attempt_calls E app _ _ rfl _ _ _ _ hc

theorem wisblock_blues_send_payload_failing (E : Board σ)
    (hfail : ∀ self d response resp_len,
      (RakBlues.send_req E.J E.W E.RUI_SDK E.budget self d response resp_len).ret = some false)
    (S : Settings) (data data_len payload_b86 : Nat) (app : App σ) :
    ∃ app1, WisBlock.blues_send_payload E S data data_len payload_b86 app
      = some (false, app1) := by
  simp only [WisBlock.blues_send_payload, (App.start_req_spec _ _).1, if_true]
  split
  all_goals
    next hc =>
    obtain ⟨c1, h1⟩ := App.send_req_failing_eq E hfail _ _ _ _ hc
    first
      | exact ⟨_, rfl⟩
      | exact absurd h1 (by simp)

theorem rui3_blues_card_restore_calls (E : Board σ) (app app1 : App σ)
    (h : RUI3.blues_card_restore E app = some app1) :
    ∃ ok, app1.calls = app.calls ++ attempt (cstr "hub.status") false ok := by
  simp only [RUI3.blues_card_restore] at h
  rcases hc : App.send_req E (((app.start_req (cstr "hub.status")).2.build
      (fun r => add_bool_entry r (cstr "delete") true)).build
      (fun r => add_bool_entry r (cstr "connected") true)) false 0 with _ | ⟨ok, c⟩
  · rw [hc] at h
    exact absurd h (by simp)
  · rw [hc] at h
    simp only [Option.map_some', Option.some.injEq] at h
    subst h
    exact ⟨ok, attempt_calls E app _ _ rfl _ _ _ _ hc⟩

theorem rui3_blues_card_restore_failing (E : Board σ)
    (hfail : ∀ self d response resp_len,
      (RakBlues.send_req E.J E.W E.RUI_SDK E.budget self d response resp_len).ret = some false)
    (app : App σ) :
    ∃ app1, RUI3.blues_card_restore E app = some app1 ∧
      app1.calls = app.calls ++ attempt (cstr "hub.status") false false := by
  obtain ⟨c, hc⟩ := App.send_req_failing E hfail
    (((app.start_req (cstr "hub.status")).2.build
      (fun r => add_bool_entry r (cstr "delete") true)).build
      (fun r => add_bool_entry r (cstr "connected") true)) false 0
  refine ⟨c, ?_, attempt_calls E app _ _ rfl _ _ _ _ hc⟩
  simp only [RUI3.blues_card_restore, hc]
  rfl

theorem wisblock_blues_card_restore_calls (E : Board σ) (app app1 : App σ)
    (h : WisBlock.blues_card_restore E app = some app1) :
    ∃ ok, app1.calls = app.calls ++ attempt (cstr "hub.status") false ok := by
  simp only [WisBlock.blues_card_restore] at h
  rcases hc : App.send_req E (((app.start_req (cstr "hub.status")).2.build
      (fun r => add_bool_entry r (cstr "delete") true)).build
      (fun r => add_bool_entry r (cstr "connected") true)) false 0 with _ | ⟨ok, c⟩
  · rw [hc] at h
    exact absurd h (by simp)
  · rw [hc] at h
    simp only [Option.map_some', Option.some.injEq] at h
    subst h
    exact ⟨ok, attempt_calls E app _ _ rfl _ _ _ _ hc⟩

theorem wisblock_blues_card_restore_failing (E : Board σ)
    (hfail : ∀ self d response resp_len,
      (RakBlues.send_req E.J E.W E.RUI_SDK E.budget self d response resp_len).ret = some false)
    (app : App σ) :
    ∃ app1, WisBlock.blues_card_restore E app = some app1 ∧
      app1.calls = app.calls ++ attempt (cstr "hub.status") false false := by
  obtain ⟨c, hc⟩ := App.send_req_failing E hfail
    (((app.start_req (cstr "hub.status")).2.build
      (fun r => add_bool_entry r (cstr "delete") true)).build
      (fun r => add_bool_entry r (cstr "connected") true)) false 0
  refine ⟨c, ?_, attempt_calls E app _ _ rfl _ _ _ _ hc⟩
  simp only [WisBlock.blues_card_restore, hc]
  rfl

theorem wisblock_blues_hub_status_failing (E : Board σ)
    (hfail : ∀ self d response resp_len,
      (RakBlues.send_req E.J E.W E.RUI_SDK E.budget self d response resp_len).ret = some false)
    (app : App σ) :
    ∃ a1, WisBlock.blues_hub_status E app = some a1 ∧
      a1.calls = app.calls ++ failedTries (cstr "hub.status") false 3 := by
  obtain ⟨a1, h1, c1⟩ := forTries_failing _ _ _ (wisblock_hub_status_try_calls E)
    (wisblock_hub_status_try_failing E hfail) 3 app
  exact ⟨a1, by rw [WisBlock.blues_hub_status, h1]; rfl, c1⟩

/-- The WisBlock `init_blues` on a transport on which every exchange fails: with saved
settings it returns false after the `hub.set` loop; without, it runs its six other loops and
returns true. -/
theorem wisblock_init_blues_failing (E : Board σ)
    (hfail : ∀ self d response resp_len,
      (RakBlues.send_req E.J E.W E.RUI_SDK E.budget self d response resp_len).ret = some false)
    (S : Settings) (app : App σ) :
    ∃ a1, WisBlock.init_blues E S app = some (!S.read_blues_settings, a1) ∧
      a1.calls = app.calls ++
        (if S.read_blues_settings then failedTries (cstr "hub.set") true 3
          else ([cstr "card.location.mode", cstr "card.location.track",
            cstr "card.motion.mode", cstr "card.motion.sync", cstr "card.motion.track",
            cstr "card.version"].map (fun request => failedTries request false 3)).flatten)
      := by
  cases hS : S.read_blues_settings
  · obtain ⟨a1, h1, c1⟩ := forTries_failing _ _ _ (wisblock_location_mode_try_calls E)
      (wisblock_location_mode_try_failing E hfail) 3 app
    obtain ⟨a2, h2, c2⟩ := forTries_failing _ _ _
      (wisblock_stop_try_calls E (cstr "card.location.track"))
      (wisblock_stop_try_failing E hfail (cstr "card.location.track")) 3 a1
    obtain ⟨a3, h3, c3⟩ := forTries_failing _ _ _
      (wisblock_stop_try_calls E (cstr "card.motion.mode"))
      (wisblock_stop_try_failing E hfail (cstr "card.motion.mode")) 3 a2
    obtain ⟨a4, h4, c4⟩ := forTries_failing _ _ _
      (wisblock_stop_try_calls E (cstr "card.motion.sync"))
      (wisblock_stop_try_failing E hfail (cstr "card.motion.sync")) 3 a3
    obtain ⟨a5, h5, c5⟩ := forTries_failing _ _ _
      (wisblock_stop_try_calls E (cstr "card.motion.track"))
      (wisblock_stop_try_failing E hfail (cstr "card.motion.track")) 3 a4
    obtain ⟨a6, h6, c6⟩ := forTries_failing _ _ _ (wisblock_card_version_try_calls E)
      (wisblock_card_version_try_failing E hfail) 3 a5
    refine ⟨a6, ?_, ?_⟩
    · simp only [WisBlock.init_blues, hS, Bool.false_eq_true, if_false, h1, h2, h3, h4, h5,
        h6, Bool.not_false]
    · rw [c6, c5, c4, c3, c2, c1]
      simp only [Bool.false_eq_true, if_false, List.map_cons, List.map_nil,
        List.flatten_cons, List.flatten_nil, List.append_assoc, List.append_nil]
  · obtain ⟨a1, h1, c1⟩ := forTries_failing _ _ _ (wisblock_hub_set_try_calls E S)
      (wisblock_hub_set_try_failing E hfail S) 3 app
    refine ⟨a1, ?_, ?_⟩
    · simp only [WisBlock.init_blues, hS, if_true, h1, Bool.not_true]
    · rw [c1]
      rfl

theorem sendCount_append (xs ys : List Call) :
    sendCount (xs ++ ys) = sendCount xs + sendCount ys := by
  induction xs with
  | nil => simp [sendCount]
  | cons x xs ih =>
    cases x <;> simp [sendCount, ih]
    omega

theorem sendCount_failedTries (cs : List Call) (request : List Nat) (pause : Bool) (k : Nat) :
    sendCount (cs ++ failedTries request pause k) = sendCount cs + k := by
  rw [sendCount_append]
  congr 1
  induction k with
  | zero => rfl
  | succ k ih =>
    have h : failedTries request pause (k + 1)
        = attempt request pause false ++ failedTries request pause k := by
      simp [failedTries, List.replicate_succ]
    rw [h, sendCount_append, ih]
    cases pause <;> simp [attempt, sendCount]
    all_goals omega

/-! ## The retry envelope -/

/-- C25: the retry loops of the RUI3 sketch (`note.add` in `blues_send_payload`, the request
of `breq_handler`, and `hub.set`, `card.wireless` and `card.version` in `init_blues`) are
bounded by 3. On every transport a loop that ends has made `k` attempts (`start_req`, then
`send_req`) with `1 ≤ k ≤ 3`, the first `k - 1` failed, the last succeeded unless `k = 3`;
`blues_send_payload` returns whether the loop was left on a success, `breq_handler` returns
`AT_OK` then and `AT_ERROR` else. On a transport on which `send_req` always returns false
each loop makes exactly 3 attempts and no fourth, `blues_send_payload` returns false,
`breq_handler` returns `AT_ERROR`, and `init_blues` returns false after 3 attempts at
`hub.set` (with saved settings) or at `card.version` (without). -/
theorem retry_bound (E : Board σ) (S : Settings) (data data_len payload_b86 : Nat)
    (request : List Nat) (app : App σ) :
    (∀ p ∈ [(RUI3.send_payload_try E S data data_len payload_b86, cstr "note.add", false),
        (RUI3.breq_try E request, request, true),
        (RUI3.hub_set_try E S, cstr "hub.set", true),
        (RUI3.card_wireless_try E S, cstr "card.wireless", false),
        (RUI3.card_version_try E, cstr "card.version", false)],
      ∀ a ok a1, forTries p.1 3 a = some (ok, a1) →
        ∃ k, 1 ≤ k ∧ k ≤ 3 ∧ (ok = false → k = 3) ∧
          a1.calls = a.calls ++ failedTries p.2.1 p.2.2 (k - 1) ++ attempt p.2.1 p.2.2 ok) ∧
    RUI3.blues_send_payload E S data data_len payload_b86 app =
      forTries (RUI3.send_payload_try E S data data_len payload_b86) 3 app ∧
    RUI3.breq_handler E [request] app =
      (forTries (RUI3.breq_try E request) 3 app).map
        (fun r => (if r.1 then AtResult.AT_OK else AtResult.AT_ERROR, r.2)) ∧
    ((∀ self d response resp_len,
        (send_req E.J E.W E.RUI_SDK E.budget self d response resp_len).ret = some false) →
      (∀ p ∈ [(RUI3.send_payload_try E S data data_len payload_b86, cstr "note.add", false),
          (RUI3.breq_try E request, request, true),
          (RUI3.hub_set_try E S, cstr "hub.set", true),
          (RUI3.card_wireless_try E S, cstr "card.wireless", false),
          (RUI3.card_version_try E, cstr "card.version", false)],
        ∀ a, ∃ a1, forTries p.1 3 a = some (false, a1) ∧
          a1.calls = a.calls ++ failedTries p.2.1 p.2.2 3 ∧
          sendCount a1.calls = sendCount a.calls + 3) ∧
      (∃ a1, RUI3.blues_send_payload E S data data_len payload_b86 app = some (false, a1) ∧
        a1.calls = app.calls ++ failedTries (cstr "note.add") false 3) ∧
      (∃ a1, RUI3.breq_handler E [request] app = some (AtResult.AT_ERROR, a1) ∧
        a1.calls = app.calls ++ failedTries request true 3) ∧
      (∃ a1, RUI3.init_blues E S app = some (false, a1) ∧
        a1.calls = app.calls ++
          ([cstr "card.location.mode", cstr "card.location.track", cstr "card.motion.mode",
            cstr "card.motion.sync", cstr "card.motion.track"].map
              (fun request => failedTries request false 3)).flatten ++
          (if S.read_blues_settings then failedTries (cstr "hub.set") true 3
            else failedTries (cstr "card.version") false 3))) := by
  refine ⟨?_, rui3_blues_send_payload_eq E S data data_len payload_b86 app,
    rui3_breq_handler_eq E request app, fun hfail => ⟨?_,
      rui3_blues_send_payload_failing E hfail S data data_len payload_b86 app,
      rui3_breq_handler_failing E hfail request app, rui3_init_blues_failing E hfail S app⟩⟩
  · intro p hp
    simp only [List.mem_cons, List.mem_singleton, List.not_mem_nil, or_false] at hp
    rcases hp with rfl | rfl | rfl | rfl | rfl
    · exact forTries_calls _ _ _
        (rui3_send_payload_try_calls E S data data_len payload_b86) 2
    · exact forTries_calls _ _ _ (rui3_breq_try_calls E request) 2
    · exact forTries_calls _ _ _ (rui3_hub_set_try_calls E S) 2
    · exact forTries_calls _ _ _ (rui3_card_wireless_try_calls E S) 2
    · exact forTries_calls _ _ _ (rui3_card_version_try_calls E) 2
  · intro p hp a
    simp only [List.mem_cons, List.mem_singleton, List.not_mem_nil, or_false] at hp
    rcases hp with rfl | rfl | rfl | rfl | rfl
    · obtain ⟨a1, h1, c1⟩ := forTries_failing _ _ _
        (rui3_send_payload_try_calls E S data data_len payload_b86)
        (rui3_send_payload_try_failing E hfail S data data_len payload_b86) 3 a
      exact ⟨a1, h1, c1, by rw [c1, sendCount_failedTries]⟩
    · obtain ⟨a1, h1, c1⟩ := forTries_failing _ _ _ (rui3_breq_try_calls E request)
        (rui3_breq_try_failing E hfail request) 3 a
      exact ⟨a1, h1, c1, by rw [c1, sendCount_failedTries]⟩
    · obtain ⟨a1, h1, c1⟩ := forTries_failing _ _ _ (rui3_hub_set_try_calls E S)
        (rui3_hub_set_try_failing E hfail S) 3 a
      exact ⟨a1, h1, c1, by rw [c1, sendCount_failedTries]⟩
    · obtain ⟨a1, h1, c1⟩ := forTries_failing _ _ _ (rui3_card_wireless_try_calls E S)
        (rui3_card_wireless_try_failing E hfail S) 3 a
      exact ⟨a1, h1, c1, by rw [c1, sendCount_failedTries]⟩
    · obtain ⟨a1, h1, c1⟩ := forTries_failing _ _ _ (rui3_card_version_try_calls E)
        (rui3_card_version_try_failing E hfail) 3 a
      exact ⟨a1, h1, c1, by rw [c1, sendCount_failedTries]⟩

/-- Witness for C25: on the card that refuses every write `breq_handler` makes exactly three
attempts, each followed by `delay(100)`, and returns `AT_ERROR`; on the scripted card, whose
first write transaction fails, it makes two attempts and returns `AT_OK`. -/
theorem retry_bound_witness :
    (∀ self d response resp_len,
      (send_req deadBoard.J deadBoard.W deadBoard.RUI_SDK deadBoard.budget self d response
        resp_len).ret = some false) ∧
    (∃ a1, RUI3.breq_handler deadBoard [cstr "card.version"] freshApp
        = some (AtResult.AT_ERROR, a1) ∧
      a1.calls = freshApp.calls ++ failedTries (cstr "card.version") true 3) ∧
    (RUI3.breq_handler scriptedBoard [cstr "card.version"] scriptedApp).map
        (fun r => (r.1, r.2.calls))
      = some (AtResult.AT_OK,
          attempt (cstr "card.version") true false ++ attempt (cstr "card.version") true true)
    :=
  ⟨deadBoard_failing,
    ((retry_bound deadBoard savedSettings 100 4 200 (cstr "card.version") freshApp).2.2.2
      deadBoard_failing).2.2.1,
    by decide⟩

/-- C26 (counterexample): on the card that refuses every write, so that `send_req` always
returns false, `blues_card_restore` of both sketches and `blues_send_payload` of the
WisBlock sketch call `send_req` once and do not try again; the three attempts of the RUI3
`blues_send_payload` follow each other with no delay; and the WisBlock `init_blues` without
saved settings returns true after all its eighteen attempts failed. -/
theorem retry_envelope_not_everywhere :
    (∀ self d response resp_len,
      (send_req deadBoard.J deadBoard.W deadBoard.RUI_SDK deadBoard.budget self d response
        resp_len).ret = some false) ∧
    (RUI3.blues_card_restore deadBoard freshApp).map (fun a => a.calls)
      = some [Call.start_req (cstr "hub.status"), Call.send_req false] ∧
    (WisBlock.blues_card_restore deadBoard freshApp).map (fun a => a.calls)
      = some [Call.start_req (cstr "hub.status"), Call.send_req false] ∧
    (WisBlock.blues_send_payload deadBoard savedSettings 100 4 200 freshApp).map
        (fun r => (r.1, r.2.calls))
      = some (false, [Call.start_req (cstr "note.add"), Call.send_req false]) ∧
    (RUI3.blues_send_payload deadBoard savedSettings 100 4 200 freshApp).map
        (fun r => (r.1, r.2.calls))
      = some (false, [Call.start_req (cstr "note.add"), Call.send_req false,
          Call.start_req (cstr "note.add"), Call.send_req false,
          Call.start_req (cstr "note.add"), Call.send_req false]) ∧
    (WisBlock.init_blues deadBoard { savedSettings with read_blues_settings := false }
        freshApp).map (fun r => (r.1, sendCount r.2.calls))
      = some (true, 18) :=
  ⟨deadBoard_failing, by decide, by decide, by decide, by decide, by decide⟩

/-- C26 (as amended): on a transport on which `send_req` always returns false, the call
sites that are wrapped in a loop make exactly 3 attempts (`start_req`, then `send_req`) per
request: the loops of `init_blues` of both sketches, `blues_send_payload` of the RUI3
sketch, `blues_hub_status` of the WisBlock sketch and `breq_handler`; `delay(100)` follows a
failed attempt in the `hub.set` loops and in `breq_handler` only. The RUI3 `init_blues`
returns false after the `hub.set` loop (with saved settings) or the `card.version` loop
(without), the WisBlock `init_blues` returns false after the `hub.set` loop when it has
saved settings, `blues_send_payload` returns false and `breq_handler` returns `AT_ERROR`.
`blues_send_payload` of the WisBlock sketch and `blues_card_restore` of both sketches make
one attempt. -/
theorem retry_envelope_sites (E : Board σ) (S : Settings) (data data_len payload_b86 : Nat)
    (request : List Nat) (app : App σ)
    (hfail : ∀ self d response resp_len,
      (send_req E.J E.W E.RUI_SDK E.budget self d response resp_len).ret = some false) :
    (∃ a1, RUI3.init_blues E S app = some (false, a1) ∧
      a1.calls = app.calls ++
        ([cstr "card.location.mode", cstr "card.location.track", cstr "card.motion.mode",
          cstr "card.motion.sync", cstr "card.motion.track"].map
            (fun request => failedTries request false 3)).flatten ++
        (if S.read_blues_settings then failedTries (cstr "hub.set") true 3
          else failedTries (cstr "card.version") false 3)) ∧
    (∃ ok a1, WisBlock.init_blues E S app = some (ok, a1) ∧
      (S.read_blues_settings = true → ok = false) ∧
      a1.calls = app.calls ++
        (if S.read_blues_settings then failedTries (cstr "hub.set") true 3
          else ([cstr "card.location.mode", cstr "card.location.track",
            cstr "card.motion.mode", cstr "card.motion.sync", cstr "card.motion.track",
            cstr "card.version"].map (fun request => failedTries request false 3)).flatten)) ∧
    (∃ a1, RUI3.blues_send_payload E S data data_len payload_b86 app = some (false, a1) ∧
      a1.calls = app.calls ++ failedTries (cstr "note.add") false 3) ∧
    (∃ a1, WisBlock.blues_hub_status E app = some a1 ∧
      a1.calls = app.calls ++ failedTries (cstr "hub.status") false 3) ∧
    (∃ a1, RUI3.breq_handler E [request] app = some (AtResult.AT_ERROR, a1) ∧
      a1.calls = app.calls ++ failedTries request true 3) ∧
    (∃ a1, WisBlock.blues_send_payload E S data data_len payload_b86 app = some (false, a1) ∧
      a1.calls = app.calls ++ attempt (cstr "note.add") false false) ∧
    (∃ a1, RUI3.blues_card_restore E app = some a1 ∧
      a1.calls = app.calls ++ attempt (cstr "hub.status") false false) ∧
    (∃ a1, WisBlock.blues_card_restore E app = some a1 ∧
      a1.calls = app.calls ++ attempt (cstr "hub.status") false false) := by
  refine ⟨rui3_init_blues_failing E hfail S app, ?_,
    rui3_blues_send_payload_failing E hfail S data data_len payload_b86 app,
    wisblock_blues_hub_status_failing E hfail app,
    rui3_breq_handler_failing E hfail request app, ?_,
    rui3_blues_card_restore_failing E hfail app,
    wisblock_blues_card_restore_failing E hfail app⟩
  · obtain ⟨a1, h1, c1⟩ := wisblock_init_blues_failing E hfail S app
    exact ⟨_, a1, h1, fun h => by rw [h]; rfl, c1⟩
  · obtain ⟨a1, h1⟩ := wisblock_blues_send_payload_failing E hfail S data data_len
      payload_b86 app
    exact ⟨a1, h1, wisblock_blues_send_payload_calls E S data data_len payload_b86 app false
      a1 h1⟩

/-- Witness for C26 (as amended): the card that refuses every write is a transport on which
`send_req` always returns false, and on it the WisBlock `blues_hub_status` makes exactly
three attempts. -/
theorem retry_envelope_sites_witness :
    (∀ self d response resp_len,
      (send_req deadBoard.J deadBoard.W deadBoard.RUI_SDK deadBoard.budget self d response
        resp_len).ret = some false) ∧
    (∃ a1, WisBlock.blues_hub_status deadBoard freshApp = some a1 ∧
      a1.calls = freshApp.calls ++ failedTries (cstr "hub.status") false 3) :=
  ⟨deadBoard_failing,
    (retry_envelope_sites deadBoard savedSettings 100 4 200 (cstr "card.version") freshApp
      deadBoard_failing).2.2.2.1⟩

end RakBlues
